import Mathlib

/-!
A shallow embedding of the sonant-rs core (`src/song.rs`, `src/synth.rs`,
`src/consts.rs`) together with theorems about the decoder and the streaming
synthesizer.

Modelling conventions:

* Machine integers are `Nat`; `u8`/`u32` wrapping arithmetic is explicit
  (`% 256`, `% 4294967296`).  Operations that panic in the source —
  out-of-bounds indexing, division or remainder by zero, and `u32`
  subtraction underflow — are modelled with `Option` (`none` = panic);
  `u32` addition and multiplication wrap, as in a release build.
* `f32` values are idealized as exact rationals (`ℚ`).  The transcendental
  `f32` operations (`sin`, `log`, `f32::from_bits`) and the pseudo-random
  noise stream are opaque parameters collected in `FloatEnv`; the theorems
  below hold for every instantiation of those parameters, in particular for
  the true `f32` semantics.  No branch of the synthesizer's control flow
  depends on the abstracted values.  `powf` is only ever applied to integer
  exponents in this program and is modelled by `zpow`.
* Fixed-size Rust arrays are functions out of `Fin n`; indexing with a
  runtime `usize` goes through an explicit bound check that mirrors the
  panic on out-of-range access.
-/

namespace Sonant

/-- Decoder errors (`Error`, src/song.rs:16-25). -/
inductive Error where
  | FileLength
  | InvalidWaveform
  | InvalidFilter
deriving DecidableEq

/-- Available wave forms (`Waveform`, src/song.rs:139-144). -/
inductive Waveform where
  | Sine
  | Square
  | Saw
  | Triangle
deriving DecidableEq

/-- Available filters (`Filter`, src/song.rs:129-135). -/
inductive Filter where
  | None
  | HighPass
  | LowPass
  | BandPass
  | Notch
deriving DecidableEq

/-- A borrowed byte slice `&[u8]`: a content function plus a length.  `get`
reads one byte; the `% 256` expresses the `u8` value range. -/
structure ByteSlice where
  data : Nat → Nat
  len : Nat

def ByteSlice.get (s : ByteSlice) (i : Nat) : Nat := s.data i % 256

/-- `Oscillator` (src/song.rs:51-58). -/
structure Oscillator where
  octave : Nat
  detune_freq : Nat
  detune : ℚ
  envelope : Bool
  volume : ℚ
  waveform : Waveform

/-- `Envelope` (src/song.rs:63-68). -/
structure Envelope where
  attack : Nat
  sustain : Nat
  release : Nat
  master : ℚ

/-- `Effects` (src/song.rs:72-80).  The `freq: f32` field is kept as its raw
little-endian bit pattern (the source stores `f32::from_bits` of these bytes;
the bits are interpreted only at the filter, through `FloatEnv.from_bits`). -/
structure Effects where
  filter : Filter
  freq_bits : Nat
  resonance : ℚ
  delay_time : Nat
  delay_amount : ℚ
  pan_freq : Nat
  pan_amount : ℚ

/-- `LFO` (src/song.rs:85-91). -/
structure LFO where
  osc0_freq : Bool
  fx_freq : Bool
  freq : Nat
  amount : ℚ
  waveform : Waveform

/-- `Pattern` (src/song.rs:123-125): 32 note bytes. -/
structure Pattern where
  notes : Fin 32 → Nat

/-- `Instrument` (src/song.rs:39-47). -/
structure Instrument where
  osc : Fin 2 → Oscillator
  noise_fader : ℚ
  env : Envelope
  fx : Effects
  lfo : LFO
  seq : Fin 48 → Nat
  pat : Fin 10 → Pattern

/-- `Song` (src/song.rs:30-34). -/
structure Song where
  instruments : Fin 8 → Instrument
  seq_length : Nat
  quarter_note_length : Nat

/-- `LittleEndian::read_u32` of the four bytes starting at `i`. -/
def readU32 (s : ByteSlice) (i : Nat) : Nat :=
  s.get i + s.get (i + 1) * 256 + s.get (i + 2) * 65536 + s.get (i + 3) * 16777216

/-- `parse_waveform` (src/song.rs:157-165). -/
def parse_waveform (waveform : Nat) : Except Error Waveform :=
  match waveform with
  | 0 => .ok .Sine
  | 1 => .ok .Square
  | 2 => .ok .Saw
  | 3 => .ok .Triangle
  | _ => .error .InvalidWaveform

/-- `load_oscillator` (src/song.rs:167-184).  The octave knob uses `u8`
wrapping arithmetic `(Wrapping(b) - Wrapping(8)) * Wrapping(12)`, i.e.
subtract 8 mod 256 (add 248), multiply by 12 mod 256. -/
def load_oscillator (s : ByteSlice) (i o : Nat) : Except Error Oscillator := do
  let i := i + o * 6
  let octave := (s.get (i + 0) + 248) % 256 * 12 % 256
  let detune_freq := s.get (i + 1)
  let detune : ℚ := (s.get (i + 2) : ℚ) * (2 / 10) / 255 + 1
  let envelope := s.get (i + 3) != 0
  let volume : ℚ := (s.get (i + 4) : ℚ) / 255
  let waveform ← parse_waveform (s.get (i + 5))
  return { octave, detune_freq, detune, envelope, volume, waveform }

/-- `load_envelope` (src/song.rs:186-198). -/
def load_envelope (s : ByteSlice) (i : Nat) : Envelope :=
  { attack := readU32 s i
    sustain := readU32 s (i + 4)
    release := readU32 s (i + 8)
    master := (s.get (i + 12) : ℚ) * 156 }

/-- The filter-byte match at the top of `load_effects` (src/song.rs:201-208),
factored out of the closure. -/
def parse_filter (b : Nat) : Except Error Filter :=
  match b with
  | 0 => .ok .None
  | 1 => .ok .HighPass
  | 2 => .ok .LowPass
  | 3 => .ok .BandPass
  | 4 => .ok .Notch
  | _ => .error .InvalidFilter

/-- `load_effects` (src/song.rs:200-226). -/
def load_effects (s : ByteSlice) (i : Nat) : Except Error Effects := do
  let filter ← parse_filter (s.get (i + 0))
  let i := i + 3
  let freq_bits := readU32 s i
  let resonance : ℚ := (s.get (i + 4) : ℚ) / 255
  let delay_time := s.get (i + 5)
  let delay_amount : ℚ := (s.get (i + 6) : ℚ) / 255
  let pan_freq := s.get (i + 7)
  let pan_amount : ℚ := (s.get (i + 8) : ℚ) / 512
  return { filter, freq_bits, resonance, delay_time, delay_amount, pan_freq, pan_amount }

/-- `load_lfo` (src/song.rs:228-242). -/
def load_lfo (s : ByteSlice) (i : Nat) : Except Error LFO := do
  let osc0_freq := s.get (i + 0) != 0
  let fx_freq := s.get (i + 1) != 0
  let freq := s.get (i + 2)
  let amount : ℚ := (s.get (i + 3) : ℚ) / 512
  let waveform ← parse_waveform (s.get (i + 4))
  return { osc0_freq, fx_freq, freq, amount, waveform }

/-- `load_sequence` (src/song.rs:244-255): 48 pattern indices. -/
def load_sequence (s : ByteSlice) (i : Nat) : Fin 48 → Nat :=
  fun j => s.get (i + j.val)

/-- `load_pattern` (src/song.rs:257-263). -/
def load_pattern (s : ByteSlice) (i p : Nat) : Pattern :=
  { notes := fun n => s.get (i + p * 32 + n.val) }

/-- `load_instrument` (src/song.rs:265-300).  The running offset `i` is
rebound exactly as in the source: +12 after the oscillators, +4 to the
envelope, +13 to the effects, +12 to the LFO, +5 to the sequence, +48 to the
patterns. -/
def load_instrument (s : ByteSlice) (k : Nat) : Except Error Instrument := do
  let i := 4 + k * 416
  let osc0 ← load_oscillator s i 0
  let osc1 ← load_oscillator s i 1
  let i := i + 12
  let noise_fader : ℚ := (s.get i : ℚ) / 255
  let i := i + 4
  let env := load_envelope s i
  let i := i + 13
  let fx ← load_effects s i
  let i := i + 12
  let lfo ← load_lfo s i
  let i := i + 5
  let seq := load_sequence s i
  let i := i + 48
  let pat : Fin 10 → Pattern := fun p => load_pattern s i p.val
  return { osc := ![osc0, osc1], noise_fader, env, fx, lfo, seq, pat }

/-- `Song::from_slice` (src/song.rs:152-319), the decoder entry point.  The
loop over the 8 instruments is unrolled.  Decoding is a pure function of the
slice, which is how its side-effect-freedom appears in the embedding. -/
def Song.from_slice (s : ByteSlice) : Except Error Song := do
  if s.len ≠ 3333 then throw .FileLength
  let quarter_note_length := readU32 s 0
  let quarter_note_length := quarter_note_length - quarter_note_length % 2
  let seq_length := s.get 3332
  let i0 ← load_instrument s 0
  let i1 ← load_instrument s 1
  let i2 ← load_instrument s 2
  let i3 ← load_instrument s 3
  let i4 ← load_instrument s 4
  let i5 ← load_instrument s 5
  let i6 ← load_instrument s 6
  let i7 ← load_instrument s 7
  return { instruments := ![i0, i1, i2, i3, i4, i5, i6, i7], seq_length, quarter_note_length }

/-- The three waveform bytes of instrument `k` (oscillator 0 at local offset
5, oscillator 1 at 11, LFO at 45) are all in {0,1,2,3}. -/
def waveformBytesOK (s : ByteSlice) (k : Nat) : Prop :=
  s.get (4 + k * 416 + 5) ≤ 3 ∧ s.get (4 + k * 416 + 11) ≤ 3 ∧ s.get (4 + k * 416 + 45) ≤ 3

/-- The filter byte of instrument `k` (local offset 29) is in {0,1,2,3,4}. -/
def filterByteOK (s : ByteSlice) (k : Nat) : Prop :=
  s.get (4 + k * 416 + 29) ≤ 4

instance (s : ByteSlice) (k : Nat) : Decidable (waveformBytesOK s k) := by
  unfold waveformBytesOK; infer_instance

instance (s : ByteSlice) (k : Nat) : Decidable (filterByteOK s k) := by
  unfold filterByteOK; infer_instance

/-- All 8 instruments have in-range waveform and filter bytes. -/
def allBytesOK (s : ByteSlice) : Prop :=
  ∀ k : Fin 8, waveformBytesOK s k.val ∧ filterByteOK s k.val

instance (s : ByteSlice) : Decidable (allBytesOK s) := by
  unfold allBytesOK; infer_instance

/-- A constant placeholder `Song` (used only to totalize `decodeD`). -/
def fallbackSong : Song :=
  { instruments := fun _ =>
      { osc := fun _ =>
          { octave := 0, detune_freq := 0, detune := 0, envelope := false, volume := 0,
            waveform := .Sine }
        noise_fader := 0
        env := { attack := 0, sustain := 0, release := 0, master := 0 }
        fx := { filter := .None, freq_bits := 0, resonance := 0, delay_time := 0,
                delay_amount := 0, pan_freq := 0, pan_amount := 0 }
        lfo := { osc0_freq := false, fx_freq := false, freq := 0, amount := 0, waveform := .Sine }
        seq := fun _ => 0
        pat := fun _ => { notes := fun _ => 0 } }
    seq_length := 0
    quarter_note_length := 0 }

/-- The decoded song of a slice (total; falls back on a placeholder when
decoding fails, see `from_slice_eq_decodeD`). -/
def decodeD (s : ByteSlice) : Song :=
  match Song.from_slice s with
  | .ok song => song
  | .error _ => fallbackSong

/-- 3332 zero bytes: wrong length (spec scenario S1). -/
def slice3332 : ByteSlice := ⟨fun _ => 0, 3332⟩

/-- 3333 zero bytes (spec scenario S1). -/
def zeroSlice : ByteSlice := ⟨fun _ => 0, 3333⟩

/-- Spec scenario S2: zero song except the waveform byte of oscillator 0 of
instrument 0 (absolute offset 9) set to 4. -/
def sliceBadWf : ByteSlice := ⟨fun i => if i = 9 then 4 else 0, 3333⟩

/-- Spec scenario S3: zero song except the filter byte of instrument 0
(absolute offset 4 + 29 = 33) set to 5. -/
def sliceBadFilt : ByteSlice := ⟨fun i => if i = 33 then 5 else 0, 3333⟩

/-- Zero song except sequence byte 0 of instrument 0 (absolute offset 50,
local offset 46) set to 11. -/
def c3slice : ByteSlice := ⟨fun i => if i = 50 then 11 else 0, 3333⟩

/-- Zero song except instrument 1's byte at local offset 41 (absolute 461)
set to 1 and its byte at local offset 46 (absolute 466) set to 5; the bytes
at local offsets 45 and 50 (absolute 465 and 470) stay 0. -/
def c6slice : ByteSlice := ⟨fun i => if i = 461 then 1 else if i = 466 then 5 else 0, 3333⟩

/-! ### The synthesizer (src/synth.rs) -/

/-- Abstraction of the `f32` transcendentals and of the pseudo-random noise
source.  `sin32 x` stands for `f32::sin(x)`; `from_bits b` for
`f32::from_bits(b)`; `log256 a` for `(256.0f32).log(1.0 / a) as u32`
(synth.rs:230); `noise n` for the `n`-th draw of
`randomize::f32_closed(PCG32::next_u32())` — the synth state tracks how many
draws have been consumed, which models any fixed seed.  The synthesizer's
control flow never branches on these values, and every theorem below holds
for every instantiation. -/
structure FloatEnv where
  sin32 : ℚ → ℚ
  from_bits : Nat → ℚ
  log256 : ℚ → Nat
  noise : Nat → ℚ

/-- 2^32; `u32` addition and multiplication wrap modulo this. -/
def u32size : Nat := 4294967296

/-- `u32` subtraction: panics on underflow. -/
def checkedSub (a b : Nat) : Option Nat := if b ≤ a then some (a - b) else none

/-- `u32` remainder: panics when the divisor is zero. -/
def checkedMod (a b : Nat) : Option Nat := if b = 0 then none else some (a % b)

/-- `u32` division: panics when the divisor is zero. -/
def checkedDiv (a b : Nat) : Option Nat := if b = 0 then none else some (a / b)

/-- Rust `as u32` applied to an `f32`: truncate toward zero, saturating to
`[0, 2^32)`. -/
def f32_to_u32 (q : ℚ) : Nat := (min (max ⌊q⌋ 0) (4294967295 : ℤ)).toNat

/-- The `f32` value of `std::f32::consts::PI` (the nearest `f32` to π),
exactly 13176795 / 2^22. -/
def pi32 : ℚ := 13176795 / 4194304

/-- `osc_sin` (synth.rs:67-69). -/
def osc_sin (E : FloatEnv) (value : ℚ) : ℚ := E.sin32 ((value + 1 / 2) * pi32 * 2)

/-- `osc_square` (synth.rs:72-78). -/
def osc_square (E : FloatEnv) (value : ℚ) : ℚ := if osc_sin E value < 0 then -1 else 1

/-- Rust `f32::fract`, which truncates toward zero. -/
def fract32 (x : ℚ) : ℚ := if 0 ≤ x then x - ⌊x⌋ else x - ⌈x⌉

/-- `osc_saw` (synth.rs:81-83). -/
def osc_saw (value : ℚ) : ℚ := (1 - fract32 value) - 1 / 2

/-- `osc_tri` (synth.rs:86-94). -/
def osc_tri (value : ℚ) : ℚ :=
  let v2 := fract32 value * 4
  if v2 < 2 then v2 - 1 else 3 - v2

/-- `get_frequency` (synth.rs:99-101).  The `powf` exponent
`note as f32 - ref_pitch as f32` is always an exact integer, so the power is
modelled by `zpow`. -/
def get_frequency (ref_freq semitone : ℚ) (note ref_pitch : Nat) : ℚ :=
  ref_freq * semitone ^ ((note : ℤ) - (ref_pitch : ℤ))

/-- The literal `SEMITONE: f32 = 1.059463094` (synth.rs:105), idealized as
the written decimal. -/
def SEMITONE : ℚ := 1059463094 / 1000000000

/-- `get_note_frequency` (synth.rs:104-107). -/
def get_note_frequency (note : Nat) : ℚ := get_frequency (1 / 256) SEMITONE note 128

/-- `get_osc_output` (synth.rs:110-117). -/
def get_osc_output (E : FloatEnv) (waveform : Waveform) (t : ℚ) : ℚ :=
  match waveform with
  | .Sine => osc_sin E t
  | .Square => osc_square E t
  | .Saw => osc_saw t
  | .Triangle => osc_tri t

/-- `Note` (synth.rs:53-64). -/
structure Note where
  pitch : Nat
  sample_count : Nat
  volume : ℚ
  swap_stereo : Bool
  osc_freq : Fin 2 → ℚ
  osc_time : Fin 2 → ℚ
  low : ℚ
  band : ℚ

/-- `Note::new` (synth.rs:144-155). -/
def Note.new (pitch sample_count : Nat) (volume : ℚ) (swap_stereo : Bool) : Note :=
  { pitch, sample_count, volume, swap_stereo,
    osc_freq := fun _ => 0, osc_time := fun _ => 0, low := 0, band := 0 }

/-- `TrackState` (synth.rs:35-47). -/
structure TrackState where
  env : Envelope
  notes : Fin 8 → Note
  delay_samples : Nat
  delay_count : Nat
  pan_freq : ℚ
  lfo_freq : ℚ

/-- `Synth` (synth.rs:16-31); the song is embedded by value, and `rng`
counts the consumed pseudo-random draws (see `FloatEnv.noise`). -/
structure SynthState where
  song : Song
  sample_rate : ℚ
  sample_ratio : ℚ
  quarter_note_length : Nat
  eighth_note_length : Nat
  seq_count : Nat
  note_count : Nat
  sample_count : Nat
  tracks : Fin 8 → TrackState
  rng : Nat

/-- Replace note `j` of track `i`. -/
def SynthState.setNote (st : SynthState) (i j : Fin 8) (nt : Note) : SynthState :=
  let tr := st.tracks i
  { st with
    tracks := Function.update st.tracks i { tr with notes := Function.update tr.notes j nt } }

/-- `Synth::get_note_slot` (synth.rs:287-297): the first slot whose pitch is
0, else the first slot with minimal `sample_count` (Rust `min_by_key`
returns the first minimum). -/
def get_note_slot (notes : Fin 8 → Note) : Fin 8 :=
  match (List.finRange 8).find? (fun j => (notes j).pitch == 0) with
  | some j => j
  | none => (List.finRange 8).foldl
      (fun best j => if (notes j).sample_count < (notes best).sample_count then j else best) 0

/-- The wrapped `u8` sum `pitch + osc.octave + osc.detune_freq` computed with
`Wrapping` at note-on (synth.rs:332). -/
def effective_pitch (pitch octave detune_freq : Nat) : Nat :=
  (pitch + octave + detune_freq) % 256

/-- The `Note` written at note-on: `Note::new` followed by the in-place
`osc_freq` assignment with the wrapped `u8` pitch sum (synth.rs:325-335). -/
def made_note (st : SynthState) (i : Fin 8) (pitch : Nat) (volume : ℚ)
    (swap_stereo : Bool) : Note :=
  { Note.new pitch st.sample_count volume swap_stereo with
    osc_freq := fun o =>
      get_note_frequency
          (effective_pitch pitch ((st.song.instruments i).osc o).octave
            ((st.song.instruments i).osc o).detune_freq)
        * ((st.song.instruments i).osc o).detune / st.sample_ratio }

/-- `Synth::add_note` (synth.rs:300-336).  The `usize` indexings into
`inst.seq`, `inst.pat` and `pattern.notes` panic (`none`) when out of range;
the source writes the `Note` and then fills `osc_freq` in place, which is
folded into one record here. -/
def add_note (st : SynthState) (i : Fin 8) (seq_count note_count : Nat) (volume : ℚ)
    (swap_stereo : Bool) : Option SynthState :=
  let inst := st.song.instruments i
  if hs : seq_count < 48 then
    let p := inst.seq ⟨seq_count, hs⟩
    if p = 0 then some st
    else if hp : p - 1 < 10 then
      let pattern := inst.pat ⟨p - 1, hp⟩
      if hn : note_count < 32 then
        let pitch := pattern.notes ⟨note_count, hn⟩
        if pitch = 0 then some st
        else
          some (st.setNote i (get_note_slot ((st.tracks i).notes))
            (made_note st i pitch volume swap_stereo))
      else none
    else none
  else none

/-- `Synth::load_notes` (synth.rs:242-253); `add_note` changes neither
`seq_count` nor `note_count`, so reading them once up front is faithful. -/
def load_notes (st : SynthState) : Option SynthState :=
  if st.seq_count > st.song.seq_length then some st
  else (List.finRange 8).foldlM
    (fun s i => add_note s i st.seq_count st.note_count 1 false) st

/-- One round of the delayed-note loop body (synth.rs:258-282).  The `u32`
product `delay_samples * round` wraps; `position % quarter_note_length` and
the divisions by `pattern_length` panic when the divisor is zero. -/
def delayed_round (st : SynthState) (i : Fin 8) (round : Nat) : Option SynthState :=
  let delay := (st.tracks i).delay_samples * round % u32size
  if delay > st.sample_count then some st
  else
    let position := st.sample_count - delay
    match checkedMod position st.quarter_note_length with
    | none => none
    | some r =>
      if r ≠ 0 then some st
      else
        let pattern_length := st.quarter_note_length * 32 % u32size
        match checkedDiv position pattern_length with
        | none => none
        | some seq_count =>
          if seq_count > st.song.seq_length then some st
          else
            match checkedMod position pattern_length with
            | none => none
            | some pm =>
              match checkedDiv pm st.quarter_note_length with
              | none => none
              | some note_count =>
                let volume := (st.song.instruments i).fx.delay_amount ^ round
                add_note st i seq_count note_count volume (round % 2 == 1)

/-- `Synth::load_delayed_notes` (synth.rs:256-284): for every instrument,
rounds `1..=delay_count`. -/
def load_delayed_notes (st : SynthState) : Option SynthState :=
  (List.finRange 8).foldlM
    (fun s i =>
      (List.range' 1 ((s.tracks i).delay_count)).foldlM
        (fun s2 round => delayed_round s2 i round) s)
    st

/-- `Synth::env` (synth.rs:339-356).  `u32` sums wrap; the two subtractions
panic on underflow (outer `none`); the inner `none` marks an ended note. -/
def env_calc (position : Nat) (inst_env : Envelope) : Option (Option (ℚ × ℚ)) :=
  let attack := inst_env.attack
  let sustain := inst_env.sustain
  let release := inst_env.release
  if position < attack then
    let e : ℚ := (position : ℚ) / (attack : ℚ)
    some (some (e, e * e))
  else if position ≥ (attack + sustain + release) % u32size then
    some none
  else if position ≥ (attack + sustain) % u32size then
    match checkedSub position attack with
    | none => none
    | some pos1 =>
      match checkedSub pos1 sustain with
      | none => none
      | some pos2 =>
        let e : ℚ := 1 - (pos2 : ℚ) / (release : ℚ)
        some (some (e, e * e))
  else
    some (some (1, 1))

/-- `Synth::osc0` (synth.rs:359-372): sample oscillator 0 and advance its
phase. -/
def osc0 (E : FloatEnv) (st : SynthState) (i j : Fin 8) (lfo env_sq : ℚ) : ℚ × SynthState :=
  let inst := st.song.instruments i
  let nt := (st.tracks i).notes j
  let r := get_osc_output E (inst.osc 0).waveform (nt.osc_time 0)
  let t := nt.osc_freq 0
  let t := if inst.lfo.osc0_freq then t + lfo else t
  let t := if (inst.osc 0).envelope then t * env_sq else t
  let nt1 := { nt with osc_time := Function.update nt.osc_time 0 (nt.osc_time 0 + t) }
  (r * (inst.osc 0).volume, st.setNote i j nt1)

/-- `Synth::osc1` (synth.rs:375-385). -/
def osc1 (E : FloatEnv) (st : SynthState) (i j : Fin 8) (env_sq : ℚ) : ℚ × SynthState :=
  let inst := st.song.instruments i
  let nt := (st.tracks i).notes j
  let r := get_osc_output E (inst.osc 1).waveform (nt.osc_time 1)
  let t := nt.osc_freq 1
  let t := if (inst.osc 1).envelope then t * env_sq else t
  let nt1 := { nt with osc_time := Function.update nt.osc_time 1 (nt.osc_time 1 + t) }
  (r * (inst.osc 1).volume, st.setNote i j nt1)

/-- `Synth::filters` (synth.rs:388-412): the state-variable filter; updates
the note's `low`/`band` memory and returns the selected output scaled by the
instrument's master volume. -/
def filters (E : FloatEnv) (st : SynthState) (i j : Fin 8) (lfo sample : ℚ) : ℚ × SynthState :=
  let inst := st.song.instruments i
  let nt := (st.tracks i).notes j
  let f := E.from_bits inst.fx.freq_bits * st.sample_ratio
  let f := if inst.lfo.fx_freq then f * lfo else f
  let f := E.sin32 (f * pi32 / st.sample_rate) * (3 / 2)
  let low := nt.low + f * nt.band
  let high := inst.fx.resonance * (sample - nt.band) - low
  let band := nt.band + f * high
  let nt1 := { nt with low := low, band := band }
  let out :=
    (match inst.fx.filter with
      | .None => sample
      | .HighPass => high
      | .LowPass => low
      | .BandPass => band
      | .Notch => low + high) * inst.env.master
  (out, st.setNote i j nt1)

/-- `Synth::generate_samples` (synth.rs:415-460).  Outer `none` = panic;
`some none` = the note has ended. -/
def generate_samples (E : FloatEnv) (st : SynthState) (i j : Fin 8) (position : ℚ) :
    Option (Option ((ℚ × ℚ) × SynthState)) :=
  let inst := st.song.instruments i
  match checkedSub st.sample_count (((st.tracks i).notes j).sample_count) with
  | none => none
  | some age =>
    match env_calc age ((st.tracks i).env) with
    | none => none
    | some none => some none
    | some (some ev) =>
      let env := ev.1
      let env_sq := ev.2
      let lfo := get_osc_output E inst.lfo.waveform ((st.tracks i).lfo_freq * position)
          * inst.lfo.amount * st.sample_ratio + 1 / 2
      let s0 := osc0 E st i j lfo env_sq
      let s1 := osc1 E s0.2 i j env_sq
      let st2 := s1.2
      let sample := s0.1 + s1.1
      let sample := sample + osc_sin E (E.noise st2.rng) * inst.noise_fader * env
      let st3 := { st2 with rng := st2.rng + 1 }
      let sample := sample * env * (((st3.tracks i).notes j).volume)
      let fs := filters E st3 i j lfo sample
      let st4 := fs.2
      let sample := sample + fs.1
      let pan_t := osc_sin E ((st4.tracks i).pan_freq * position) * inst.fx.pan_amount
          * st.sample_ratio + 1 / 2
      if ((st4.tracks i).notes j).swap_stereo then
        some (some ((sample * (1 - pan_t), sample * pan_t), st4))
      else
        some (some ((sample * pan_t, sample * (1 - pan_t)), st4))

/-- One `(i, j)` iteration of the `update` loop body (synth.rs:471-487):
skip empty slots, mix generated samples, zero ended notes. -/
def update_note (E : FloatEnv) (position : ℚ) (acc : (ℚ × ℚ) × SynthState)
    (ij : Fin 8 × Fin 8) : Option ((ℚ × ℚ) × SynthState) :=
  let samples := acc.1
  let st := acc.2
  let i := ij.1
  let j := ij.2
  if ((st.tracks i).notes j).pitch = 0 then some (samples, st)
  else
    match generate_samples E st i j position with
    | none => none
    | some none => some (samples, st.setNote i j (Note.new 0 0 0 false))
    | some (some fr) => some ((samples.1 + fr.1.1, samples.2 + fr.1.2), fr.2)

/-- The clipping of one output channel (synth.rs:489-492):
`(x / 32767.0).min(1.0).max(-1.0)`. -/
def clip (x : ℚ) : ℚ := max (min (x / 32767) 1) (-1)

/-- `Synth::update` (synth.rs:464-495): mix every active voice of every
track at the current position, then normalise and clip. -/
def update (E : FloatEnv) (st : SynthState) : Option ((ℚ × ℚ) × SynthState) :=
  let position : ℚ := (st.sample_count : ℚ)
  match ((List.finRange 8) ×ˢ (List.finRange 8)).foldlM (update_note E position) ((0, 0), st) with
  | none => none
  | some out => some ((clip out.1.1, clip out.1.2), out.2)

/-- The result of one `next` call: a panic, the end of the song, or one
frame together with the successor state. -/
inductive StepResult where
  | panic
  | done
  | frame (f : ℚ × ℚ) (s : SynthState)

def StepResult.frame? : StepResult → Option (ℚ × ℚ)
  | .frame f _ => some f
  | _ => none

def StepResult.isPanic : StepResult → Bool
  | .panic => true
  | _ => false

def StepResult.isDone : StepResult → Bool
  | .done => true
  | _ => false

/-- The `self.sample_count += 1` of `next` (synth.rs:516), wrapping `u32`. -/
def bump (st : SynthState) : SynthState :=
  { st with sample_count := (st.sample_count + 1) % u32size }

/-- The note/sequence counter advance on a quarter-note boundary
(synth.rs:519-526). -/
def advance_counters (st : SynthState) : SynthState :=
  let st3 := { st with note_count := st.note_count + 1 }
  if st3.note_count ≥ 32 then { st3 with note_count := 0, seq_count := st3.seq_count + 1 }
  else st3

/-- The end-of-song test of `next` (synth.rs:503-508):
`seq_count > seq_length && !any(pitch != 0)`, with the negated `any` written
as the equivalent `∀ pitch = 0`. -/
def EndCond (st : SynthState) : Prop :=
  st.seq_count > st.song.seq_length ∧ ∀ i j : Fin 8, ((st.tracks i).notes j).pitch = 0

instance (st : SynthState) : Decidable (EndCond st) := by
  unfold EndCond; infer_instance

/-- `Iterator::next for Synth` (synth.rs:501-537);
`sample_count % quarter_note_length` panics when the scaled quarter-note
length is zero. -/
def step (E : FloatEnv) (st : SynthState) : StepResult :=
  if EndCond st then
    .done
  else
    match update E st with
    | none => .panic
    | some out =>
      let samples := out.1
      let st2 := bump out.2
      match checkedMod st2.sample_count st2.quarter_note_length with
      | none => .panic
      | some sample_in_quarter_note =>
        if sample_in_quarter_note = 0 then
          match load_delayed_notes (advance_counters st2) with
          | none => .panic
          | some st4 =>
            match load_notes st4 with
            | none => .panic
            | some st5 => .frame samples st5
        else if sample_in_quarter_note = st2.eighth_note_length then
          match load_delayed_notes st2 with
          | none => .panic
          | some st4 => .frame samples st4
        else
          .frame samples st2

/-- `Synth::load_tracks` (synth.rs:198-239).  `TrackState::new` zeroes every
field (including `env.master`, which stays 0; the filter reads the
instrument's own master volume instead). -/
def load_tracks (E : FloatEnv) (song : Song) (sample_ratio : ℚ) (quarter_note_length : ℚ)
    (eighth_note_length : Nat) : Fin 8 → TrackState :=
  fun i =>
    let inst := song.instruments i
    let delay_samples := inst.fx.delay_time * eighth_note_length % u32size
    { env := { attack := f32_to_u32 ((inst.env.attack : ℚ) * sample_ratio)
               sustain := f32_to_u32 ((inst.env.sustain : ℚ) * sample_ratio)
               release := f32_to_u32 ((inst.env.release : ℚ) * sample_ratio)
               master := 0 }
      notes := fun _ => Note.new 0 0 0 false
      delay_samples := delay_samples
      delay_count :=
        if inst.fx.delay_amount = 0 then 0
        else if inst.fx.delay_amount = 1 then u32size - 1
        else if delay_samples = 0 then 1
        else E.log256 inst.fx.delay_amount
      pan_freq := get_frequency 1 2 inst.fx.pan_freq 8 / quarter_note_length
      lfo_freq := get_frequency 1 2 inst.lfo.freq 8 / quarter_note_length }

/-- `Synth::new` (synth.rs:169-195).  The final `load_notes` call can panic,
hence `Option`. -/
def Synth.new (E : FloatEnv) (song : Song) (sample_rate : ℚ) : Option SynthState :=
  let sample_ratio := sample_rate / 44100
  let quarter_note_length := f32_to_u32 (sample_ratio * (song.quarter_note_length : ℚ))
  let eighth_note_length := quarter_note_length / 2
  let st : SynthState :=
    { song := song, sample_rate := sample_rate, sample_ratio := sample_ratio
      quarter_note_length := quarter_note_length, eighth_note_length := eighth_note_length
      seq_count := 0, note_count := 0, sample_count := 0
      tracks := load_tracks E song sample_ratio
        ((quarter_note_length : ℚ) * sample_ratio) eighth_note_length
      rng := 0 }
  load_notes st

/-- The run state before the `n`-th call to `next` (0-indexed); `ended` and
`panicked` are absorbing. -/
inductive RunResult where
  | going (s : SynthState)
  | ended
  | panicked

def runStep (E : FloatEnv) : RunResult → RunResult
  | .going s =>
    match step E s with
    | .frame _ s1 => .going s1
    | .done => .ended
    | .panic => .panicked
  | r => r

def stateAt (E : FloatEnv) (s0 : SynthState) : Nat → RunResult
  | 0 => .going s0
  | n + 1 => runStep E (stateAt E s0 n)

/-- The result of the `n`-th call to `next` (a finished iterator keeps
returning `None`; a panic tears the iteration down). -/
def callAt (E : FloatEnv) (s0 : SynthState) (n : Nat) : StepResult :=
  match stateAt E s0 n with
  | .going s => step E s
  | .ended => .done
  | .panicked => .panic

/-- A concrete instantiation of the abstracted `f32` operations, for the
concrete runs below (none of their control flow consults it). -/
def Edef : FloatEnv := ⟨fun _ => 0, fun _ => 0, fun _ => 0, fun _ => 0⟩

/-- A constant placeholder state (used only to totalize `newD`). -/
def fallbackState : SynthState :=
  { song := fallbackSong, sample_rate := 0, sample_ratio := 0, quarter_note_length := 0
    eighth_note_length := 0, seq_count := 0, note_count := 0, sample_count := 0
    tracks := fun _ =>
      { env := { attack := 0, sustain := 0, release := 0, master := 0 }
        notes := fun _ => Note.new 0 0 0 false
        delay_samples := 0, delay_count := 0, pan_freq := 0, lfo_freq := 0 }
    rng := 0 }

/-- The constructed synth of a song (total; falls back on a placeholder when
construction panics, see `new_eq_newD`). -/
def newD (E : FloatEnv) (song : Song) (sample_rate : ℚ) : SynthState :=
  match Synth.new E song sample_rate with
  | some st => st
  | none => fallbackState

/-- Spec scenario S4: all zero bytes except `quarter_note_length = 5512`
(little-endian bytes 136, 21 at offsets 0, 1). -/
def s4slice : ByteSlice := ⟨fun i => if i = 0 then 136 else if i = 1 then 21 else 0, 3333⟩

/-- The decoded S4 song and its synth at 44100 Hz. -/
def s4song : Song := decodeD s4slice

def s4state : SynthState := newD Edef s4song 44100

/-- The all-zero decoded song (`quarter_note_length = 0`) and its synth. -/
def zeroSong : Song := decodeD zeroSlice

def zeroState : SynthState := newD Edef zeroSong 44100

/-- Everything except the per-voice note slots and the random counter agrees
between two synth states (the loaders and the mixer never touch these). -/
def SameShape (st st1 : SynthState) : Prop :=
  st1.song = st.song ∧ st1.sample_rate = st.sample_rate ∧ st1.sample_ratio = st.sample_ratio
  ∧ st1.quarter_note_length = st.quarter_note_length
  ∧ st1.eighth_note_length = st.eighth_note_length
  ∧ st1.seq_count = st.seq_count ∧ st1.note_count = st.note_count
  ∧ st1.sample_count = st.sample_count
  ∧ ∀ t : Fin 8, (st1.tracks t).env = (st.tracks t).env
      ∧ (st1.tracks t).delay_samples = (st.tracks t).delay_samples
      ∧ (st1.tracks t).delay_count = (st.tracks t).delay_count
      ∧ (st1.tracks t).pan_freq = (st.tracks t).pan_freq
      ∧ (st1.tracks t).lfo_freq = (st.tracks t).lfo_freq

/-- The spec's stated formula for the precomputed modulation frequencies:
`2^((byte − 8)/12) / (quarter_note_length · sample_ratio)`, written from the
spec's words over the reals. -/
noncomputable def lfoFreqSpec (b : Nat) (qnl ratio : ℝ) : ℝ :=
  2 ^ (((b : ℝ) - 8) / 12) / (qnl * ratio)

/-- Zero song except `quarter_note_length = 2` and instrument 0's LFO
frequency byte (absolute offset 47, local 43) set to 20. -/
def c7slice : ByteSlice := ⟨fun i => if i = 0 then 2 else if i = 47 then 20 else 0, 3333⟩

def c7song : Song := decodeD c7slice

def c7state : SynthState := newD Edef c7song 44100

/-- Zero song except `quarter_note_length = 5512`, `seq[0] = 1` of
instrument 0 (absolute 50) and `pat[0].notes[0] = 69` (absolute 98). -/
def c9slice : ByteSlice :=
  ⟨fun i => if i = 0 then 136 else if i = 1 then 21
    else if i = 50 then 1 else if i = 98 then 69 else 0, 3333⟩

def c9song : Song := decodeD c9slice

/-- The c9 synth with all voice slots cleared: a track with no active
voices, ready for the nine note-ons. -/
def c9start : SynthState :=
  let st := newD Edef c9song 44100
  { st with tracks := fun t => { st.tracks t with notes := fun _ => Note.new 0 0 0 false } }

/-- One note-on of the c9 scenario: `add_note` on track 0 at column 0 with
the running sample counter set to `n` (so successive note-ons are older to
newer). -/
def c9addAt (st : SynthState) (n : Nat) : SynthState :=
  match add_note { st with sample_count := n } 0 0 0 1 false with
  | some st1 => st1
  | none => st

/-- Nine note-ons on track 0 (sample counters 0,…,8). -/
def c9nine : SynthState := (List.range 9).foldl c9addAt c9start

/-- The state after the single note-on used by the C8 witness. -/
def c8after : SynthState :=
  match add_note c9start 0 0 0 1 false with
  | some st1 => st1
  | none => c9start

/-- The state after the first frame of the S4 run. -/
def s4next : SynthState :=
  match step Edef s4state with
  | .frame _ s => s
  | _ => fallbackState

/-- The uniform successor of a silent run state: the sample counter advances
by one and the note/sequence counters follow its quarter-note division. -/
def zsucc (st : SynthState) : SynthState :=
  { st with
    sample_count := st.sample_count + 1
    note_count := (st.sample_count + 1) / st.quarter_note_length % 32
    seq_count := (st.sample_count + 1) / st.quarter_note_length / 32 }

/-- The initial synth state built by `Synth::new` before the first
`load_notes` (synth.rs:146-175, with the `let` bindings inlined). -/
def initState (E : FloatEnv) (song : Song) (sample_rate : ℚ) : SynthState :=
  let sample_ratio := sample_rate / 44100
  let quarter_note_length := f32_to_u32 (sample_ratio * (song.quarter_note_length : ℚ))
  let eighth_note_length := quarter_note_length / 2
  { song := song, sample_rate := sample_rate, sample_ratio := sample_ratio
    quarter_note_length := quarter_note_length, eighth_note_length := eighth_note_length
    seq_count := 0, note_count := 0, sample_count := 0
    tracks := load_tracks E song sample_ratio
      ((quarter_note_length : ℚ) * sample_ratio) eighth_note_length
    rng := 0 }

/-- The closed form of the silent run: after `n` frames only the three
counters have moved. -/
def zstate (s0 : SynthState) (n : Nat) : SynthState :=
  { s0 with
    sample_count := n
    note_count := n / s0.quarter_note_length % 32
    seq_count := n / s0.quarter_note_length / 32 }

/-- Every live voice was born no later than `c` (the per-note
`sample_count` of every slot is at most `c`). -/
def BirthBound (c : Nat) (st : SynthState) : Prop :=
  ∀ i j : Fin 8, ((st.tracks i).notes j).sample_count ≤ c

/-- The (scaled) `u32` sum `attack + sustain + release` of a track. -/
def envSum (tr : TrackState) : Nat := tr.env.attack + tr.env.sustain + tr.env.release

/-- The run invariant of a constructed synth: the song is embedded
unchanged, the scaled quarter-note length and the per-track envelopes are
those computed by `Synth::new`, the note counter is in range, and no live
voice is younger than the sample clock. -/
def RunInv (E : FloatEnv) (song : Song) (rate : ℚ) (st : SynthState) : Prop :=
  st.song = song
  ∧ st.quarter_note_length = (initState E song rate).quarter_note_length
  ∧ (∀ t : Fin 8, (st.tracks t).env = ((initState E song rate).tracks t).env
      ∧ (st.tracks t).delay_samples = ((initState E song rate).tracks t).delay_samples
      ∧ (st.tracks t).delay_count = ((initState E song rate).tracks t).delay_count)
  ∧ st.note_count < 32
  ∧ BirthBound st.sample_count st

/-- Every live (non-zero-pitch) voice was born strictly before time `c`. -/
def PitchBirth (c : Nat) (st : SynthState) : Prop :=
  ∀ i j : Fin 8, ((st.tracks i).notes j).pitch ≠ 0 →
    ((st.tracks i).notes j).sample_count < c

/-- The mixer's effect on voices: every slot is either untouched (same pitch
and birth time) or has been zeroed. -/
def NotePres (st st1 : SynthState) : Prop :=
  ∀ a b : Fin 8,
    (((st1.tracks a).notes b).pitch = ((st.tracks a).notes b).pitch
      ∧ ((st1.tracks a).notes b).sample_count = ((st.tracks a).notes b).sample_count)
    ∨ ((st1.tracks a).notes b).pitch = 0

/- The Batteries rational operations are `@[irreducible]`; re-marking them
semireducible lets `decide` and `rfl` evaluate the concrete runs below. -/
attribute [local semireducible] Rat.mul Rat.add Rat.sub Rat.inv

lemma parse_waveform_ok_of_le {b : Nat} (h : b ≤ 3) : ∃ w, parse_waveform b = .ok w := by
  interval_cases b <;> exact ⟨_, rfl⟩

lemma parse_waveform_err_of_gt {b : Nat} (h : 3 < b) : parse_waveform b = .error .InvalidWaveform := by
  match b, h with
  | n + 4, _ => rfl

lemma parse_filter_ok_of_le {b : Nat} (h : b ≤ 4) : ∃ f, parse_filter b = .ok f := by
  interval_cases b <;> exact ⟨_, rfl⟩

lemma parse_filter_err_of_gt {b : Nat} (h : 4 < b) : parse_filter b = .error .InvalidFilter := by
  match b, h with
  | n + 5, _ => rfl

lemma load_oscillator_ok {s : ByteSlice} {i o : Nat} (h : s.get (i + o * 6 + 5) ≤ 3) :
    ∃ v, load_oscillator s i o = .ok v := by
  obtain ⟨w, hw⟩ := parse_waveform_ok_of_le h
  simp [load_oscillator, hw, Except.bind]

lemma load_oscillator_err {s : ByteSlice} {i o : Nat} (h : 3 < s.get (i + o * 6 + 5)) :
    load_oscillator s i o = .error .InvalidWaveform := by
  simp [load_oscillator, parse_waveform_err_of_gt h, Except.bind]

lemma load_effects_ok {s : ByteSlice} {i : Nat} (h : s.get (i + 0) ≤ 4) :
    ∃ v, load_effects s i = .ok v := by
  obtain ⟨f, hf⟩ := parse_filter_ok_of_le h
  simp only [load_effects, hf]
  exact ⟨_, rfl⟩

lemma load_effects_err {s : ByteSlice} {i : Nat} (h : 4 < s.get (i + 0)) :
    load_effects s i = .error .InvalidFilter := by
  simp only [load_effects, parse_filter_err_of_gt h]
  rfl

lemma load_lfo_ok {s : ByteSlice} {i : Nat} (h : s.get (i + 4) ≤ 3) :
    ∃ v, load_lfo s i = .ok v := by
  obtain ⟨w, hw⟩ := parse_waveform_ok_of_le h
  simp [load_lfo, hw, Except.bind]

lemma load_lfo_err {s : ByteSlice} {i : Nat} (h : 3 < s.get (i + 4)) :
    load_lfo s i = .error .InvalidWaveform := by
  simp [load_lfo, parse_waveform_err_of_gt h, Except.bind]

/-- Per-instrument decode dichotomy: `load_instrument` succeeds exactly when
instrument `k`'s waveform and filter bytes are in range, and the error it
reports otherwise is `InvalidWaveform` whenever the filter byte is fine and
`InvalidFilter` whenever the waveform bytes are fine. -/
lemma load_instrument_spec (s : ByteSlice) (k : Nat) :
    (waveformBytesOK s k ∧ filterByteOK s k ∧ ∃ v, load_instrument s k = .ok v)
  ∨ (∃ e, load_instrument s k = .error e ∧
      (e = .InvalidWaveform ∨ e = .InvalidFilter) ∧
      ¬(waveformBytesOK s k ∧ filterByteOK s k) ∧
      (filterByteOK s k → e = .InvalidWaveform) ∧
      (waveformBytesOK s k → e = .InvalidFilter)) := by
  have e5 : 4 + k * 416 + 0 * 6 + 5 = 4 + k * 416 + 5 := by omega
  have e11 : 4 + k * 416 + 1 * 6 + 5 = 4 + k * 416 + 11 := by omega
  have e29 : 4 + k * 416 + 12 + 4 + 13 + 0 = 4 + k * 416 + 29 := by omega
  have e45 : 4 + k * 416 + 12 + 4 + 13 + 12 + 4 = 4 + k * 416 + 45 := by omega
  by_cases h5 : s.get (4 + k * 416 + 5) ≤ 3
  · obtain ⟨v0, hv0⟩ := load_oscillator_ok (s := s) (i := 4 + k * 416) (o := 0) (e5 ▸ h5)
    by_cases h11 : s.get (4 + k * 416 + 11) ≤ 3
    · obtain ⟨v1, hv1⟩ := load_oscillator_ok (s := s) (i := 4 + k * 416) (o := 1) (e11 ▸ h11)
      by_cases h29 : s.get (4 + k * 416 + 29) ≤ 4
      · obtain ⟨fx, hfx⟩ := load_effects_ok (s := s) (i := 4 + k * 416 + 12 + 4 + 13) (e29 ▸ h29)
        by_cases h45 : s.get (4 + k * 416 + 45) ≤ 3
        · obtain ⟨lfo, hlfo⟩ :=
            load_lfo_ok (s := s) (i := 4 + k * 416 + 12 + 4 + 13 + 12) (e45 ▸ h45)
          refine Or.inl ⟨⟨h5, h11, h45⟩, h29, ?_⟩
          simp only [load_instrument, hv0, hv1, hfx, hlfo]
          exact ⟨_, rfl⟩
        · push_neg at h45
          have hlfo := load_lfo_err (s := s) (i := 4 + k * 416 + 12 + 4 + 13 + 12) (e45 ▸ h45)
          refine Or.inr ⟨.InvalidWaveform, ?_, Or.inl rfl, ?_, fun _ => rfl, ?_⟩
          · simp only [load_instrument, hv0, hv1, hfx, hlfo]
            rfl
          · rintro ⟨⟨-, -, h⟩, -⟩; omega
          · rintro ⟨-, -, h⟩; omega
      · push_neg at h29
        have hfx := load_effects_err (s := s) (i := 4 + k * 416 + 12 + 4 + 13) (e29 ▸ h29)
        refine Or.inr ⟨.InvalidFilter, ?_, Or.inr rfl, ?_, ?_, fun _ => rfl⟩
        · simp only [load_instrument, hv0, hv1, hfx]
          rfl
        · rintro ⟨-, h⟩; exact absurd h (by unfold filterByteOK; omega)
        · intro h; exact absurd h (by unfold filterByteOK; omega)
    · push_neg at h11
      have hv1 := load_oscillator_err (s := s) (i := 4 + k * 416) (o := 1) (e11 ▸ h11)
      refine Or.inr ⟨.InvalidWaveform, ?_, Or.inl rfl, ?_, fun _ => rfl, ?_⟩
      · simp only [load_instrument, hv0, hv1]
        rfl
      · rintro ⟨⟨-, h, -⟩, -⟩; omega
      · rintro ⟨-, h, -⟩; omega
  · push_neg at h5
    have hv0 := load_oscillator_err (s := s) (i := 4 + k * 416) (o := 0) (e5 ▸ h5)
    refine Or.inr ⟨.InvalidWaveform, ?_, Or.inl rfl, ?_, fun _ => rfl, ?_⟩
    · simp only [load_instrument, hv0]
      rfl
    · rintro ⟨⟨h, -, -⟩, -⟩; omega
    · rintro ⟨h, -, -⟩; omega

/-- Whole-decoder dichotomy on a 3333-byte slice: success exactly when every
waveform/filter byte is in range; otherwise an error that is
`InvalidWaveform` when all filter bytes are fine and `InvalidFilter` when all
waveform bytes are fine. -/
lemma from_slice_spec (s : ByteSlice) (h : s.len = 3333) :
    (allBytesOK s ∧ ∃ song, Song.from_slice s = .ok song)
  ∨ (∃ e, Song.from_slice s = .error e ∧ (e = .InvalidWaveform ∨ e = .InvalidFilter) ∧
      ¬ allBytesOK s ∧
      ((∀ k : Fin 8, filterByteOK s k.val) → e = .InvalidWaveform) ∧
      ((∀ k : Fin 8, waveformBytesOK s k.val) → e = .InvalidFilter)) := by
  have hlen : ¬ s.len ≠ 3333 := by omega
  rcases load_instrument_spec s 0 with ⟨hw0, hf0, v0, hv0⟩ | ⟨e, hv, he, hnot, hfe, hwe⟩
  swap
  · refine Or.inr ⟨e, ?_, he, fun hall => hnot (hall ⟨0, by norm_num⟩),
      fun hall => hfe (hall ⟨0, by norm_num⟩), fun hall => hwe (hall ⟨0, by norm_num⟩)⟩
    simp only [Song.from_slice, if_neg hlen, hv]
    rfl
  rcases load_instrument_spec s 1 with ⟨hw1, hf1, v1, hv1⟩ | ⟨e, hv, he, hnot, hfe, hwe⟩
  swap
  · refine Or.inr ⟨e, ?_, he, fun hall => hnot (hall ⟨1, by norm_num⟩),
      fun hall => hfe (hall ⟨1, by norm_num⟩), fun hall => hwe (hall ⟨1, by norm_num⟩)⟩
    simp only [Song.from_slice, if_neg hlen, hv0, hv]
    rfl
  rcases load_instrument_spec s 2 with ⟨hw2, hf2, v2, hv2⟩ | ⟨e, hv, he, hnot, hfe, hwe⟩
  swap
  · refine Or.inr ⟨e, ?_, he, fun hall => hnot (hall ⟨2, by norm_num⟩),
      fun hall => hfe (hall ⟨2, by norm_num⟩), fun hall => hwe (hall ⟨2, by norm_num⟩)⟩
    simp only [Song.from_slice, if_neg hlen, hv0, hv1, hv]
    rfl
  rcases load_instrument_spec s 3 with ⟨hw3, hf3, v3, hv3⟩ | ⟨e, hv, he, hnot, hfe, hwe⟩
  swap
  · refine Or.inr ⟨e, ?_, he, fun hall => hnot (hall ⟨3, by norm_num⟩),
      fun hall => hfe (hall ⟨3, by norm_num⟩), fun hall => hwe (hall ⟨3, by norm_num⟩)⟩
    simp only [Song.from_slice, if_neg hlen, hv0, hv1, hv2, hv]
    rfl
  rcases load_instrument_spec s 4 with ⟨hw4, hf4, v4, hv4⟩ | ⟨e, hv, he, hnot, hfe, hwe⟩
  swap
  · refine Or.inr ⟨e, ?_, he, fun hall => hnot (hall ⟨4, by norm_num⟩),
      fun hall => hfe (hall ⟨4, by norm_num⟩), fun hall => hwe (hall ⟨4, by norm_num⟩)⟩
    simp only [Song.from_slice, if_neg hlen, hv0, hv1, hv2, hv3, hv]
    rfl
  rcases load_instrument_spec s 5 with ⟨hw5, hf5, v5, hv5⟩ | ⟨e, hv, he, hnot, hfe, hwe⟩
  swap
  · refine Or.inr ⟨e, ?_, he, fun hall => hnot (hall ⟨5, by norm_num⟩),
      fun hall => hfe (hall ⟨5, by norm_num⟩), fun hall => hwe (hall ⟨5, by norm_num⟩)⟩
    simp only [Song.from_slice, if_neg hlen, hv0, hv1, hv2, hv3, hv4, hv]
    rfl
  rcases load_instrument_spec s 6 with ⟨hw6, hf6, v6, hv6⟩ | ⟨e, hv, he, hnot, hfe, hwe⟩
  swap
  · refine Or.inr ⟨e, ?_, he, fun hall => hnot (hall ⟨6, by norm_num⟩),
      fun hall => hfe (hall ⟨6, by norm_num⟩), fun hall => hwe (hall ⟨6, by norm_num⟩)⟩
    simp only [Song.from_slice, if_neg hlen, hv0, hv1, hv2, hv3, hv4, hv5, hv]
    rfl
  rcases load_instrument_spec s 7 with ⟨hw7, hf7, v7, hv7⟩ | ⟨e, hv, he, hnot, hfe, hwe⟩
  swap
  · refine Or.inr ⟨e, ?_, he, fun hall => hnot (hall ⟨7, by norm_num⟩),
      fun hall => hfe (hall ⟨7, by norm_num⟩), fun hall => hwe (hall ⟨7, by norm_num⟩)⟩
    simp only [Song.from_slice, if_neg hlen, hv0, hv1, hv2, hv3, hv4, hv5, hv6, hv]
    rfl
  refine Or.inl ⟨?_, ?_⟩
  · intro k
    fin_cases k
    · exact ⟨hw0, hf0⟩
    · exact ⟨hw1, hf1⟩
    · exact ⟨hw2, hf2⟩
    · exact ⟨hw3, hf3⟩
    · exact ⟨hw4, hf4⟩
    · exact ⟨hw5, hf5⟩
    · exact ⟨hw6, hf6⟩
    · exact ⟨hw7, hf7⟩
  · simp only [Song.from_slice, if_neg hlen, hv0, hv1, hv2, hv3, hv4, hv5, hv6, hv7]
    exact ⟨_, rfl⟩

lemma from_slice_len_err {s : ByteSlice} (h : s.len ≠ 3333) :
    Song.from_slice s = .error .FileLength := by
  simp only [Song.from_slice, if_pos h]
  rfl

/-- Successful decoding inverts to a successful `load_instrument` for each of
the 8 instruments, with the decoded instruments as results. -/
lemma from_slice_ok_inv {s : ByteSlice} {song : Song} (h : Song.from_slice s = .ok song) :
    s.len = 3333 ∧ ∀ k : Fin 8, load_instrument s k.val = .ok (song.instruments k) := by
  by_cases hl : s.len = 3333
  case neg =>
    rw [from_slice_len_err hl] at h
    exact absurd h (by simp)
  have hlen : ¬ s.len ≠ 3333 := by omega
  refine ⟨hl, ?_⟩
  rcases h0 : load_instrument s 0 with e | v0
  · have hbad : Song.from_slice s = .error e := by
      simp only [Song.from_slice, if_neg hlen, h0]
      rfl
    rw [hbad] at h
    exact absurd h (by simp)
  rcases h1 : load_instrument s 1 with e | v1
  · have hbad : Song.from_slice s = .error e := by
      simp only [Song.from_slice, if_neg hlen, h0, h1]
      rfl
    rw [hbad] at h
    exact absurd h (by simp)
  rcases h2 : load_instrument s 2 with e | v2
  · have hbad : Song.from_slice s = .error e := by
      simp only [Song.from_slice, if_neg hlen, h0, h1, h2]
      rfl
    rw [hbad] at h
    exact absurd h (by simp)
  rcases h3 : load_instrument s 3 with e | v3
  · have hbad : Song.from_slice s = .error e := by
      simp only [Song.from_slice, if_neg hlen, h0, h1, h2, h3]
      rfl
    rw [hbad] at h
    exact absurd h (by simp)
  rcases h4 : load_instrument s 4 with e | v4
  · have hbad : Song.from_slice s = .error e := by
      simp only [Song.from_slice, if_neg hlen, h0, h1, h2, h3, h4]
      rfl
    rw [hbad] at h
    exact absurd h (by simp)
  rcases h5 : load_instrument s 5 with e | v5
  · have hbad : Song.from_slice s = .error e := by
      simp only [Song.from_slice, if_neg hlen, h0, h1, h2, h3, h4, h5]
      rfl
    rw [hbad] at h
    exact absurd h (by simp)
  rcases h6 : load_instrument s 6 with e | v6
  · have hbad : Song.from_slice s = .error e := by
      simp only [Song.from_slice, if_neg hlen, h0, h1, h2, h3, h4, h5, h6]
      rfl
    rw [hbad] at h
    exact absurd h (by simp)
  rcases h7 : load_instrument s 7 with e | v7
  · have hbad : Song.from_slice s = .error e := by
      simp only [Song.from_slice, if_neg hlen, h0, h1, h2, h3, h4, h5, h6, h7]
      rfl
    rw [hbad] at h
    exact absurd h (by simp)
  have hok : Song.from_slice s = .ok
      { instruments := ![v0, v1, v2, v3, v4, v5, v6, v7], seq_length := s.get 3332,
        quarter_note_length := readU32 s 0 - readU32 s 0 % 2 } := by
    simp only [Song.from_slice, if_neg hlen, h0, h1, h2, h3, h4, h5, h6, h7]
    rfl
  rw [hok] at h
  obtain rfl := Except.ok.inj h
  intro k
  fin_cases k
  · simpa using h0
  · simpa using h1
  · simpa using h2
  · simpa using h3
  · simpa using h4
  · simpa using h5
  · simpa using h6
  · simpa using h7

/-- Field-level inversion of a successful `load_instrument`: each field comes
from its loader at the stated local offset (41 for the LFO, 46 for the
sequence, 94 for the patterns, all relative to the 416-byte block). -/
lemma load_instrument_ok_fields {s : ByteSlice} {k : Nat} {inst : Instrument}
    (h : load_instrument s k = .ok inst) :
    (∀ o : Fin 2, load_oscillator s (4 + k * 416) o.val = .ok (inst.osc o))
  ∧ inst.noise_fader = (s.get (4 + k * 416 + 12) : ℚ) / 255
  ∧ inst.env = load_envelope s (4 + k * 416 + 16)
  ∧ load_effects s (4 + k * 416 + 29) = .ok inst.fx
  ∧ load_lfo s (4 + k * 416 + 41) = .ok inst.lfo
  ∧ inst.seq = load_sequence s (4 + k * 416 + 46)
  ∧ inst.pat = fun p => load_pattern s (4 + k * 416 + 94) p.val := by
  rcases h0 : load_oscillator s (4 + k * 416) 0 with e | v0
  · have hbad : load_instrument s k = .error e := by
      simp only [load_instrument, h0]; rfl
    rw [hbad] at h; exact absurd h (by simp)
  rcases h1 : load_oscillator s (4 + k * 416) 1 with e | v1
  · have hbad : load_instrument s k = .error e := by
      simp only [load_instrument, h0, h1]; rfl
    rw [hbad] at h; exact absurd h (by simp)
  rcases hfx : load_effects s (4 + k * 416 + 12 + 4 + 13) with e | fx
  · have hbad : load_instrument s k = .error e := by
      simp only [load_instrument, h0, h1, hfx]; rfl
    rw [hbad] at h; exact absurd h (by simp)
  rcases hlfo : load_lfo s (4 + k * 416 + 12 + 4 + 13 + 12) with e | lfo
  · have hbad : load_instrument s k = .error e := by
      simp only [load_instrument, h0, h1, hfx, hlfo]; rfl
    rw [hbad] at h; exact absurd h (by simp)
  have hok : load_instrument s k = .ok
      { osc := ![v0, v1], noise_fader := (s.get (4 + k * 416 + 12) : ℚ) / 255,
        env := load_envelope s (4 + k * 416 + 12 + 4), fx := fx, lfo := lfo,
        seq := load_sequence s (4 + k * 416 + 12 + 4 + 13 + 12 + 5),
        pat := fun p => load_pattern s (4 + k * 416 + 12 + 4 + 13 + 12 + 5 + 48) p.val } := by
    simp only [load_instrument, h0, h1, hfx, hlfo]
    rfl
  rw [hok] at h
  obtain rfl := Except.ok.inj h
  have e16 : 4 + k * 416 + 12 + 4 = 4 + k * 416 + 16 := by omega
  have e29 : 4 + k * 416 + 12 + 4 + 13 = 4 + k * 416 + 29 := by omega
  have e41 : 4 + k * 416 + 12 + 4 + 13 + 12 = 4 + k * 416 + 41 := by omega
  have e46 : 4 + k * 416 + 12 + 4 + 13 + 12 + 5 = 4 + k * 416 + 46 := by omega
  have e94 : 4 + k * 416 + 12 + 4 + 13 + 12 + 5 + 48 = 4 + k * 416 + 94 := by omega
  refine ⟨?_, rfl, ?_, ?_, ?_, ?_, ?_⟩
  · intro o
    fin_cases o
    · simpa using h0
    · simpa using h1
  · rw [← e16]
  · rw [← e29]
  · rw [← e41]
  · rw [← e46]
  · rw [← e94]

section Extensionality

variable {s t : ByteSlice}

lemma readU32_congr (hg : ∀ i < 3333, s.get i = t.get i) {i : Nat} (hb : i + 3 < 3333) :
    readU32 s i = readU32 t i := by
  unfold readU32
  rw [hg i (by omega), hg (i + 1) (by omega), hg (i + 2) (by omega), hg (i + 3) (by omega)]

lemma load_oscillator_congr (hg : ∀ i < 3333, s.get i = t.get i) {i o : Nat}
    (hb : i + o * 6 + 5 < 3333) :
    load_oscillator s i o = load_oscillator t i o := by
  simp only [load_oscillator]
  rw [hg (i + o * 6 + 0) (by omega), hg (i + o * 6 + 1) (by omega),
    hg (i + o * 6 + 2) (by omega), hg (i + o * 6 + 3) (by omega),
    hg (i + o * 6 + 4) (by omega), hg (i + o * 6 + 5) (by omega)]

lemma load_envelope_congr (hg : ∀ i < 3333, s.get i = t.get i) {i : Nat}
    (hb : i + 12 < 3333) :
    load_envelope s i = load_envelope t i := by
  unfold load_envelope
  rw [readU32_congr hg (by omega), readU32_congr hg (by omega), readU32_congr hg (by omega),
    hg (i + 12) (by omega)]

lemma load_effects_congr (hg : ∀ i < 3333, s.get i = t.get i) {i : Nat}
    (hb : i + 11 < 3333) :
    load_effects s i = load_effects t i := by
  simp only [load_effects]
  rw [hg (i + 0) (by omega), readU32_congr hg (by omega), hg (i + 3 + 4) (by omega),
    hg (i + 3 + 5) (by omega), hg (i + 3 + 6) (by omega), hg (i + 3 + 7) (by omega),
    hg (i + 3 + 8) (by omega)]

lemma load_lfo_congr (hg : ∀ i < 3333, s.get i = t.get i) {i : Nat}
    (hb : i + 4 < 3333) :
    load_lfo s i = load_lfo t i := by
  unfold load_lfo
  rw [hg (i + 0) (by omega), hg (i + 1) (by omega), hg (i + 2) (by omega),
    hg (i + 3) (by omega), hg (i + 4) (by omega)]

lemma load_sequence_congr (hg : ∀ i < 3333, s.get i = t.get i) {i : Nat}
    (hb : i + 47 < 3333) :
    load_sequence s i = load_sequence t i := by
  funext j
  exact hg (i + j.val) (by have := j.isLt; omega)

lemma load_pattern_congr (hg : ∀ i < 3333, s.get i = t.get i) {i p : Nat}
    (hb : i + p * 32 + 31 < 3333) :
    load_pattern s i p = load_pattern t i p := by
  unfold load_pattern
  refine congrArg Pattern.mk (funext fun n => ?_)
  exact hg (i + p * 32 + n.val) (by have := n.isLt; omega)

lemma load_instrument_congr (hg : ∀ i < 3333, s.get i = t.get i) {k : Nat} (hk : k < 8) :
    load_instrument s k = load_instrument t k := by
  simp only [load_instrument]
  rw [load_oscillator_congr hg (by omega), load_oscillator_congr hg (by omega),
    hg (4 + k * 416 + 12) (by omega), load_envelope_congr hg (by omega),
    load_effects_congr hg (by omega), load_lfo_congr hg (by omega),
    load_sequence_congr hg (by omega)]
  have hpat : (fun p : Fin 10 => load_pattern s (4 + k * 416 + 12 + 4 + 13 + 12 + 5 + 48) p.val)
      = fun p : Fin 10 => load_pattern t (4 + k * 416 + 12 + 4 + 13 + 12 + 5 + 48) p.val := by
    funext p
    exact load_pattern_congr hg (by have := p.isLt; omega)
  rw [hpat]

/-- Decoding reads nothing but the bytes of the slice: two slices with the
same length and contents decode identically. -/
lemma from_slice_congr (hlen : s.len = t.len) (hdata : ∀ i < s.len, s.data i = t.data i) :
    Song.from_slice s = Song.from_slice t := by
  by_cases hl : s.len = 3333
  case neg =>
    rw [from_slice_len_err hl, from_slice_len_err (by omega)]
  have hg : ∀ i < 3333, s.get i = t.get i := by
    intro i hi
    unfold ByteSlice.get
    rw [hdata i (by omega)]
  simp only [Song.from_slice]
  rw [hlen, readU32_congr hg (by omega), hg 3332 (by omega),
    load_instrument_congr hg (by omega), load_instrument_congr hg (by omega),
    load_instrument_congr hg (by omega), load_instrument_congr hg (by omega),
    load_instrument_congr hg (by omega), load_instrument_congr hg (by omega),
    load_instrument_congr hg (by omega), load_instrument_congr hg (by omega)]

end Extensionality

lemma ByteSlice.get_le (s : ByteSlice) (i : Nat) : s.get i ≤ 255 :=
  Nat.le_of_lt_succ (Nat.mod_lt _ (by norm_num))

lemma from_slice_eq_decodeD {s : ByteSlice} (h : (Song.from_slice s).toOption.isSome = true) :
    Song.from_slice s = .ok (decodeD s) := by
  unfold decodeD
  rcases hh : Song.from_slice s with e | song
  · rw [hh] at h; simp [Except.toOption] at h
  · rfl

/-- Field-level inversion of a successful `load_lfo`. -/
lemma load_lfo_ok_fields {s : ByteSlice} {i : Nat} {lfo : LFO} (h : load_lfo s i = .ok lfo) :
    lfo.osc0_freq = (s.get (i + 0) != 0)
  ∧ lfo.fx_freq = (s.get (i + 1) != 0)
  ∧ lfo.freq = s.get (i + 2)
  ∧ lfo.amount = (s.get (i + 3) : ℚ) / 512
  ∧ parse_waveform (s.get (i + 4)) = .ok lfo.waveform := by
  rcases hw : parse_waveform (s.get (i + 4)) with e | w
  · have hbad : load_lfo s i = .error e := by simp only [load_lfo, hw]; rfl
    rw [hbad] at h; exact absurd h (by simp)
  · have hok : load_lfo s i = .ok
        { osc0_freq := s.get (i + 0) != 0, fx_freq := s.get (i + 1) != 0,
          freq := s.get (i + 2), amount := (s.get (i + 3) : ℚ) / 512, waveform := w } := by
      simp only [load_lfo, hw]; rfl
    rw [hok] at h
    obtain rfl := Except.ok.inj h
    exact ⟨rfl, rfl, rfl, rfl, rfl⟩

/-- Field-level inversion of a successful `load_oscillator`. -/
lemma load_oscillator_ok_fields {s : ByteSlice} {i o : Nat} {v : Oscillator}
    (h : load_oscillator s i o = .ok v) :
    v.octave = (s.get (i + o * 6 + 0) + 248) % 256 * 12 % 256
  ∧ v.detune_freq = s.get (i + o * 6 + 1) := by
  rcases hw : parse_waveform (s.get (i + o * 6 + 5)) with e | w
  · have hbad : load_oscillator s i o = .error e := by simp only [load_oscillator, hw]; rfl
    rw [hbad] at h; exact absurd h (by simp)
  · have hok : load_oscillator s i o = .ok
        { octave := (s.get (i + o * 6 + 0) + 248) % 256 * 12 % 256,
          detune_freq := s.get (i + o * 6 + 1),
          detune := (s.get (i + o * 6 + 2) : ℚ) * (2 / 10) / 255 + 1,
          envelope := s.get (i + o * 6 + 3) != 0,
          volume := (s.get (i + o * 6 + 4) : ℚ) / 255, waveform := w } := by
      simp only [load_oscillator, hw]; rfl
    rw [hok] at h
    obtain rfl := Except.ok.inj h
    exact ⟨rfl, rfl⟩

/-- C1: `Song::from_slice` fails with `FileLength` exactly on inputs whose
length differs from 3333 bytes; on a 3333-byte input it succeeds if and only
if all waveform bytes are in {0,1,2,3} and all filter bytes are in
{0,1,2,3,4}; a 3333-byte input containing an out-of-range waveform byte
(filter bytes in range) fails with `InvalidWaveform`, and one containing an
out-of-range filter byte (waveform bytes in range) fails with
`InvalidFilter`; and decoding is side-effect-free: it is a pure function of
the slice contents alone. -/
theorem claim_C1 (s : ByteSlice) :
    (s.len ≠ 3333 → Song.from_slice s = .error .FileLength)
  ∧ (s.len = 3333 → ((∃ song, Song.from_slice s = .ok song) ↔ allBytesOK s))
  ∧ (s.len = 3333 → (∀ k : Fin 8, filterByteOK s k.val) →
      (∃ k : Fin 8, ¬ waveformBytesOK s k.val) → Song.from_slice s = .error .InvalidWaveform)
  ∧ (s.len = 3333 → (∀ k : Fin 8, waveformBytesOK s k.val) →
      (∃ k : Fin 8, ¬ filterByteOK s k.val) → Song.from_slice s = .error .InvalidFilter)
  ∧ (∀ t : ByteSlice, s.len = t.len → (∀ i < s.len, s.data i = t.data i) →
      Song.from_slice s = Song.from_slice t) := by
  refine ⟨fun h => from_slice_len_err h, fun h => ?_, ?_, ?_, fun t ht hd => from_slice_congr ht hd⟩
  · rcases from_slice_spec s h with ⟨hall, song, hok⟩ | ⟨e, herr, -, hnot, -, -⟩
    · exact ⟨fun _ => hall, fun _ => ⟨song, hok⟩⟩
    · constructor
      · rintro ⟨song, hok⟩
        rw [herr] at hok
        exact absurd hok (by simp)
      · intro hall
        exact absurd hall hnot
  · rintro h hf ⟨k, hk⟩
    rcases from_slice_spec s h with ⟨hall, -⟩ | ⟨e, herr, -, -, hfe, -⟩
    · exact absurd (hall k).1 hk
    · rw [herr, hfe hf]
  · rintro h hw ⟨k, hk⟩
    rcases from_slice_spec s h with ⟨hall, -⟩ | ⟨e, herr, -, -, -, hwe⟩
    · exact absurd (hall k).2 hk
    · rw [herr, hwe hw]

/-- Witness for C1 at the spec's concrete scenarios S1, S2, S3. -/
theorem claim_C1_witness :
    Song.from_slice slice3332 = .error .FileLength
  ∧ (∃ song, Song.from_slice zeroSlice = .ok song)
  ∧ Song.from_slice sliceBadWf = .error .InvalidWaveform
  ∧ Song.from_slice sliceBadFilt = .error .InvalidFilter :=
  ⟨(claim_C1 slice3332).1 (by decide),
   ((claim_C1 zeroSlice).2.1 (by decide)).2 (by decide),
   (claim_C1 sliceBadWf).2.2.1 (by decide) (by decide) ⟨0, by decide⟩,
   (claim_C1 sliceBadFilt).2.2.2.1 (by decide) (by decide) ⟨0, by decide⟩⟩

/-- C3 counterexample: the decoder performs no range check on sequence bytes.
This 3333-byte image (sequence byte 0 of instrument 0 set to 11) decodes
successfully, yet the decoded `seq[0]` of instrument 0 is 11 — outside
`0..=10`, contradicting the claim. -/
theorem claim_C3_counterexample :
    (Song.from_slice c3slice).toOption.map (fun song => (song.instruments 0).seq 0) = some 11
  ∧ ¬ (11 : Nat) ≤ 10 :=
  ⟨by decide, by decide⟩

/-- C3 amended: decoded sequence entries and pattern note bytes are `u8`
values, hence at most 255; the decoder does not constrain sequence entries to
`0..=10` (see the counterexample). -/
theorem claim_C3_amended {s : ByteSlice} {song : Song} (h : Song.from_slice s = .ok song)
    (k : Fin 8) :
    (∀ j : Fin 48, (song.instruments k).seq j ≤ 255)
  ∧ (∀ (p : Fin 10) (n : Fin 32), ((song.instruments k).pat p).notes n ≤ 255) := by
  obtain ⟨-, hinst⟩ := from_slice_ok_inv h
  obtain ⟨-, -, -, -, -, hseq, hpat⟩ := load_instrument_ok_fields (hinst k)
  constructor
  · intro j
    rw [hseq]
    exact ByteSlice.get_le s _
  · intro p n
    rw [hpat]
    exact ByteSlice.get_le s _

/-- Witness for C3's amended claim at the decoded `c3slice` song. -/
theorem claim_C3_amended_witness :
    (∀ j : Fin 48, ((decodeD c3slice).instruments 0).seq j ≤ 255)
  ∧ (∀ (p : Fin 10) (n : Fin 32), (((decodeD c3slice).instruments 0).pat p).notes n ≤ 255) :=
  claim_C3_amended (from_slice_eq_decodeD (s := c3slice) (by decide)) 0

/-- C6 counterexample: within instrument 1's 416-byte block, the decoder
reads the LFO `osc0_freq` toggle from local offset 41 (absolute 461) and the
first sequence byte from local offset 46 (absolute 466) — not from local
offsets 45 and 50 as claimed (those hold 0 in this image, which nevertheless
decodes with `osc0_freq = true` and `seq[0] = 5`). -/
theorem claim_C6_counterexample :
    (Song.from_slice c6slice).toOption.map
      (fun song => (((song.instruments 1).lfo.osc0_freq : Bool), (song.instruments 1).seq 0))
      = some (true, 5)
  ∧ c6slice.get (4 + 1 * 416 + 45) = 0
  ∧ c6slice.get (4 + 1 * 416 + 50) = 0 :=
  ⟨by decide, by decide, by decide⟩

/-- C6 amended: within each 416-byte instrument block the decoder reads the
LFO `osc0_freq` toggle from local offset 41, the LFO `fx_freq`/`freq`/
`amount`/`waveform` bytes from local offsets 42..46, and the 48 sequence
bytes from local offsets 46..94.  (The spec's offsets 45, 46..50 and 50..98
are absolute file offsets for instrument 0 only, i.e. shifted by the 4-byte
header.) -/
theorem claim_C6_amended {s : ByteSlice} {song : Song} (h : Song.from_slice s = .ok song)
    (k : Fin 8) :
    (song.instruments k).lfo.osc0_freq = (s.get (4 + k.val * 416 + 41) != 0)
  ∧ (song.instruments k).lfo.fx_freq = (s.get (4 + k.val * 416 + 42) != 0)
  ∧ (song.instruments k).lfo.freq = s.get (4 + k.val * 416 + 43)
  ∧ (song.instruments k).lfo.amount = (s.get (4 + k.val * 416 + 44) : ℚ) / 512
  ∧ parse_waveform (s.get (4 + k.val * 416 + 45)) = .ok (song.instruments k).lfo.waveform
  ∧ ∀ j : Fin 48, (song.instruments k).seq j = s.get (4 + k.val * 416 + 46 + j.val) := by
  obtain ⟨-, hinst⟩ := from_slice_ok_inv h
  obtain ⟨-, -, -, -, hlfo, hseq, -⟩ := load_instrument_ok_fields (hinst k)
  obtain ⟨h41, h42, h43, h44, h45⟩ := load_lfo_ok_fields hlfo
  have e42 : 4 + k.val * 416 + 41 + 1 = 4 + k.val * 416 + 42 := by omega
  have e43 : 4 + k.val * 416 + 41 + 2 = 4 + k.val * 416 + 43 := by omega
  have e44 : 4 + k.val * 416 + 41 + 3 = 4 + k.val * 416 + 44 := by omega
  have e45 : 4 + k.val * 416 + 41 + 4 = 4 + k.val * 416 + 45 := by omega
  refine ⟨by rw [h41], by rw [h42, e42], by rw [h43, e43], by rw [h44, e44],
    by rw [← e45]; exact h45, ?_⟩
  intro j
  rw [hseq]
  simp [load_sequence]

/-- Witness for C6's amended claim at the decoded `c6slice` song, instrument 1. -/
theorem claim_C6_amended_witness :
    ((decodeD c6slice).instruments 1).lfo.osc0_freq = (c6slice.get (4 + 1 * 416 + 41) != 0)
  ∧ ((decodeD c6slice).instruments 1).lfo.freq = c6slice.get (4 + 1 * 416 + 43) := by
  obtain ⟨h1, -, h3, -⟩ := claim_C6_amended (from_slice_eq_decodeD (s := c6slice) (by decide)) 1
  exact ⟨h1, h3⟩

section Equations

variable {st : SynthState} {i : Fin 8} {sc nc round : Nat} {v : ℚ} {sw : Bool}

lemma add_note_oob (hs : ¬ sc < 48) : add_note st i sc nc v sw = none := by
  simp [add_note, hs]

lemma add_note_rest (hs : sc < 48) (hp : (st.song.instruments i).seq ⟨sc, hs⟩ = 0) :
    add_note st i sc nc v sw = some st := by
  simp [add_note, hs, hp]

lemma add_note_pat_oob (hs : sc < 48) (hp : (st.song.instruments i).seq ⟨sc, hs⟩ ≠ 0)
    (hplt : ¬ (st.song.instruments i).seq ⟨sc, hs⟩ - 1 < 10) :
    add_note st i sc nc v sw = none := by
  simp [add_note, hs, hp, hplt]

lemma add_note_note_oob (hs : sc < 48) (hp : (st.song.instruments i).seq ⟨sc, hs⟩ ≠ 0)
    (hplt : (st.song.instruments i).seq ⟨sc, hs⟩ - 1 < 10) (hn : ¬ nc < 32) :
    add_note st i sc nc v sw = none := by
  simp [add_note, hs, hp, hplt, hn]

lemma add_note_silent (hs : sc < 48) (hp : (st.song.instruments i).seq ⟨sc, hs⟩ ≠ 0)
    (hplt : (st.song.instruments i).seq ⟨sc, hs⟩ - 1 < 10) (hn : nc < 32)
    (hz : (((st.song.instruments i).pat ⟨(st.song.instruments i).seq ⟨sc, hs⟩ - 1, hplt⟩).notes
      ⟨nc, hn⟩) = 0) :
    add_note st i sc nc v sw = some st := by
  simp [add_note, hs, hp, hplt, hn, hz]

lemma add_note_hit (hs : sc < 48) (hp : (st.song.instruments i).seq ⟨sc, hs⟩ ≠ 0)
    (hplt : (st.song.instruments i).seq ⟨sc, hs⟩ - 1 < 10) (hn : nc < 32)
    (hz : (((st.song.instruments i).pat ⟨(st.song.instruments i).seq ⟨sc, hs⟩ - 1, hplt⟩).notes
      ⟨nc, hn⟩) ≠ 0) :
    add_note st i sc nc v sw = some (st.setNote i (get_note_slot ((st.tracks i).notes))
      (made_note st i
        (((st.song.instruments i).pat ⟨(st.song.instruments i).seq ⟨sc, hs⟩ - 1, hplt⟩).notes
          ⟨nc, hn⟩) v sw)) := by
  simp [add_note, hs, hp, hplt, hn, hz]

lemma delayed_round_early (hd : (st.tracks i).delay_samples * round % u32size > st.sample_count) :
    delayed_round st i round = some st := by
  simp [delayed_round, hd]

lemma delayed_round_div0 (hd : ¬ (st.tracks i).delay_samples * round % u32size > st.sample_count)
    (hq : st.quarter_note_length = 0) : delayed_round st i round = none := by
  simp [delayed_round, hd, checkedMod, hq]

lemma delayed_round_misaligned
    (hd : ¬ (st.tracks i).delay_samples * round % u32size > st.sample_count)
    (hq : st.quarter_note_length ≠ 0)
    (hr : (st.sample_count - (st.tracks i).delay_samples * round % u32size)
      % st.quarter_note_length ≠ 0) :
    delayed_round st i round = some st := by
  simp [delayed_round, hd, checkedMod, hq, hr]

lemma delayed_round_pl0
    (hd : ¬ (st.tracks i).delay_samples * round % u32size > st.sample_count)
    (hq : st.quarter_note_length ≠ 0)
    (hr : (st.sample_count - (st.tracks i).delay_samples * round % u32size)
      % st.quarter_note_length = 0)
    (hpl : st.quarter_note_length * 32 % u32size = 0) :
    delayed_round st i round = none := by
  simp [delayed_round, hd, checkedMod, checkedDiv, hq, hr, hpl]

lemma delayed_round_past
    (hd : ¬ (st.tracks i).delay_samples * round % u32size > st.sample_count)
    (hq : st.quarter_note_length ≠ 0)
    (hr : (st.sample_count - (st.tracks i).delay_samples * round % u32size)
      % st.quarter_note_length = 0)
    (hpl : st.quarter_note_length * 32 % u32size ≠ 0)
    (hsq : (st.sample_count - (st.tracks i).delay_samples * round % u32size)
      / (st.quarter_note_length * 32 % u32size) > st.song.seq_length) :
    delayed_round st i round = some st := by
  simp [delayed_round, hd, checkedMod, checkedDiv, hq, hr, hpl, hsq]

lemma delayed_round_add
    (hd : ¬ (st.tracks i).delay_samples * round % u32size > st.sample_count)
    (hq : st.quarter_note_length ≠ 0)
    (hr : (st.sample_count - (st.tracks i).delay_samples * round % u32size)
      % st.quarter_note_length = 0)
    (hpl : st.quarter_note_length * 32 % u32size ≠ 0)
    (hsq : ¬ (st.sample_count - (st.tracks i).delay_samples * round % u32size)
      / (st.quarter_note_length * 32 % u32size) > st.song.seq_length) :
    delayed_round st i round = add_note st i
      ((st.sample_count - (st.tracks i).delay_samples * round % u32size)
        / (st.quarter_note_length * 32 % u32size))
      ((st.sample_count - (st.tracks i).delay_samples * round % u32size)
        % (st.quarter_note_length * 32 % u32size) / st.quarter_note_length)
      ((st.song.instruments i).fx.delay_amount ^ round) (round % 2 == 1) := by
  simp [delayed_round, hd, checkedMod, checkedDiv, hq, hr, hpl, hsq]

lemma load_notes_past (h : st.seq_count > st.song.seq_length) : load_notes st = some st := by
  simp [load_notes, h]

lemma load_notes_fold (h : ¬ st.seq_count > st.song.seq_length) :
    load_notes st = (List.finRange 8).foldlM
      (fun s i => add_note s i st.seq_count st.note_count 1 false) st := by
  simp [load_notes, h]

end Equations

lemma SameShape.refl (st : SynthState) : SameShape st st :=
  ⟨rfl, rfl, rfl, rfl, rfl, rfl, rfl, rfl, fun _ => ⟨rfl, rfl, rfl, rfl, rfl⟩⟩

lemma SameShape.trans {st st1 st2 : SynthState} (h1 : SameShape st st1)
    (h2 : SameShape st1 st2) : SameShape st st2 := by
  obtain ⟨a1, b1, c1, d1, e1, f1, g1, i1, t1⟩ := h1
  obtain ⟨a2, b2, c2, d2, e2, f2, g2, i2, t2⟩ := h2
  refine ⟨a2.trans a1, b2.trans b1, c2.trans c1, d2.trans d1, e2.trans e1, f2.trans f1,
    g2.trans g1, i2.trans i1, fun t => ?_⟩
  obtain ⟨p1, q1, r1, s1, u1⟩ := t1 t
  obtain ⟨p2, q2, r2, s2, u2⟩ := t2 t
  exact ⟨p2.trans p1, q2.trans q1, r2.trans r1, s2.trans s1, u2.trans u1⟩

lemma setNote_SameShape (st : SynthState) (i j : Fin 8) (nt : Note) :
    SameShape st (st.setNote i j nt) := by
  unfold SynthState.setNote SameShape
  refine ⟨rfl, rfl, rfl, rfl, rfl, rfl, rfl, rfl, fun t => ?_⟩
  by_cases ht : t = i
  · subst ht
    simp [Function.update_same]
  · simp [Function.update_noteq ht]

lemma add_note_SameShape {st st1 : SynthState} {i : Fin 8} {sc nc : Nat} {v : ℚ} {sw : Bool}
    (h : add_note st i sc nc v sw = some st1) : SameShape st st1 ∧ st1.rng = st.rng := by
  by_cases hs : sc < 48
  case neg => rw [add_note_oob hs] at h; cases h
  by_cases hp : (st.song.instruments i).seq ⟨sc, hs⟩ = 0
  · rw [add_note_rest hs hp] at h
    obtain rfl := Option.some.inj h
    exact ⟨SameShape.refl st, rfl⟩
  by_cases hplt : (st.song.instruments i).seq ⟨sc, hs⟩ - 1 < 10
  case neg => rw [add_note_pat_oob hs hp hplt] at h; cases h
  by_cases hn : nc < 32
  case neg => rw [add_note_note_oob hs hp hplt hn] at h; cases h
  by_cases hz : (((st.song.instruments i).pat
      ⟨(st.song.instruments i).seq ⟨sc, hs⟩ - 1, hplt⟩).notes ⟨nc, hn⟩) = 0
  · rw [add_note_silent hs hp hplt hn hz] at h
    obtain rfl := Option.some.inj h
    exact ⟨SameShape.refl st, rfl⟩
  · rw [add_note_hit hs hp hplt hn hz] at h
    obtain rfl := Option.some.inj h
    exact ⟨setNote_SameShape st i _ _, rfl⟩

lemma foldlM_option_rel {α σ : Type _} (f : σ → α → Option σ) (P : σ → σ → Prop)
    (hrefl : ∀ s, P s s) (htrans : ∀ {a b c : σ}, P a b → P b c → P a c)
    (hf : ∀ s a s1, f s a = some s1 → P s s1) :
    ∀ (l : List α) (s s1 : σ), l.foldlM f s = some s1 → P s s1 := by
  intro l
  induction l with
  | nil =>
    intro s s1 h
    simp only [List.foldlM_nil] at h
    obtain rfl := Option.some.inj h
    exact hrefl s
  | cons a l ih =>
    intro s s1 h
    rw [List.foldlM_cons] at h
    cases hfa : f s a with
    | none => rw [hfa] at h; cases h
    | some s2 =>
      rw [hfa] at h
      exact htrans (hf s a s2 hfa) (ih s2 s1 h)

lemma load_notes_SameShape {st st1 : SynthState} (h : load_notes st = some st1) :
    SameShape st st1 ∧ st1.rng = st.rng := by
  unfold load_notes at h
  split at h
  · obtain rfl := Option.some.inj h
    exact ⟨SameShape.refl st, rfl⟩
  · exact foldlM_option_rel _ (fun a b => SameShape a b ∧ b.rng = a.rng)
      (fun s => ⟨SameShape.refl s, rfl⟩)
      (fun hab hbc => ⟨hab.1.trans hbc.1, hbc.2.trans hab.2⟩)
      (fun s a s1 hs => add_note_SameShape hs) _ _ _ h

lemma delayed_round_SameShape {st st1 : SynthState} {i : Fin 8} {round : Nat}
    (h : delayed_round st i round = some st1) : SameShape st st1 ∧ st1.rng = st.rng := by
  by_cases hd : (st.tracks i).delay_samples * round % u32size > st.sample_count
  · rw [delayed_round_early hd] at h
    obtain rfl := Option.some.inj h
    exact ⟨SameShape.refl st, rfl⟩
  by_cases hq : st.quarter_note_length = 0
  · rw [delayed_round_div0 hd hq] at h; cases h
  by_cases hr : (st.sample_count - (st.tracks i).delay_samples * round % u32size)
      % st.quarter_note_length = 0
  case neg => rw [delayed_round_misaligned hd hq hr] at h
              obtain rfl := Option.some.inj h
              exact ⟨SameShape.refl st, rfl⟩
  by_cases hpl : st.quarter_note_length * 32 % u32size = 0
  · rw [delayed_round_pl0 hd hq hr hpl] at h; cases h
  by_cases hsq : (st.sample_count - (st.tracks i).delay_samples * round % u32size)
      / (st.quarter_note_length * 32 % u32size) > st.song.seq_length
  · rw [delayed_round_past hd hq hr hpl hsq] at h
    obtain rfl := Option.some.inj h
    exact ⟨SameShape.refl st, rfl⟩
  · rw [delayed_round_add hd hq hr hpl hsq] at h
    exact add_note_SameShape h

lemma load_delayed_notes_SameShape {st st1 : SynthState} (h : load_delayed_notes st = some st1) :
    SameShape st st1 ∧ st1.rng = st.rng := by
  unfold load_delayed_notes at h
  refine foldlM_option_rel _ (fun a b => SameShape a b ∧ b.rng = a.rng)
    (fun s => ⟨SameShape.refl s, rfl⟩)
    (fun hab hbc => ⟨hab.1.trans hbc.1, hbc.2.trans hab.2⟩)
    (fun s a s1 hs => ?_) _ _ _ h
  exact foldlM_option_rel _ (fun a b => SameShape a b ∧ b.rng = a.rng)
    (fun s2 => ⟨SameShape.refl s2, rfl⟩)
    (fun hab hbc => ⟨hab.1.trans hbc.1, hbc.2.trans hab.2⟩)
    (fun s2 a2 s3 hs2 => delayed_round_SameShape hs2) _ _ _ hs

/-- C7 amended: `Synth::new` precomputes, for every track,
`lfo_freq = 2^(byte − 8) / (quarter_note_length · sample_ratio)` and likewise
`pan_freq` from the pan-frequency byte: the exponent is `byte − 8` itself,
not `(byte − 8)/12` as the spec wrote. -/
theorem claim_C7_amended (E : FloatEnv) (song : Song) (rate : ℚ) (st : SynthState)
    (h : Synth.new E song rate = some st) (i : Fin 8) :
    (st.tracks i).lfo_freq
      = (2 : ℚ) ^ (((song.instruments i).lfo.freq : ℤ) - 8)
        / ((st.quarter_note_length : ℚ) * st.sample_ratio)
  ∧ (st.tracks i).pan_freq
      = (2 : ℚ) ^ (((song.instruments i).fx.pan_freq : ℤ) - 8)
        / ((st.quarter_note_length : ℚ) * st.sample_ratio) := by
  unfold Synth.new at h
  obtain ⟨-, -, hratio, hqnl, -, -, -, -, htr⟩ := (load_notes_SameShape h).1
  obtain ⟨-, -, -, hpan, hlfo⟩ := htr i
  rw [hlfo, hpan, hratio, hqnl]
  constructor
  · simp [load_tracks, get_frequency]
  · simp [load_tracks, get_frequency]

/-- Witness for C7's amended claim: the c7 song at 44100 Hz, track 0. -/
theorem claim_C7_amended_witness :
    (c7state.tracks 0).lfo_freq
      = (2 : ℚ) ^ (((c7song.instruments 0).lfo.freq : ℤ) - 8)
        / ((c7state.quarter_note_length : ℚ) * c7state.sample_ratio) :=
  (claim_C7_amended Edef c7song 44100 c7state rfl 0).1

/-- C7 counterexample: for LFO byte 20, scaled quarter-note length 2 and
sample ratio 1 the code precomputes `lfo_freq = 2^(20−8)/(2·1) = 2048`,
while the spec's formula `2^((20−8)/12)/(2·1)` evaluates to 1. -/
theorem claim_C7_counterexample :
    (c7state.tracks 0).lfo_freq = 2048
  ∧ c7state.quarter_note_length = 2
  ∧ c7state.sample_ratio = 1
  ∧ (c7song.instruments 0).lfo.freq = 20
  ∧ ((2048 : ℝ) ≠ lfoFreqSpec 20 2 1) := by
  refine ⟨by decide, by decide, by decide, by decide, ?_⟩
  unfold lfoFreqSpec
  have h1 : (((20 : Nat) : ℝ) - 8) / 12 = 1 := by norm_num
  rw [h1, Real.rpow_one]
  norm_num

lemma find?_sorted_first {α : Type _} [Preorder α] (p : α → Bool) :
    ∀ l : List α, l.Pairwise (fun a b => a < b) → ∀ a, l.find? p = some a →
      ∀ b ∈ l, b < a → p b = false := by
  intro l
  induction l with
  | nil => intro _ a h; cases h
  | cons x xs ih =>
    intro hl a hfind b hb hba
    by_cases hx : p x = true
    · rw [List.find?_cons_of_pos _ hx] at hfind
      obtain rfl := Option.some.inj hfind
      rcases List.mem_cons.mp hb with rfl | hbxs
      · exact absurd hba (lt_irrefl _)
      · exact absurd (hba.trans ((List.pairwise_cons.mp hl).1 b hbxs)) (lt_irrefl _)
    · rw [List.find?_cons_of_neg _ hx] at hfind
      rcases List.mem_cons.mp hb with rfl | hbxs
      · exact Bool.eq_false_iff.mpr hx
      · exact ih (List.pairwise_cons.mp hl).2 a hfind b hbxs hba

lemma get_note_slot_first_empty (notes : Fin 8 → Note) (j0 : Fin 8)
    (h : (notes j0).pitch = 0) :
    (notes (get_note_slot notes)).pitch = 0
  ∧ ∀ jp : Fin 8, jp < get_note_slot notes → (notes jp).pitch ≠ 0 := by
  unfold get_note_slot
  cases hfind : (List.finRange 8).find? (fun j => (notes j).pitch == 0) with
  | none =>
    exfalso
    have hnone := List.find?_eq_none.mp hfind j0 (List.mem_finRange j0)
    simp [h] at hnone
  | some a =>
    constructor
    · have hpa := List.find?_some hfind
      simpa using hpa
    · intro jp hjp
      have hpf := find?_sorted_first (fun j => (notes j).pitch == 0) (List.finRange 8)
        (List.pairwise_lt_finRange 8) a hfind jp (List.mem_finRange jp) hjp
      simpa using hpf

lemma foldl_min_le (notes : Fin 8 → Note) :
    ∀ (l : List (Fin 8)) (best : Fin 8),
      (notes (l.foldl
          (fun b j => if (notes j).sample_count < (notes b).sample_count then j else b)
          best)).sample_count ≤ (notes best).sample_count
    ∧ ∀ j ∈ l, (notes (l.foldl
          (fun b j => if (notes j).sample_count < (notes b).sample_count then j else b)
          best)).sample_count ≤ (notes j).sample_count := by
  intro l
  induction l with
  | nil => exact fun best => ⟨le_refl _, by simp⟩
  | cons a l ih =>
    intro best
    simp only [List.foldl_cons]
    by_cases hc : (notes a).sample_count < (notes best).sample_count
    · rw [if_pos hc]
      refine ⟨le_trans (ih a).1 (le_of_lt hc), ?_⟩
      intro j hj
      rcases List.mem_cons.mp hj with heq | hj
      · subst heq
        exact (ih _).1
      · exact (ih _).2 j hj
    · rw [if_neg hc]
      refine ⟨(ih best).1, ?_⟩
      intro j hj
      rcases List.mem_cons.mp hj with heq | hj
      · subst heq
        exact le_trans (ih best).1 (not_lt.mp hc)
      · exact (ih best).2 j hj

lemma get_note_slot_min (notes : Fin 8 → Note) (h : ∀ j : Fin 8, (notes j).pitch ≠ 0) :
    ∀ jp : Fin 8, (notes (get_note_slot notes)).sample_count ≤ (notes jp).sample_count := by
  have hfind : (List.finRange 8).find? (fun j => (notes j).pitch == 0) = none := by
    rw [List.find?_eq_none]
    intro x hx
    simpa using h x
  unfold get_note_slot
  rw [hfind]
  intro jp
  exact (foldl_min_le notes (List.finRange 8) 0).2 jp (List.mem_finRange jp)

/-- C9: voice allocation picks the first slot with `pitch == 0`; with all 8
slots occupied it picks the slot with the smallest `sample_count`; and after
nine note-ons on one track (sample counters 0,…,8) exactly 8 voices are
active and the voice with the smallest counter (0) has been overwritten
(slot 0 now carries counter 8). -/
theorem claim_C9 :
    (∀ (notes : Fin 8 → Note) (j0 : Fin 8), (notes j0).pitch = 0 →
        (notes (get_note_slot notes)).pitch = 0
      ∧ ∀ jp : Fin 8, jp < get_note_slot notes → (notes jp).pitch ≠ 0)
  ∧ (∀ notes : Fin 8 → Note, (∀ j : Fin 8, (notes j).pitch ≠ 0) →
      ∀ jp : Fin 8, (notes (get_note_slot notes)).sample_count ≤ (notes jp).sample_count)
  ∧ ((∀ j : Fin 8, ((c9nine.tracks 0).notes j).pitch ≠ 0)
      ∧ ((c9nine.tracks 0).notes 0).sample_count = 8
      ∧ ∀ j : Fin 8, ((c9nine.tracks 0).notes j).sample_count ≠ 0) :=
  ⟨get_note_slot_first_empty, get_note_slot_min, by decide, by decide, by decide⟩

/-- Witness for C9 at a concrete empty track and a concrete full track. -/
theorem claim_C9_witness :
    ((c9start.tracks 0).notes (get_note_slot ((c9start.tracks 0).notes))).pitch = 0
  ∧ ((c9nine.tracks 0).notes (get_note_slot ((c9nine.tracks 0).notes))).sample_count
      ≤ ((c9nine.tracks 0).notes 3).sample_count :=
  ⟨(claim_C9.1 ((c9start.tracks 0).notes) 0 (by decide)).1,
   claim_C9.2.1 ((c9nine.tracks 0).notes) (by decide) 3⟩

section StepEquations

variable {E : FloatEnv} {st : SynthState} {out : (ℚ × ℚ) × SynthState}

lemma step_done (h : EndCond st) : step E st = .done := by
  unfold step
  rw [if_pos h]

lemma step_upd_panic (hnd : ¬ EndCond st) (hu : update E st = none) : step E st = .panic := by
  unfold step
  rw [if_neg hnd, hu]

lemma step_mod_panic (hnd : ¬ EndCond st) (hu : update E st = some out)
    (hq : out.2.quarter_note_length = 0) : step E st = .panic := by
  unfold step
  rw [if_neg hnd, hu]
  simp [checkedMod, bump, hq]

lemma checkedMod_bump (hq : out.2.quarter_note_length ≠ 0) :
    checkedMod (bump out.2).sample_count (bump out.2).quarter_note_length
      = some ((out.2.sample_count + 1) % u32size % out.2.quarter_note_length) := by
  simp [checkedMod, bump, hq]

lemma step_quarter (hnd : ¬ EndCond st) (hu : update E st = some out)
    (hq : out.2.quarter_note_length ≠ 0)
    (h0 : (out.2.sample_count + 1) % u32size % out.2.quarter_note_length = 0) :
    step E st = ((load_delayed_notes (advance_counters (bump out.2))).bind load_notes).elim
      .panic (fun st5 => .frame out.1 st5) := by
  unfold step
  rw [if_neg hnd, hu]
  dsimp only
  rw [checkedMod_bump hq, h0]
  dsimp only
  rcases hld : load_delayed_notes (advance_counters (bump out.2)) with _ | st4
  · rfl
  · dsimp only [Option.bind]
    rcases hln : load_notes st4 with _ | st5 <;> rfl

lemma step_eighth (hnd : ¬ EndCond st) (hu : update E st = some out)
    (hq : out.2.quarter_note_length ≠ 0)
    (h0 : (out.2.sample_count + 1) % u32size % out.2.quarter_note_length ≠ 0)
    (he : (out.2.sample_count + 1) % u32size % out.2.quarter_note_length
      = out.2.eighth_note_length) :
    step E st = (load_delayed_notes (bump out.2)).elim .panic (fun st4 => .frame out.1 st4) := by
  unfold step
  rw [if_neg hnd, hu]
  dsimp only
  rw [checkedMod_bump hq]
  dsimp only
  rw [show (bump out.2).eighth_note_length = out.2.eighth_note_length from rfl]
  rw [if_neg h0, if_pos he]
  rcases hld : load_delayed_notes (bump out.2) with _ | st4 <;> rfl

lemma step_plain (hnd : ¬ EndCond st) (hu : update E st = some out)
    (hq : out.2.quarter_note_length ≠ 0)
    (h0 : (out.2.sample_count + 1) % u32size % out.2.quarter_note_length ≠ 0)
    (he : (out.2.sample_count + 1) % u32size % out.2.quarter_note_length
      ≠ out.2.eighth_note_length) :
    step E st = .frame out.1 (bump out.2) := by
  unfold step
  rw [if_neg hnd, hu]
  dsimp only
  rw [checkedMod_bump hq]
  dsimp only
  rw [show (bump out.2).eighth_note_length = out.2.eighth_note_length from rfl]
  rw [if_neg h0, if_neg he]

lemma update_clip {E : FloatEnv} {st : SynthState} {out : (ℚ × ℚ) × SynthState}
    (h : update E st = some out) : ∃ a b, out.1 = (clip a, clip b) := by
  unfold update at h
  dsimp only at h
  rcases hfold : ((List.finRange 8) ×ˢ (List.finRange 8)).foldlM
      (update_note E ((st.sample_count : ℚ))) ((0, 0), st) with _ | out0
  · rw [hfold] at h
    cases h
  · rw [hfold] at h
    obtain rfl := Option.some.inj h
    exact ⟨out0.1.1, out0.1.2, rfl⟩

end StepEquations

lemma setNote_tracks_ne {st : SynthState} {i t : Fin 8} (ht : t ≠ i) (j : Fin 8) (nt : Note) :
    ((st.setNote i j nt).tracks t) = st.tracks t := by
  simp [SynthState.setNote, Function.update_noteq ht]

lemma setNote_notes_ne {st : SynthState} {i j jp : Fin 8} (hj : jp ≠ j) (nt : Note) :
    (((st.setNote i j nt).tracks i).notes jp) = (st.tracks i).notes jp := by
  simp [SynthState.setNote, Function.update_same, Function.update_noteq hj]

lemma setNote_notes_eq (st : SynthState) (i j : Fin 8) (nt : Note) :
    (((st.setNote i j nt).tracks i).notes j) = nt := by
  simp [SynthState.setNote, Function.update_same]

lemma clip_bounds (x : ℚ) : -1 ≤ clip x ∧ clip x ≤ 1 :=
  ⟨le_max_right _ _, max_le (min_le_right _ _) (by norm_num)⟩

/-- C10: every frame the synth yields is clipped to `[−1, 1]` in both
channels, for every song, every noise/transcendental instantiation (hence
every seed), and every sample rate. -/
theorem claim_C10 (E : FloatEnv) (st : SynthState) (f : ℚ × ℚ)
    (h : (step E st).frame? = some f) :
    -1 ≤ f.1 ∧ f.1 ≤ 1 ∧ -1 ≤ f.2 ∧ f.2 ≤ 1 := by
  by_cases hnd : EndCond st
  · rw [step_done hnd] at h
    cases h
  cases hu : update E st with
  | none =>
    rw [step_upd_panic hnd hu] at h
    cases h
  | some out =>
    obtain ⟨a, b, hab⟩ := update_clip hu
    have hf : f = out.1 := by
      by_cases hq : out.2.quarter_note_length = 0
      · rw [step_mod_panic hnd hu hq] at h
        cases h
      by_cases h0 : (out.2.sample_count + 1) % u32size % out.2.quarter_note_length = 0
      · rw [step_quarter hnd hu hq h0] at h
        rcases hld : (load_delayed_notes (advance_counters (bump out.2))).bind load_notes
            with _ | st5
        · rw [hld] at h
          cases h
        · rw [hld] at h
          simp only [Option.elim, StepResult.frame?] at h
          exact (Option.some.inj h).symm
      by_cases he : (out.2.sample_count + 1) % u32size % out.2.quarter_note_length
          = out.2.eighth_note_length
      · rw [step_eighth hnd hu hq h0 he] at h
        rcases hld : load_delayed_notes (bump out.2) with _ | st4
        · rw [hld] at h
          cases h
        · rw [hld] at h
          simp only [Option.elim, StepResult.frame?] at h
          exact (Option.some.inj h).symm
      · rw [step_plain hnd hu hq h0 he] at h
        simp only [StepResult.frame?] at h
        exact (Option.some.inj h).symm
    subst hf
    rw [hab]
    exact ⟨(clip_bounds a).1, (clip_bounds a).2, (clip_bounds b).1, (clip_bounds b).2⟩

/-- Witness for C10 at the first frame of the S4 run. -/
theorem claim_C10_witness :
    -1 ≤ ((0, 0) : ℚ × ℚ).1 ∧ ((0, 0) : ℚ × ℚ).1 ≤ 1
  ∧ -1 ≤ ((0, 0) : ℚ × ℚ).2 ∧ ((0, 0) : ℚ × ℚ).2 ≤ 1 :=
  claim_C10 Edef s4state (0, 0) (by decide)

/-- C8: the decoder stores the oscillator octave as `((byte − 8)·12) mod 256`
(`u8` wrapping), the note-on pitch sum is `(pitch + octave + detune_freq)
mod 256`, and the oscillator frequency stored by `add_note` is
`note_frequency` of that wrapped sum (scaled by detune and the sample
ratio). -/
theorem claim_C8 :
    (∀ (s : ByteSlice) (i o : Nat) (v : Oscillator), load_oscillator s i o = .ok v →
        (v.octave : ℤ) = (((s.get (i + o * 6) : ℤ) - 8) * 12) % 256)
  ∧ (∀ p oct dt : Nat, (effective_pitch p oct dt : ℤ) = ((p : ℤ) + oct + dt) % 256)
  ∧ (∀ (st st1 : SynthState) (i t j : Fin 8) (sc nc : Nat) (v : ℚ) (sw : Bool),
      add_note st i sc nc v sw = some st1 →
      ((st1.tracks t).notes j) ≠ ((st.tracks t).notes j) →
      ∀ o : Fin 2, ((st1.tracks t).notes j).osc_freq o =
        get_note_frequency (effective_pitch ((st1.tracks t).notes j).pitch
            ((st.song.instruments t).osc o).octave
            ((st.song.instruments t).osc o).detune_freq)
          * ((st.song.instruments t).osc o).detune / st.sample_ratio) := by
  refine ⟨?_, ?_, ?_⟩
  · intro s i o v h
    obtain ⟨hoct, -⟩ := load_oscillator_ok_fields h
    simp only [Nat.add_zero] at hoct
    rw [hoct]
    have hb : s.get (i + o * 6) < 256 := Nat.mod_lt _ (by norm_num)
    push_cast
    omega
  · intro p oct dt
    unfold effective_pitch
    push_cast
    omega
  · intro st st1 i t j sc nc v sw h hne o
    by_cases hs : sc < 48
    case neg => rw [add_note_oob hs] at h; cases h
    by_cases hp : (st.song.instruments i).seq ⟨sc, hs⟩ = 0
    · rw [add_note_rest hs hp] at h
      obtain rfl := Option.some.inj h
      exact absurd rfl hne
    by_cases hplt : (st.song.instruments i).seq ⟨sc, hs⟩ - 1 < 10
    case neg => rw [add_note_pat_oob hs hp hplt] at h; cases h
    by_cases hn : nc < 32
    case neg => rw [add_note_note_oob hs hp hplt hn] at h; cases h
    by_cases hz : (((st.song.instruments i).pat
        ⟨(st.song.instruments i).seq ⟨sc, hs⟩ - 1, hplt⟩).notes ⟨nc, hn⟩) = 0
    · rw [add_note_silent hs hp hplt hn hz] at h
      obtain rfl := Option.some.inj h
      exact absurd rfl hne
    · rw [add_note_hit hs hp hplt hn hz] at h
      obtain rfl := Option.some.inj h
      by_cases ht : t = i
      case neg =>
        rw [setNote_tracks_ne ht] at hne
        exact absurd rfl hne
      subst ht
      by_cases hj : j = get_note_slot ((st.tracks t).notes)
      case neg =>
        rw [setNote_notes_ne hj] at hne
        exact absurd rfl hne
      subst hj
      rw [setNote_notes_eq]
      rfl

/-- Witness for C8's note-on conjunct: the single note-on of the c9 song
writes slot 0 of track 0 with the wrapped-pitch oscillator frequency. -/
theorem claim_C8_witness :
    ((c8after.tracks 0).notes 0).osc_freq 0 =
      get_note_frequency (effective_pitch ((c8after.tracks 0).notes 0).pitch
          ((c9start.song.instruments 0).osc 0).octave
          ((c9start.song.instruments 0).osc 0).detune_freq)
        * ((c9start.song.instruments 0).osc 0).detune / c9start.sample_ratio :=
  claim_C8.2.2 c9start c8after 0 0 0 0 0 1 false rfl
    (fun hEq => absurd (congrArg Note.pitch hEq) (by decide)) 0

/-- C2 counterexample: the all-zero song decodes successfully, its scaled
quarter-note length is 0, and the very first `next` call panics with a
remainder-by-zero in `sample_count % quarter_note_length` — the synth is not
infallible after construction. -/
theorem claim_C2_counterexample :
    (Song.from_slice zeroSlice).toOption.isSome = true
  ∧ (Synth.new Edef zeroSong 44100).isSome = true
  ∧ zeroState.quarter_note_length = 0
  ∧ (step Edef zeroState).isPanic = true :=
  ⟨by decide, by decide, by decide, by decide⟩

/-- C4 counterexample: the S4 song (all zero, `quarter_note_length = 5512`)
decodes with `seq_length = 0` and all sequence bytes zero, yet the very
first `next` call returns a (silent) frame, not `None`. -/
theorem claim_C4_counterexample :
    (Song.from_slice s4slice).toOption.isSome = true
  ∧ s4song.seq_length = 0
  ∧ (∀ (k : Fin 8) (j : Fin 48), (s4song.instruments k).seq j = 0)
  ∧ (Synth.new Edef s4song 44100).isSome = true
  ∧ (step Edef s4state).frame? = some (0, 0) :=
  ⟨by decide, by decide, by decide, by decide, by decide⟩

lemma zero_state_panics : ∀ m : Nat, stateAt Edef zeroState (m + 1) = .panicked := by
  intro m
  induction m with
  | zero =>
    have h1 : step Edef zeroState = .panic := by
      have hp : (step Edef zeroState).isPanic = true := by decide
      cases hs : step Edef zeroState
      · rfl
      · rw [hs] at hp; cases hp
      · rw [hs] at hp; cases hp
    show runStep Edef (stateAt Edef zeroState 0) = .panicked
    rw [show stateAt Edef zeroState 0 = .going zeroState from rfl]
    simp [runStep, h1]
  | succ k ih =>
    show runStep Edef (stateAt Edef zeroState (k + 1)) = .panicked
    rw [ih]
    rfl

/-- C5 counterexample: on the all-zero decoded song the first `next` call
panics (remainder by zero), so no call ever returns `None`: the frame
sequence does not end with `None` after finitely many calls. -/
theorem claim_C5_counterexample :
    ¬ ∃ n : Nat, (callAt Edef zeroState n).isDone = true := by
  rintro ⟨n, hn⟩
  cases n with
  | zero =>
    have h0 : (callAt Edef zeroState 0).isDone = false := by decide
    rw [h0] at hn
    cases hn
  | succ m =>
    unfold callAt at hn
    rw [zero_state_panics m] at hn
    cases hn





lemma SynthState.ext_fields {a b : SynthState} (h1 : a.song = b.song)
    (h2 : a.sample_rate = b.sample_rate) (h3 : a.sample_ratio = b.sample_ratio)
    (h4 : a.quarter_note_length = b.quarter_note_length)
    (h5 : a.eighth_note_length = b.eighth_note_length) (h6 : a.seq_count = b.seq_count)
    (h7 : a.note_count = b.note_count) (h8 : a.sample_count = b.sample_count)
    (h9 : a.tracks = b.tracks) (h10 : a.rng = b.rng) : a = b := by
  cases a
  cases b
  dsimp at h1 h2 h3 h4 h5 h6 h7 h8 h9 h10
  subst h1 h2 h3 h4 h5 h6 h7 h8 h9 h10
  rfl

lemma foldlM_id {α σ : Type _} (f : σ → α → Option σ) (s : σ) (hf : ∀ a, f s a = some s) :
    ∀ l : List α, l.foldlM f s = some s := by
  intro l
  induction l with
  | nil => rfl
  | cons a l ih =>
    rw [List.foldlM_cons, hf a]
    exact ih

/-- On a song with `seq_length = 0` and all sequence bytes zero, `load_notes`
is the identity. -/
lemma load_notes_zero {st : SynthState} (hlen : st.song.seq_length = 0)
    (hseq : ∀ (k : Fin 8) (j : Fin 48), (st.song.instruments k).seq j = 0) :
    load_notes st = some st := by
  by_cases hgt : st.seq_count > st.song.seq_length
  · exact load_notes_past hgt
  · rw [load_notes_fold hgt]
    refine foldlM_id _ _ (fun i => ?_) _
    have hs : st.seq_count < 48 := by omega
    exact add_note_rest hs (hseq i ⟨st.seq_count, hs⟩)

/-- On such a song, every delayed round is the identity (provided the scaled
quarter-note length is positive and `quarter_note_length * 32` does not wrap
to zero). -/
lemma delayed_round_zero {st : SynthState} {i : Fin 8} {round : Nat}
    (hlen : st.song.seq_length = 0)
    (hseq : ∀ (k : Fin 8) (j : Fin 48), (st.song.instruments k).seq j = 0)
    (hq1 : 1 ≤ st.quarter_note_length)
    (hpl : st.quarter_note_length * 32 % u32size ≠ 0) :
    delayed_round st i round = some st := by
  by_cases hd : (st.tracks i).delay_samples * round % u32size > st.sample_count
  · exact delayed_round_early hd
  have hq : st.quarter_note_length ≠ 0 := by omega
  by_cases hr : (st.sample_count - (st.tracks i).delay_samples * round % u32size)
      % st.quarter_note_length = 0
  case neg => exact delayed_round_misaligned hd hq hr
  by_cases hsq : (st.sample_count - (st.tracks i).delay_samples * round % u32size)
      / (st.quarter_note_length * 32 % u32size) > st.song.seq_length
  · exact delayed_round_past hd hq hr hpl hsq
  · rw [delayed_round_add hd hq hr hpl hsq]
    rw [hlen] at hsq
    have hsc0 : (st.sample_count - (st.tracks i).delay_samples * round % u32size)
        / (st.quarter_note_length * 32 % u32size) = 0 := Nat.eq_zero_of_not_pos hsq
    have hs : (st.sample_count - (st.tracks i).delay_samples * round % u32size)
        / (st.quarter_note_length * 32 % u32size) < 48 := by omega
    exact add_note_rest hs (hseq i ⟨_, hs⟩)

lemma load_delayed_zero {st : SynthState} (hlen : st.song.seq_length = 0)
    (hseq : ∀ (k : Fin 8) (j : Fin 48), (st.song.instruments k).seq j = 0)
    (hq1 : 1 ≤ st.quarter_note_length)
    (hpl : st.quarter_note_length * 32 % u32size ≠ 0) :
    load_delayed_notes st = some st := by
  unfold load_delayed_notes
  refine foldlM_id _ _ (fun i => ?_) _
  exact foldlM_id _ _ (fun r => delayed_round_zero hlen hseq hq1 hpl) _

lemma update_note_zero {E : FloatEnv} {st : SynthState} (position : ℚ) (samples : ℚ × ℚ)
    (ij : Fin 8 × Fin 8) (hz : ((st.tracks ij.1).notes ij.2).pitch = 0) :
    update_note E position (samples, st) ij = some (samples, st) := by
  simp [update_note, hz]

lemma clip_zero : clip 0 = 0 := by
  unfold clip
  norm_num

/-- With no active voice, `update` produces the silent frame and leaves the
state unchanged. -/
lemma update_all_zero {E : FloatEnv} {st : SynthState}
    (hz : ∀ i j : Fin 8, ((st.tracks i).notes j).pitch = 0) :
    update E st = some ((0, 0), st) := by
  unfold update
  dsimp only
  have hfold : ∀ l : List (Fin 8 × Fin 8),
      l.foldlM (update_note E ((st.sample_count : ℚ))) ((0, 0), st) = some ((0, 0), st) := by
    intro l
    induction l with
    | nil => rfl
    | cons a l ih =>
      rw [List.foldlM_cons, update_note_zero _ _ a (hz a.1 a.2)]
      exact ih
  rw [hfold]
  show some ((clip 0, clip 0), st) = some ((0, 0), st)
  rw [clip_zero]

/-- One silent step: on a zero-sequence song with in-range counters, `next`
yields the silent frame and the counters advance as in `zsucc`. -/
lemma zero_step {E : FloatEnv} {st : SynthState}
    (hz : ∀ i j : Fin 8, ((st.tracks i).notes j).pitch = 0)
    (hlen : st.song.seq_length = 0)
    (hseq : ∀ (k : Fin 8) (j : Fin 48), (st.song.instruments k).seq j = 0)
    (hq1 : 1 ≤ st.quarter_note_length)
    (hq2 : st.quarter_note_length * 32 < u32size)
    (hsc : st.seq_count = st.sample_count / st.quarter_note_length / 32)
    (hnc : st.note_count = st.sample_count / st.quarter_note_length % 32)
    (hend : st.sample_count < 32 * st.quarter_note_length) :
    step E st = .frame (0, 0) (zsucc st) := by
  have hn1 : st.sample_count + 1 < u32size := by omega
  have hdivlt : st.sample_count / st.quarter_note_length < 32 :=
    (Nat.div_lt_iff_lt_mul (by omega)).mpr (by omega)
  have hnd : ¬ EndCond st := by
    rintro ⟨hA, -⟩
    rw [hsc, Nat.div_eq_of_lt hdivlt, hlen] at hA
    omega
  have hupd : update E st = some ((0, 0), st) := update_all_zero hz
  have hq : st.quarter_note_length ≠ 0 := by omega
  have hmod : (st.sample_count + 1) % u32size = st.sample_count + 1 := Nat.mod_eq_of_lt hn1
  have hpl : st.quarter_note_length * 32 % u32size ≠ 0 := by
    rw [Nat.mod_eq_of_lt hq2]
    omega
  by_cases hb : (st.sample_count + 1) % st.quarter_note_length = 0
  · -- quarter-note boundary
    have h0 : (st.sample_count + 1) % u32size % st.quarter_note_length = 0 := by
      rw [hmod]
      exact hb
    rw [step_quarter hnd hupd hq h0]
    have hsuccdiv : (st.sample_count + 1) / st.quarter_note_length
        = st.sample_count / st.quarter_note_length + 1 := by
      rw [Nat.succ_div, if_pos (Nat.dvd_of_mod_eq_zero hb)]
    have hstA : advance_counters (bump st) = zsucc st := by
      unfold advance_counters
      dsimp only [bump]
      split
      next hc =>
        refine SynthState.ext_fields rfl rfl rfl rfl rfl ?_ ?_ ?_ rfl rfl
        · show st.seq_count + 1 = (st.sample_count + 1) / st.quarter_note_length / 32
          rw [hsuccdiv]
          omega
        · show 0 = (st.sample_count + 1) / st.quarter_note_length % 32
          rw [hsuccdiv]
          omega
        · exact hmod
      next hc =>
        refine SynthState.ext_fields rfl rfl rfl rfl rfl ?_ ?_ ?_ rfl rfl
        · show st.seq_count = (st.sample_count + 1) / st.quarter_note_length / 32
          rw [hsuccdiv]
          omega
        · show st.note_count + 1 = (st.sample_count + 1) / st.quarter_note_length % 32
          rw [hsuccdiv]
          omega
        · exact hmod
    rw [hstA, @load_delayed_zero (zsucc st) hlen hseq hq1 hpl]
    dsimp only [Option.bind]
    rw [@load_notes_zero (zsucc st) hlen hseq]
    rfl
  · -- not a boundary: both the eighth and the plain branch move to `bump`
    have h0 : (st.sample_count + 1) % u32size % st.quarter_note_length ≠ 0 := by
      rw [hmod]
      exact hb
    have hsuccdiv : (st.sample_count + 1) / st.quarter_note_length
        = st.sample_count / st.quarter_note_length := by
      rw [Nat.succ_div, if_neg (fun hdvd => hb (Nat.mod_eq_zero_of_dvd hdvd))]
      omega
    have hbump : bump st = zsucc st := by
      refine SynthState.ext_fields rfl rfl rfl rfl rfl ?_ ?_ ?_ rfl rfl
      · show st.seq_count = (st.sample_count + 1) / st.quarter_note_length / 32
        rw [hsuccdiv]
        exact hsc
      · show st.note_count = (st.sample_count + 1) / st.quarter_note_length % 32
        rw [hsuccdiv]
        exact hnc
      · exact hmod
    by_cases he : (st.sample_count + 1) % u32size % st.quarter_note_length
        = st.eighth_note_length
    · rw [step_eighth hnd hupd hq h0 he]
      dsimp only
      rw [hbump, @load_delayed_zero (zsucc st) hlen hseq hq1 hpl]
      rfl
    · rw [step_plain hnd hupd hq h0 he]
      dsimp only
      rw [hbump]

lemma new_eq_init (E : FloatEnv) (song : Song) (rate : ℚ) :
    Synth.new E song rate = load_notes (initState E song rate) := rfl

lemma new_zero_eq {E : FloatEnv} {song : Song} {rate : ℚ} {s0 : SynthState}
    (h : Synth.new E song rate = some s0)
    (hlen : song.seq_length = 0)
    (hseq : ∀ (k : Fin 8) (j : Fin 48), (song.instruments k).seq j = 0) :
    s0 = initState E song rate := by
  rw [new_eq_init, @load_notes_zero (initState E song rate) hlen hseq] at h
  exact (Option.some.inj h).symm

lemma zero_run {E : FloatEnv} {s0 : SynthState}
    (hz : ∀ i j : Fin 8, ((s0.tracks i).notes j).pitch = 0)
    (hlen : s0.song.seq_length = 0)
    (hseq : ∀ (k : Fin 8) (j : Fin 48), (s0.song.instruments k).seq j = 0)
    (hq1 : 1 ≤ s0.quarter_note_length)
    (hq2 : s0.quarter_note_length * 32 < u32size)
    (hs0 : s0.seq_count = 0) (hn0 : s0.note_count = 0) (hsam0 : s0.sample_count = 0) :
    ∀ n, n ≤ 32 * s0.quarter_note_length → stateAt E s0 n = .going (zstate s0 n) := by
  intro n
  induction n with
  | zero =>
    intro _
    show RunResult.going s0 = RunResult.going (zstate s0 0)
    have h : s0 = zstate s0 0 := by
      refine SynthState.ext_fields rfl rfl rfl rfl rfl ?_ ?_ ?_ rfl rfl
      · show s0.seq_count = 0 / s0.quarter_note_length / 32
        rw [Nat.zero_div, Nat.zero_div]
        exact hs0
      · show s0.note_count = 0 / s0.quarter_note_length % 32
        rw [Nat.zero_div, Nat.zero_mod]
        exact hn0
      · exact hsam0
    rw [← h]
  | succ n ih =>
    intro hle
    have hlt : n < 32 * s0.quarter_note_length := by omega
    have hst := ih (by omega)
    show runStep E (stateAt E s0 n) = RunResult.going (zstate s0 (n + 1))
    rw [hst]
    simp only [runStep]
    rw [@zero_step E (zstate s0 n) hz hlen hseq hq1 hq2 rfl rfl hlt]
    rfl

/-- C4, amended: on a decoded song with `seq_length = 0` and all sequence
bytes zero, the synth does not return `None` on the very first call to
`next`: provided the scaled quarter-note length `q` is at least 1 and
`32 * q` fits in a `u32`, it first yields exactly `32 * q` silent frames
`(0, 0)` (one full 32-step pattern row of quarter notes) and only then, on
call number `32 * q`, returns `None`. -/
theorem claim_C4_amended (E : FloatEnv) (song : Song) (rate : ℚ) (s0 : SynthState)
    (h : Synth.new E song rate = some s0)
    (hlen : song.seq_length = 0)
    (hseq : ∀ (k : Fin 8) (j : Fin 48), (song.instruments k).seq j = 0)
    (hq1 : 1 ≤ s0.quarter_note_length)
    (hq2 : s0.quarter_note_length * 32 < u32size) :
    (∀ n, n < 32 * s0.quarter_note_length → (callAt E s0 n).frame? = some (0, 0)) ∧
    (callAt E s0 (32 * s0.quarter_note_length)).isDone = true := by
  obtain rfl := new_zero_eq h hlen hseq
  have hz : ∀ i j : Fin 8, (((initState E song rate).tracks i).notes j).pitch = 0 :=
    fun i j => rfl
  have hlen2 : (initState E song rate).song.seq_length = 0 := hlen
  have hseq2 : ∀ (k : Fin 8) (j : Fin 48),
      ((initState E song rate).song.instruments k).seq j = 0 := hseq
  have hrun := zero_run (E := E) hz hlen2 hseq2 hq1 hq2 rfl rfl rfl
  constructor
  · intro n hn
    have hst := hrun n (Nat.le_of_lt hn)
    unfold callAt
    rw [hst]
    show (step E (zstate (initState E song rate) n)).frame? = some (0, 0)
    rw [@zero_step E (zstate (initState E song rate) n) hz hlen2 hseq2 hq1 hq2 rfl rfl hn]
    rfl
  · have hst := hrun (32 * (initState E song rate).quarter_note_length) (le_refl _)
    have h32 : 32 * (initState E song rate).quarter_note_length
        / (initState E song rate).quarter_note_length = 32 :=
      Nat.mul_div_cancel _ (by omega)
    have hEnd : EndCond (zstate (initState E song rate)
        (32 * (initState E song rate).quarter_note_length)) := by
      constructor
      · show 32 * (initState E song rate).quarter_note_length
            / (initState E song rate).quarter_note_length / 32
          > (initState E song rate).song.seq_length
        rw [h32, hlen2]
        omega
      · exact hz
    unfold callAt
    rw [hst]
    show (step E (zstate (initState E song rate)
      (32 * (initState E song rate).quarter_note_length))).isDone = true
    rw [step_done hEnd]
    rfl

/-- Witness for `claim_C4_amended` at the S4 song (`quarter_note_length`
5512, all other bytes zero, 44100 Hz). -/
theorem claim_C4_amended_witness :
    (callAt Edef s4state 0).frame? = some (0, 0)
  ∧ (callAt Edef s4state (32 * s4state.quarter_note_length)).isDone = true := by
  have h := claim_C4_amended Edef s4song 44100 s4state rfl (by decide) (by decide)
    (by decide) (by decide)
  exact ⟨h.1 0 (by decide), h.2⟩

lemma BirthBound.mono {c c2 : Nat} {st : SynthState} (h : BirthBound c st) (hle : c ≤ c2) :
    BirthBound c2 st := fun i j => le_trans (h i j) hle

lemma setNote_BirthBound {st : SynthState} {i j : Fin 8} {nt : Note} {c : Nat}
    (hb : BirthBound c st) (hn : nt.sample_count ≤ c) :
    BirthBound c (st.setNote i j nt) := by
  intro ip jp
  by_cases hi : ip = i
  · subst hi
    by_cases hj : jp = j
    · subst hj
      rw [setNote_notes_eq]
      exact hn
    · rw [setNote_notes_ne hj]
      exact hb ip jp
  · rw [setNote_tracks_ne hi]
    exact hb ip jp

/-- The `usize` indexings of `add_note` stay in range whenever the sequence
index is below 48, the sequence byte is at most 10, and the note counter is
below 32; the call then succeeds. -/
lemma add_note_some {st : SynthState} {i : Fin 8} {sc nc : Nat} {v : ℚ} {sw : Bool}
    (hs : sc < 48) (hble : (st.song.instruments i).seq ⟨sc, hs⟩ ≤ 10) (hn : nc < 32) :
    ∃ st1, add_note st i sc nc v sw = some st1 := by
  by_cases hp : (st.song.instruments i).seq ⟨sc, hs⟩ = 0
  · exact ⟨st, add_note_rest hs hp⟩
  have hplt : (st.song.instruments i).seq ⟨sc, hs⟩ - 1 < 10 := by omega
  by_cases hz : (((st.song.instruments i).pat
      ⟨(st.song.instruments i).seq ⟨sc, hs⟩ - 1, hplt⟩).notes ⟨nc, hn⟩) = 0
  · exact ⟨st, add_note_silent hs hp hplt hn hz⟩
  · exact ⟨_, add_note_hit hs hp hplt hn hz⟩

lemma made_note_sample_count (st : SynthState) (i : Fin 8) (pitch : Nat) (v : ℚ) (sw : Bool) :
    (made_note st i pitch v sw).sample_count = st.sample_count := rfl

lemma add_note_BirthBound {st st1 : SynthState} {i : Fin 8} {sc nc : Nat} {v : ℚ} {sw : Bool}
    (h : add_note st i sc nc v sw = some st1) {c : Nat} (hsc : st.sample_count ≤ c)
    (hb : BirthBound c st) : BirthBound c st1 := by
  by_cases hs : sc < 48
  case neg => rw [add_note_oob hs] at h; cases h
  by_cases hp : (st.song.instruments i).seq ⟨sc, hs⟩ = 0
  · rw [add_note_rest hs hp] at h
    obtain rfl := Option.some.inj h
    exact hb
  by_cases hplt : (st.song.instruments i).seq ⟨sc, hs⟩ - 1 < 10
  case neg => rw [add_note_pat_oob hs hp hplt] at h; cases h
  by_cases hn : nc < 32
  case neg => rw [add_note_note_oob hs hp hplt hn] at h; cases h
  by_cases hz : (((st.song.instruments i).pat
      ⟨(st.song.instruments i).seq ⟨sc, hs⟩ - 1, hplt⟩).notes ⟨nc, hn⟩) = 0
  · rw [add_note_silent hs hp hplt hn hz] at h
    obtain rfl := Option.some.inj h
    exact hb
  · rw [add_note_hit hs hp hplt hn hz] at h
    obtain rfl := Option.some.inj h
    exact setNote_BirthBound hb (by rw [made_note_sample_count]; exact hsc)

lemma foldlM_some {α σ : Type _} (f : σ → α → Option σ) (Inv : σ → Prop)
    (hf : ∀ s a, Inv s → ∃ s1, f s a = some s1 ∧ Inv s1) :
    ∀ (l : List α) (s : σ), Inv s → ∃ s1, l.foldlM f s = some s1 ∧ Inv s1 := by
  intro l
  induction l with
  | nil =>
    intro s hs
    exact ⟨s, rfl, hs⟩
  | cons a l ih =>
    intro s hs
    obtain ⟨s2, hfa, hs2⟩ := hf s a hs
    obtain ⟨s1, hfold, hs1⟩ := ih s2 hs2
    refine ⟨s1, ?_, hs1⟩
    rw [List.foldlM_cons, hfa]
    exact hfold

/-- A fold of steps that keep `sample_count` and respect a birth bound keeps
the birth bound. -/
lemma foldlM_BirthBound {α : Type _} {c : Nat} (f : SynthState → α → Option SynthState)
    (hf : ∀ s a s1, f s a = some s1 → s.sample_count = s1.sample_count
      ∧ (BirthBound c s → s.sample_count ≤ c → BirthBound c s1)) :
    ∀ (l : List α) (s s1 : SynthState), l.foldlM f s = some s1 →
      s.sample_count = s1.sample_count
      ∧ (BirthBound c s → s.sample_count ≤ c → BirthBound c s1) := by
  intro l
  induction l with
  | nil =>
    intro s s1 h
    simp only [List.foldlM_nil] at h
    obtain rfl := Option.some.inj h
    exact ⟨rfl, fun hba _ => hba⟩
  | cons a l ih =>
    intro s s1 h
    rw [List.foldlM_cons] at h
    cases hfa : f s a with
    | none => rw [hfa] at h; cases h
    | some s2 =>
      rw [hfa] at h
      obtain ⟨e1, p1⟩ := hf s a s2 hfa
      obtain ⟨e2, p2⟩ := ih s2 s1 h
      exact ⟨e1.trans e2, fun hba hle => p2 (p1 hba hle) (e1 ▸ hle)⟩

/-- `load_notes` never panics when the sequence is short enough, the
sequence bytes are pattern indices, and the note counter is in range. -/
lemma load_notes_some {st : SynthState} (hlen : st.song.seq_length ≤ 47)
    (hseq : ∀ (k : Fin 8) (j : Fin 48), (st.song.instruments k).seq j ≤ 10)
    (hnc : st.note_count < 32) :
    ∃ st1, load_notes st = some st1 := by
  by_cases hgt : st.seq_count > st.song.seq_length
  · exact ⟨st, load_notes_past hgt⟩
  · rw [load_notes_fold hgt]
    have hs : st.seq_count < 48 := by omega
    have hf : ∀ (s : SynthState) (i : Fin 8), s.song = st.song →
        ∃ s1, add_note s i st.seq_count st.note_count 1 false = some s1 ∧ s1.song = st.song := by
      intro s i hsong
      have hble : (s.song.instruments i).seq ⟨st.seq_count, hs⟩ ≤ 10 := by
        rw [hsong]
        exact hseq i ⟨st.seq_count, hs⟩
      obtain ⟨s1, hone⟩ := add_note_some hs hble hnc
      exact ⟨s1, hone, ((add_note_SameShape hone).1.1).trans hsong⟩
    obtain ⟨st1, hfold, -⟩ := foldlM_some _ (fun s => s.song = st.song) hf (List.finRange 8) st rfl
    exact ⟨st1, hfold⟩

lemma load_notes_BirthBound {st st1 : SynthState} (h : load_notes st = some st1) {c : Nat}
    (hsc : st.sample_count ≤ c) (hb : BirthBound c st) : BirthBound c st1 := by
  by_cases hgt : st.seq_count > st.song.seq_length
  · rw [load_notes_past hgt] at h
    obtain rfl := Option.some.inj h
    exact hb
  · rw [load_notes_fold hgt] at h
    refine (foldlM_BirthBound _ (fun s a s1 hone => ?_) _ _ _ h).2 hb hsc
    exact ⟨((add_note_SameShape hone).1.2.2.2.2.2.2.2.1).symm,
      fun hba hle => add_note_BirthBound hone hle hba⟩

/-- One delayed round never panics under the quarter-note-length and
sequence-range conditions. -/
lemma delayed_round_some {st : SynthState} {i : Fin 8} {round : Nat}
    (hq1 : 1 ≤ st.quarter_note_length) (hq2 : st.quarter_note_length * 32 < u32size)
    (hlen : st.song.seq_length ≤ 47)
    (hseq : ∀ (k : Fin 8) (j : Fin 48), (st.song.instruments k).seq j ≤ 10) :
    ∃ st1, delayed_round st i round = some st1 := by
  by_cases hd : (st.tracks i).delay_samples * round % u32size > st.sample_count
  · exact ⟨st, delayed_round_early hd⟩
  have hq : st.quarter_note_length ≠ 0 := by omega
  by_cases hr : (st.sample_count - (st.tracks i).delay_samples * round % u32size)
      % st.quarter_note_length = 0
  case neg => exact ⟨st, delayed_round_misaligned hd hq hr⟩
  have hplmod : st.quarter_note_length * 32 % u32size = st.quarter_note_length * 32 :=
    Nat.mod_eq_of_lt hq2
  have hpl : st.quarter_note_length * 32 % u32size ≠ 0 := by
    rw [hplmod]
    omega
  by_cases hsq : (st.sample_count - (st.tracks i).delay_samples * round % u32size)
      / (st.quarter_note_length * 32 % u32size) > st.song.seq_length
  · exact ⟨st, delayed_round_past hd hq hr hpl hsq⟩
  · rw [delayed_round_add hd hq hr hpl hsq]
    have hs : (st.sample_count - (st.tracks i).delay_samples * round % u32size)
        / (st.quarter_note_length * 32 % u32size) < 48 := by omega
    have hnc : (st.sample_count - (st.tracks i).delay_samples * round % u32size)
        % (st.quarter_note_length * 32 % u32size) / st.quarter_note_length < 32 := by
      have hmodlt : (st.sample_count - (st.tracks i).delay_samples * round % u32size)
          % (st.quarter_note_length * 32 % u32size) < st.quarter_note_length * 32 := by
        rw [hplmod]
        exact Nat.mod_lt _ (by omega)
      exact (Nat.div_lt_iff_lt_mul (by omega)).mpr (by omega)
    exact add_note_some hs (hseq i ⟨_, hs⟩) hnc

lemma delayed_round_BirthBound {st st1 : SynthState} {i : Fin 8} {round : Nat}
    (h : delayed_round st i round = some st1) {c : Nat} (hsc : st.sample_count ≤ c)
    (hb : BirthBound c st) : BirthBound c st1 := by
  by_cases hd : (st.tracks i).delay_samples * round % u32size > st.sample_count
  · rw [delayed_round_early hd] at h
    obtain rfl := Option.some.inj h
    exact hb
  by_cases hq : st.quarter_note_length = 0
  · rw [delayed_round_div0 hd hq] at h; cases h
  by_cases hr : (st.sample_count - (st.tracks i).delay_samples * round % u32size)
      % st.quarter_note_length = 0
  case neg => rw [delayed_round_misaligned hd hq hr] at h
              obtain rfl := Option.some.inj h
              exact hb
  by_cases hpl : st.quarter_note_length * 32 % u32size = 0
  · rw [delayed_round_pl0 hd hq hr hpl] at h; cases h
  by_cases hsq : (st.sample_count - (st.tracks i).delay_samples * round % u32size)
      / (st.quarter_note_length * 32 % u32size) > st.song.seq_length
  · rw [delayed_round_past hd hq hr hpl hsq] at h
    obtain rfl := Option.some.inj h
    exact hb
  · rw [delayed_round_add hd hq hr hpl hsq] at h
    exact add_note_BirthBound h hsc hb

/-- `load_delayed_notes` never panics under the same conditions. -/
lemma load_delayed_some {st : SynthState}
    (hq1 : 1 ≤ st.quarter_note_length) (hq2 : st.quarter_note_length * 32 < u32size)
    (hlen : st.song.seq_length ≤ 47)
    (hseq : ∀ (k : Fin 8) (j : Fin 48), (st.song.instruments k).seq j ≤ 10) :
    ∃ st1, load_delayed_notes st = some st1 := by
  unfold load_delayed_notes
  have hf : ∀ (s : SynthState) (i : Fin 8),
      s.song = st.song ∧ s.quarter_note_length = st.quarter_note_length →
      ∃ s1, (List.range' 1 ((s.tracks i).delay_count)).foldlM
          (fun s2 round => delayed_round s2 i round) s = some s1
        ∧ s1.song = st.song ∧ s1.quarter_note_length = st.quarter_note_length := by
    intro s i hsi
    refine foldlM_some _
      (fun s2 => s2.song = st.song ∧ s2.quarter_note_length = st.quarter_note_length)
      (fun s2 round hs2 => ?_) _ s hsi
    obtain ⟨s3, hone⟩ := @delayed_round_some s2 i round
      (by omega) (by rw [hs2.2]; exact hq2)
      (by rw [hs2.1]; exact hlen) (by rw [hs2.1]; exact hseq)
    have hsh := (delayed_round_SameShape hone).1
    exact ⟨s3, hone, hsh.1.trans hs2.1, hsh.2.2.2.1.trans hs2.2⟩
  obtain ⟨st1, hfold, -⟩ := foldlM_some _
    (fun s => s.song = st.song ∧ s.quarter_note_length = st.quarter_note_length)
    hf (List.finRange 8) st ⟨rfl, rfl⟩
  exact ⟨st1, hfold⟩

lemma load_delayed_BirthBound {st st1 : SynthState} (h : load_delayed_notes st = some st1)
    {c : Nat} (hsc : st.sample_count ≤ c) (hb : BirthBound c st) : BirthBound c st1 := by
  unfold load_delayed_notes at h
  refine (foldlM_BirthBound _ (fun s a s1 hone => ?_) _ _ _ h).2 hb hsc
  refine foldlM_BirthBound _ (fun s2 a2 s3 htwo => ?_) _ _ _ hone
  exact ⟨((delayed_round_SameShape htwo).1.2.2.2.2.2.2.2.1).symm,
    fun hba hle => delayed_round_BirthBound htwo hle hba⟩

/-- `Synth::env` never panics when the three (already scaled) envelope
lengths do not overflow their `u32` sum. -/
lemma env_calc_some {position : Nat} {en : Envelope}
    (hsum : en.attack + en.sustain + en.release < u32size) :
    ∃ v, env_calc position en = some v := by
  unfold env_calc
  dsimp only
  by_cases h1 : position < en.attack
  · rw [if_pos h1]
    exact ⟨_, rfl⟩
  rw [if_neg h1]
  by_cases h2 : position ≥ (en.attack + en.sustain + en.release) % u32size
  · rw [if_pos h2]
    exact ⟨_, rfl⟩
  rw [if_neg h2]
  by_cases h3 : position ≥ (en.attack + en.sustain) % u32size
  · rw [if_pos h3]
    have hmods : (en.attack + en.sustain) % u32size = en.attack + en.sustain :=
      Nat.mod_eq_of_lt (by omega)
    have ha : en.attack ≤ position := by
      rw [hmods] at h3
      omega
    have hs2 : en.sustain ≤ position - en.attack := by
      rw [hmods] at h3
      omega
    rw [show checkedSub position en.attack = some (position - en.attack) from by
      simp [checkedSub, ha]]
    dsimp only
    rw [show checkedSub (position - en.attack) en.sustain
        = some (position - en.attack - en.sustain) from by simp [checkedSub, hs2]]
    exact ⟨_, rfl⟩
  · rw [if_neg h3]
    exact ⟨_, rfl⟩

lemma rng_SameShape (st : SynthState) (r : Nat) : SameShape st { st with rng := r } :=
  ⟨rfl, rfl, rfl, rfl, rfl, rfl, rfl, rfl, fun _ => ⟨rfl, rfl, rfl, rfl, rfl⟩⟩

lemma osc0_pres (E : FloatEnv) (st : SynthState) (i j : Fin 8) (lfo env_sq : ℚ) :
    SameShape st (osc0 E st i j lfo env_sq).2
    ∧ ∀ c, BirthBound c st → BirthBound c (osc0 E st i j lfo env_sq).2 := by
  unfold osc0
  dsimp only
  exact ⟨setNote_SameShape st i j _, fun c hb => setNote_BirthBound hb (hb i j)⟩

lemma osc1_pres (E : FloatEnv) (st : SynthState) (i j : Fin 8) (env_sq : ℚ) :
    SameShape st (osc1 E st i j env_sq).2
    ∧ ∀ c, BirthBound c st → BirthBound c (osc1 E st i j env_sq).2 := by
  unfold osc1
  dsimp only
  exact ⟨setNote_SameShape st i j _, fun c hb => setNote_BirthBound hb (hb i j)⟩

lemma filters_pres (E : FloatEnv) (st : SynthState) (i j : Fin 8) (lfo sample : ℚ) :
    SameShape st (filters E st i j lfo sample).2
    ∧ ∀ c, BirthBound c st → BirthBound c (filters E st i j lfo sample).2 := by
  unfold filters
  dsimp only
  exact ⟨setNote_SameShape st i j _, fun c hb => setNote_BirthBound hb (hb i j)⟩

lemma setNote_note_other {st : SynthState} {i j : Fin 8} {nt : Note} {a b : Fin 8}
    (h : ¬ (a = i ∧ b = j)) :
    (((st.setNote i j nt).tracks a).notes b) = ((st.tracks a).notes b) := by
  by_cases ha : a = i
  · subst ha
    have hb : b ≠ j := fun hbj => h ⟨rfl, hbj⟩
    exact setNote_notes_ne hb _
  · rw [setNote_tracks_ne ha]

lemma rng_notes (st : SynthState) (r : Nat) (a b : Fin 8) :
    ((({ st with rng := r }).tracks a).notes b) = ((st.tracks a).notes b) := rfl

lemma osc0_slots (E : FloatEnv) (st : SynthState) (i j : Fin 8) (lfo env_sq : ℚ) :
    ((((osc0 E st i j lfo env_sq).2.tracks i).notes j).pitch = ((st.tracks i).notes j).pitch
      ∧ (((osc0 E st i j lfo env_sq).2.tracks i).notes j).sample_count
        = ((st.tracks i).notes j).sample_count)
    ∧ ∀ a b : Fin 8, ¬ (a = i ∧ b = j) →
        (((osc0 E st i j lfo env_sq).2.tracks a).notes b) = ((st.tracks a).notes b) := by
  unfold osc0
  dsimp only
  refine ⟨⟨?_, ?_⟩, fun a b h => setNote_note_other h⟩
  · rw [setNote_notes_eq]
  · rw [setNote_notes_eq]

lemma osc1_slots (E : FloatEnv) (st : SynthState) (i j : Fin 8) (env_sq : ℚ) :
    ((((osc1 E st i j env_sq).2.tracks i).notes j).pitch = ((st.tracks i).notes j).pitch
      ∧ (((osc1 E st i j env_sq).2.tracks i).notes j).sample_count
        = ((st.tracks i).notes j).sample_count)
    ∧ ∀ a b : Fin 8, ¬ (a = i ∧ b = j) →
        (((osc1 E st i j env_sq).2.tracks a).notes b) = ((st.tracks a).notes b) := by
  unfold osc1
  dsimp only
  refine ⟨⟨?_, ?_⟩, fun a b h => setNote_note_other h⟩
  · rw [setNote_notes_eq]
  · rw [setNote_notes_eq]

lemma filters_slots (E : FloatEnv) (st : SynthState) (i j : Fin 8) (lfo sample : ℚ) :
    ((((filters E st i j lfo sample).2.tracks i).notes j).pitch = ((st.tracks i).notes j).pitch
      ∧ (((filters E st i j lfo sample).2.tracks i).notes j).sample_count
        = ((st.tracks i).notes j).sample_count)
    ∧ ∀ a b : Fin 8, ¬ (a = i ∧ b = j) →
        (((filters E st i j lfo sample).2.tracks a).notes b) = ((st.tracks a).notes b) := by
  unfold filters
  dsimp only
  refine ⟨⟨?_, ?_⟩, fun a b h => setNote_note_other h⟩
  · rw [setNote_notes_eq]
  · rw [setNote_notes_eq]

/-- `Synth::env` reports the note over when its age has reached the
envelope's total length (and the `u32` sum does not wrap). -/
lemma env_calc_dead {position : Nat} {en : Envelope}
    (hsum : en.attack + en.sustain + en.release < u32size)
    (hpos : en.attack + en.sustain + en.release ≤ position) :
    env_calc position en = some none := by
  unfold env_calc
  dsimp only
  rw [if_neg (by omega : ¬ position < en.attack)]
  rw [if_pos (show position ≥ (en.attack + en.sustain + en.release) % u32size by
    rw [Nat.mod_eq_of_lt hsum]
    omega)]

lemma generate_samples_dead {E : FloatEnv} {st : SynthState} {i j : Fin 8} {pos : ℚ}
    (hble : ((st.tracks i).notes j).sample_count ≤ st.sample_count)
    (hdead : env_calc (st.sample_count - ((st.tracks i).notes j).sample_count)
      ((st.tracks i).env) = some none) :
    generate_samples E st i j pos = some none := by
  unfold generate_samples
  rw [show checkedSub st.sample_count (((st.tracks i).notes j).sample_count)
      = some (st.sample_count - ((st.tracks i).notes j).sample_count) from by
    simp [checkedSub, hble]]
  dsimp only
  rw [hdead]

lemma notePres_refl (st : SynthState) : NotePres st st := fun a b => Or.inl ⟨rfl, rfl⟩

lemma notePres_trans {s1 s2 s3 : SynthState} (h1 : NotePres s1 s2) (h2 : NotePres s2 s3) :
    NotePres s1 s3 := by
  intro a b
  rcases h2 a b with ⟨hp2, hb2⟩ | hz2
  · rcases h1 a b with ⟨hp1, hb1⟩ | hz1
    · exact Or.inl ⟨hp2.trans hp1, hb2.trans hb1⟩
    · exact Or.inr (hp2.trans hz1)
  · exact Or.inr hz2

lemma PitchBirth.of_NotePres {c : Nat} {st st1 : SynthState} (h : NotePres st st1)
    (hpb : PitchBirth c st) : PitchBirth c st1 := by
  intro i j hp
  rcases h i j with ⟨hpe, hbe⟩ | hz
  · rw [hbe]
    exact hpb i j (by rw [← hpe]; exact hp)
  · exact absurd hz hp

lemma if_some_some {α : Type _} {c : Prop} [Decidable c] {A B : α} :
    (if c then some (some A) else some (some B)) = some (some (if c then A else B)) := by
  split <;> rfl

lemma if_pair_snd {α β : Type _} {c : Prop} [Decidable c] {x y : α} {s : β} :
    (if c then (x, s) else (y, s)).2 = s := by
  split <;> rfl

/-- `generate_samples` either reports the note over or returns a frame
contribution, with the state changed only in note memories and `rng`; it
cannot panic when the note is not younger than the clock and the track's
envelope sum does not wrap. -/
lemma generate_samples_cases {E : FloatEnv} {st : SynthState} {i j : Fin 8} {pos : ℚ}
    (hsum : envSum (st.tracks i) < u32size)
    (hble : ((st.tracks i).notes j).sample_count ≤ st.sample_count) :
    generate_samples E st i j pos = some none
    ∨ ∃ out, generate_samples E st i j pos = some (some out)
        ∧ SameShape st out.2
        ∧ (∀ c, BirthBound c st → BirthBound c out.2)
        ∧ (((out.2.tracks i).notes j).pitch = ((st.tracks i).notes j).pitch
            ∧ ((out.2.tracks i).notes j).sample_count = ((st.tracks i).notes j).sample_count)
        ∧ (∀ a b : Fin 8, ¬ (a = i ∧ b = j) →
            ((out.2.tracks a).notes b) = ((st.tracks a).notes b)) := by
  unfold generate_samples
  rw [show checkedSub st.sample_count (((st.tracks i).notes j).sample_count)
      = some (st.sample_count - ((st.tracks i).notes j).sample_count) from by
    simp [checkedSub, hble]]
  dsimp only
  obtain ⟨v, hv⟩ := @env_calc_some
    (st.sample_count - ((st.tracks i).notes j).sample_count) ((st.tracks i).env) hsum
  rw [hv]
  cases v with
  | none => exact Or.inl rfl
  | some ev =>
    right
    dsimp only
    rw [if_some_some]
    set LFO := get_osc_output E (st.song.instruments i).lfo.waveform
        ((st.tracks i).lfo_freq * pos) * (st.song.instruments i).lfo.amount
        * st.sample_ratio + 1 / 2 with hLFO
    refine ⟨_, rfl, ?_, ?_, ⟨?_, ?_⟩, ?_⟩
    · rw [if_pair_snd]
      refine SameShape.trans (osc0_pres E st i j LFO ev.2).1 ?_
      refine SameShape.trans (osc1_pres E (osc0 E st i j LFO ev.2).2 i j ev.2).1 ?_
      refine SameShape.trans (rng_SameShape (osc1 E (osc0 E st i j LFO ev.2).2 i j ev.2).2
        ((osc1 E (osc0 E st i j LFO ev.2).2 i j ev.2).2.rng + 1)) ?_
      exact (filters_pres E _ i j _ _).1
    · intro c hb
      rw [if_pair_snd]
      exact (filters_pres E _ i j _ _).2 c
        ((osc1_pres E (osc0 E st i j LFO ev.2).2 i j ev.2).2 c
          ((osc0_pres E st i j LFO ev.2).2 c hb))
    · rw [if_pair_snd]
      exact ((filters_slots E _ i j _ _).1.1).trans
        (((osc1_slots E (osc0 E st i j LFO ev.2).2 i j ev.2).1.1).trans
          ((osc0_slots E st i j LFO ev.2).1.1))
    · rw [if_pair_snd]
      exact ((filters_slots E _ i j _ _).1.2).trans
        (((osc1_slots E (osc0 E st i j LFO ev.2).2 i j ev.2).1.2).trans
          ((osc0_slots E st i j LFO ev.2).1.2))
    · intro a b hab
      rw [if_pair_snd]
      exact ((filters_slots E _ i j _ _).2 a b hab).trans
        (((osc1_slots E (osc0 E st i j LFO ev.2).2 i j ev.2).2 a b hab).trans
          ((osc0_slots E st i j LFO ev.2).2 a b hab))

/-- One mixer iteration never panics and only touches note slots and `rng`. -/
lemma update_note_cases {E : FloatEnv} {pos : ℚ} {acc : (ℚ × ℚ) × SynthState}
    {ij : Fin 8 × Fin 8}
    (hsum : ∀ t : Fin 8, envSum (acc.2.tracks t) < u32size)
    (hb : BirthBound acc.2.sample_count acc.2) :
    ∃ acc1, update_note E pos acc ij = some acc1
      ∧ SameShape acc.2 acc1.2 ∧ BirthBound acc.2.sample_count acc1.2
      ∧ NotePres acc.2 acc1.2 := by
  unfold update_note
  dsimp only
  by_cases hp : ((acc.2.tracks ij.1).notes ij.2).pitch = 0
  · rw [if_pos hp]
    exact ⟨_, rfl, SameShape.refl acc.2, hb, fun a b => Or.inl ⟨rfl, rfl⟩⟩
  · rw [if_neg hp]
    rcases @generate_samples_cases E acc.2 ij.1 ij.2 pos
        (hsum ij.1) (hb ij.1 ij.2) with hnone | ⟨out, hsome, hsh, hbb, hown, hoth⟩
    · rw [hnone]
      refine ⟨_, rfl, setNote_SameShape acc.2 ij.1 ij.2 _,
        setNote_BirthBound hb (Nat.zero_le _), fun a b => ?_⟩
      by_cases hab : a = ij.1 ∧ b = ij.2
      · obtain ⟨ha, hb2⟩ := hab
        subst ha
        subst hb2
        right
        rw [setNote_notes_eq]
        rfl
      · left
        rw [setNote_note_other hab]
        exact ⟨rfl, rfl⟩
    · rw [hsome]
      refine ⟨_, rfl, hsh, hbb _ hb, fun a b => ?_⟩
      by_cases hab : a = ij.1 ∧ b = ij.2
      · obtain ⟨ha, hb2⟩ := hab
        subst ha
        subst hb2
        exact Or.inl hown
      · left
        rw [hoth a b hab]
        exact ⟨rfl, rfl⟩

/-- `update` never panics when every track's envelope sum fits in a `u32`
and no live voice is younger than the clock; the successor state again
satisfies both conditions and differs only in note slots and `rng`. -/
lemma update_some {E : FloatEnv} {st : SynthState}
    (hsum : ∀ t : Fin 8, envSum (st.tracks t) < u32size)
    (hb : BirthBound st.sample_count st) :
    ∃ out, update E st = some out ∧ SameShape st out.2
      ∧ BirthBound st.sample_count out.2 ∧ NotePres st out.2 := by
  unfold update
  dsimp only
  have hf : ∀ (acc : (ℚ × ℚ) × SynthState) (ij : Fin 8 × Fin 8),
      (SameShape st acc.2 ∧ BirthBound st.sample_count acc.2 ∧ NotePres st acc.2) →
      ∃ acc1, update_note E ((st.sample_count : ℚ)) acc ij = some acc1
        ∧ SameShape st acc1.2 ∧ BirthBound st.sample_count acc1.2 ∧ NotePres st acc1.2 := by
    intro acc ij hacc
    have hsum2 : ∀ t : Fin 8, envSum (acc.2.tracks t) < u32size := by
      intro t
      have henv : (acc.2.tracks t).env = (st.tracks t).env := (hacc.1.2.2.2.2.2.2.2.2 t).1
      unfold envSum
      rw [henv]
      exact hsum t
    have hsc : acc.2.sample_count = st.sample_count := hacc.1.2.2.2.2.2.2.2.1
    have hb2 : BirthBound acc.2.sample_count acc.2 := by
      rw [hsc]
      exact hacc.2.1
    obtain ⟨acc1, hone, hsh, hbb, hnp⟩ := @update_note_cases E
      ((st.sample_count : ℚ)) acc ij hsum2 hb2
    refine ⟨acc1, hone, hacc.1.trans hsh, ?_, notePres_trans hacc.2.2 hnp⟩
    rw [hsc] at hbb
    exact hbb
  obtain ⟨acc1, hfold, hinv⟩ := foldlM_some _
    (fun acc => SameShape st acc.2 ∧ BirthBound st.sample_count acc.2 ∧ NotePres st acc.2) hf
    ((List.finRange 8) ×ˢ (List.finRange 8)) ((0, 0), st)
    ⟨SameShape.refl st, hb, notePres_refl st⟩
  rw [hfold]
  exact ⟨_, rfl, hinv.1, hinv.2.1, hinv.2.2⟩

lemma bump_parts (s : SynthState) : (bump s).song = s.song
    ∧ (bump s).quarter_note_length = s.quarter_note_length
    ∧ (bump s).tracks = s.tracks
    ∧ (bump s).note_count = s.note_count
    ∧ (bump s).sample_count = (s.sample_count + 1) % u32size :=
  ⟨rfl, rfl, rfl, rfl, rfl⟩

lemma advance_parts (s : SynthState) : (advance_counters s).song = s.song
    ∧ (advance_counters s).quarter_note_length = s.quarter_note_length
    ∧ (advance_counters s).tracks = s.tracks
    ∧ (advance_counters s).sample_count = s.sample_count
    ∧ (advance_counters s).note_count < 32 := by
  unfold advance_counters
  dsimp only
  split
  · exact ⟨rfl, rfl, rfl, rfl, by show (0 : Nat) < 32; norm_num⟩
  · next hc =>
      refine ⟨rfl, rfl, rfl, rfl, ?_⟩
      have hc2 : ¬ s.note_count + 1 ≥ 32 := hc
      show s.note_count + 1 < 32
      omega

/-- One call to `next` from a state reachable under the song conditions is
either the end of the song or a frame; when the clock does not wrap the
successor is again reachable. -/
lemma step_safe {E : FloatEnv} {song : Song} {rate : ℚ} {st : SynthState}
    (hinv : RunInv E song rate st)
    (hq1 : 1 ≤ (initState E song rate).quarter_note_length)
    (hq2 : (initState E song rate).quarter_note_length * 32 < u32size)
    (hlen : song.seq_length ≤ 47)
    (hseq : ∀ (k : Fin 8) (j : Fin 48), (song.instruments k).seq j ≤ 10)
    (hsum : ∀ t : Fin 8, envSum ((initState E song rate).tracks t) < u32size) :
    step E st = .done
    ∨ ∃ f st1, step E st = .frame f st1
        ∧ (st.sample_count + 1 < u32size →
            RunInv E song rate st1 ∧ st1.sample_count = st.sample_count + 1) := by
  obtain ⟨hsong, hqnl, henv, hnc, hbb⟩ := hinv
  by_cases hend : EndCond st
  · exact Or.inl (step_done hend)
  right
  have hsum2 : ∀ t : Fin 8, envSum (st.tracks t) < u32size := by
    intro t
    unfold envSum
    rw [(henv t).1]
    exact hsum t
  obtain ⟨out, hu, hsh, hob, -⟩ := update_some (E := E) hsum2 hbb
  have hoqnl : out.2.quarter_note_length = st.quarter_note_length := hsh.2.2.2.1
  have hosc : out.2.sample_count = st.sample_count := hsh.2.2.2.2.2.2.2.1
  have hq0 : out.2.quarter_note_length ≠ 0 := by
    rw [hoqnl, hqnl]
    omega
  by_cases h0 : (out.2.sample_count + 1) % u32size % out.2.quarter_note_length = 0
  · -- quarter-note boundary: run the two note loaders
    rw [step_quarter hend hu hq0 h0]
    have hAsong : (advance_counters (bump out.2)).song = song := by
      rw [(advance_parts _).1, (bump_parts _).1, hsh.1, hsong]
    have hAq : (advance_counters (bump out.2)).quarter_note_length
        = (initState E song rate).quarter_note_length := by
      rw [(advance_parts _).2.1, (bump_parts _).2.1, hoqnl, hqnl]
    have hAtr : (advance_counters (bump out.2)).tracks = out.2.tracks := by
      rw [(advance_parts _).2.2.1, (bump_parts _).2.2.1]
    have hAnc : (advance_counters (bump out.2)).note_count < 32 := (advance_parts _).2.2.2.2
    have hAsc : (advance_counters (bump out.2)).sample_count
        = (st.sample_count + 1) % u32size := by
      rw [(advance_parts _).2.2.2.1, (bump_parts _).2.2.2.2, hosc]
    obtain ⟨st4, hld⟩ := @load_delayed_some (advance_counters (bump out.2))
      (by rw [hAq]; exact hq1) (by rw [hAq]; exact hq2)
      (by rw [hAsong]; exact hlen) (by rw [hAsong]; exact hseq)
    have hsh4 := (load_delayed_notes_SameShape hld).1
    obtain ⟨st5, hln⟩ := @load_notes_some st4
      (by rw [hsh4.1, hAsong]; exact hlen)
      (by rw [hsh4.1, hAsong]; exact hseq)
      (by rw [hsh4.2.2.2.2.2.2.1]; exact hAnc)
    rw [hld]
    dsimp only [Option.bind]
    rw [hln]
    refine ⟨out.1, st5, rfl, ?_⟩
    intro hn1
    have hsh5 := (load_notes_SameShape hln).1
    have hmod : (st.sample_count + 1) % u32size = st.sample_count + 1 := Nat.mod_eq_of_lt hn1
    have h5sc : st5.sample_count = st.sample_count + 1 := by
      rw [hsh5.2.2.2.2.2.2.2.1, hsh4.2.2.2.2.2.2.2.1, hAsc, hmod]
    refine ⟨⟨?_, ?_, ?_, ?_, ?_⟩, h5sc⟩
    · rw [hsh5.1, hsh4.1, hAsong]
    · rw [hsh5.2.2.2.1, hsh4.2.2.2.1, hAq]
    · intro t
      refine ⟨?_, ?_, ?_⟩
      · rw [(hsh5.2.2.2.2.2.2.2.2 t).1, (hsh4.2.2.2.2.2.2.2.2 t).1, hAtr,
          (hsh.2.2.2.2.2.2.2.2 t).1, (henv t).1]
      · rw [(hsh5.2.2.2.2.2.2.2.2 t).2.1, (hsh4.2.2.2.2.2.2.2.2 t).2.1, hAtr,
          (hsh.2.2.2.2.2.2.2.2 t).2.1, (henv t).2.1]
      · rw [(hsh5.2.2.2.2.2.2.2.2 t).2.2.1, (hsh4.2.2.2.2.2.2.2.2 t).2.2.1, hAtr,
          (hsh.2.2.2.2.2.2.2.2 t).2.2.1, (henv t).2.2]
    · rw [hsh5.2.2.2.2.2.2.1, hsh4.2.2.2.2.2.2.1]
      exact hAnc
    · rw [h5sc]
      have hbA : BirthBound (st.sample_count + 1) (advance_counters (bump out.2)) := by
        intro ii jj
        rw [hAtr]
        exact le_trans (hob ii jj) (Nat.le_succ _)
      have hscA : (advance_counters (bump out.2)).sample_count ≤ st.sample_count + 1 := by
        rw [hAsc, hmod]
      have hb4 : BirthBound (st.sample_count + 1) st4 := load_delayed_BirthBound hld hscA hbA
      have hsc4 : st4.sample_count ≤ st.sample_count + 1 := by
        rw [hsh4.2.2.2.2.2.2.2.1, hAsc, hmod]
      exact load_notes_BirthBound hln hsc4 hb4
  by_cases he : (out.2.sample_count + 1) % u32size % out.2.quarter_note_length
      = out.2.eighth_note_length
  · -- eighth-note boundary: delayed loader only
    rw [step_eighth hend hu hq0 h0 he]
    have hBsong : (bump out.2).song = song := by
      rw [(bump_parts _).1, hsh.1, hsong]
    have hBq : (bump out.2).quarter_note_length
        = (initState E song rate).quarter_note_length := by
      rw [(bump_parts _).2.1, hoqnl, hqnl]
    obtain ⟨st4, hld⟩ := @load_delayed_some (bump out.2)
      (by rw [hBq]; exact hq1) (by rw [hBq]; exact hq2)
      (by rw [hBsong]; exact hlen) (by rw [hBsong]; exact hseq)
    rw [hld]
    refine ⟨out.1, st4, rfl, ?_⟩
    intro hn1
    have hmod : (st.sample_count + 1) % u32size = st.sample_count + 1 := Nat.mod_eq_of_lt hn1
    have hsh4 := (load_delayed_notes_SameShape hld).1
    have h4sc : st4.sample_count = st.sample_count + 1 := by
      rw [hsh4.2.2.2.2.2.2.2.1, (bump_parts _).2.2.2.2, hosc, hmod]
    refine ⟨⟨?_, ?_, ?_, ?_, ?_⟩, h4sc⟩
    · rw [hsh4.1, hBsong]
    · rw [hsh4.2.2.2.1, hBq]
    · intro t
      refine ⟨?_, ?_, ?_⟩
      · rw [(hsh4.2.2.2.2.2.2.2.2 t).1, (bump_parts out.2).2.2.1,
          (hsh.2.2.2.2.2.2.2.2 t).1, (henv t).1]
      · rw [(hsh4.2.2.2.2.2.2.2.2 t).2.1, (bump_parts out.2).2.2.1,
          (hsh.2.2.2.2.2.2.2.2 t).2.1, (henv t).2.1]
      · rw [(hsh4.2.2.2.2.2.2.2.2 t).2.2.1, (bump_parts out.2).2.2.1,
          (hsh.2.2.2.2.2.2.2.2 t).2.2.1, (henv t).2.2]
    · rw [hsh4.2.2.2.2.2.2.1, (bump_parts _).2.2.2.1, hsh.2.2.2.2.2.2.1]
      exact hnc
    · rw [h4sc]
      have hbB : BirthBound (st.sample_count + 1) (bump out.2) := by
        intro ii jj
        rw [(bump_parts out.2).2.2.1]
        exact le_trans (hob ii jj) (Nat.le_succ _)
      have hscB : (bump out.2).sample_count ≤ st.sample_count + 1 := by
        rw [(bump_parts _).2.2.2.2, hosc, hmod]
      exact load_delayed_BirthBound hld hscB hbB
  · -- plain sample
    rw [step_plain hend hu hq0 h0 he]
    refine ⟨out.1, bump out.2, rfl, ?_⟩
    intro hn1
    have hmod : (st.sample_count + 1) % u32size = st.sample_count + 1 := Nat.mod_eq_of_lt hn1
    have hBsc : (bump out.2).sample_count = st.sample_count + 1 := by
      rw [(bump_parts _).2.2.2.2, hosc, hmod]
    refine ⟨⟨?_, ?_, ?_, ?_, ?_⟩, hBsc⟩
    · rw [(bump_parts _).1, hsh.1, hsong]
    · rw [(bump_parts _).2.1, hoqnl, hqnl]
    · intro t
      refine ⟨?_, ?_, ?_⟩
      · rw [(bump_parts out.2).2.2.1, (hsh.2.2.2.2.2.2.2.2 t).1, (henv t).1]
      · rw [(bump_parts out.2).2.2.1, (hsh.2.2.2.2.2.2.2.2 t).2.1, (henv t).2.1]
      · rw [(bump_parts out.2).2.2.1, (hsh.2.2.2.2.2.2.2.2 t).2.2.1, (henv t).2.2]
    · rw [(bump_parts _).2.2.2.1, hsh.2.2.2.2.2.2.1]
      exact hnc
    · rw [hBsc]
      intro ii jj
      rw [(bump_parts out.2).2.2.1]
      exact le_trans (hob ii jj) (Nat.le_succ _)

/-- Before the `u32` clock can wrap, every run state is live-and-reachable or
the song has ended. -/
lemma safe_run {E : FloatEnv} {song : Song} {rate : ℚ} {s0 : SynthState}
    (hnew : Synth.new E song rate = some s0)
    (hq1 : 1 ≤ (initState E song rate).quarter_note_length)
    (hq2 : (initState E song rate).quarter_note_length * 32 < u32size)
    (hlen : song.seq_length ≤ 47)
    (hseq : ∀ (k : Fin 8) (j : Fin 48), (song.instruments k).seq j ≤ 10)
    (hsum : ∀ t : Fin 8, envSum ((initState E song rate).tracks t) < u32size) :
    ∀ n, n < u32size →
      stateAt E s0 n = .ended
      ∨ ∃ st, stateAt E s0 n = .going st ∧ RunInv E song rate st ∧ st.sample_count = n := by
  intro n
  induction n with
  | zero =>
    intro _
    right
    have hload : load_notes (initState E song rate) = some s0 := by
      rw [← new_eq_init]
      exact hnew
    have hsh := (load_notes_SameShape hload).1
    have h0sc : s0.sample_count = 0 := hsh.2.2.2.2.2.2.2.1
    have h0nc : s0.note_count = 0 := hsh.2.2.2.2.2.2.1
    have hbi : BirthBound 0 (initState E song rate) := fun i j => Nat.le_refl 0
    refine ⟨s0, rfl, ⟨hsh.1, hsh.2.2.2.1, fun t => ⟨(hsh.2.2.2.2.2.2.2.2 t).1,
      (hsh.2.2.2.2.2.2.2.2 t).2.1, (hsh.2.2.2.2.2.2.2.2 t).2.2.1⟩, by omega, ?_⟩, h0sc⟩
    rw [h0sc]
    exact load_notes_BirthBound hload (Nat.le_refl 0) hbi
  | succ n ih =>
    intro hlt
    rcases ih (by omega) with hended | ⟨st, hst, hinv, hsc⟩
    · left
      show runStep E (stateAt E s0 n) = .ended
      rw [hended]
      rfl
    · rcases step_safe hinv hq1 hq2 hlen hseq hsum with hdone | ⟨f, st1, hstep, hrest⟩
      · left
        show runStep E (stateAt E s0 n) = .ended
        rw [hst]
        simp only [runStep]
        rw [hdone]
      · right
        obtain ⟨hinv1, hsc1⟩ := hrest (by omega)
        refine ⟨st1, ?_, hinv1, by rw [hsc1, hsc]⟩
        show runStep E (stateAt E s0 n) = .going st1
        rw [hst]
        simp only [runStep]
        rw [hstep]

/-- C2, amended: the synth is not unconditionally infallible (an all-zero
decoded song makes the very first `next` divide by a zero
`quarter_note_length`).  It is panic-free under the conditions the shipped
format satisfies: the scaled quarter-note length is at least 1 and
`32 * q` fits in a `u32`, the sequence length is at most 47, every sequence
byte is a pattern index (at most 10), and each track's scaled envelope sum
`attack + sustain + release` fits in a `u32`.  Then construction succeeds
and no call to `next` before the `u32` sample clock would wrap (i.e. the
first `2^32` calls) panics: each returns a frame or `None`. -/
theorem claim_C2_amended (E : FloatEnv) (song : Song) (rate : ℚ)
    (hq1 : 1 ≤ (initState E song rate).quarter_note_length)
    (hq2 : (initState E song rate).quarter_note_length * 32 < u32size)
    (hlen : song.seq_length ≤ 47)
    (hseq : ∀ (k : Fin 8) (j : Fin 48), (song.instruments k).seq j ≤ 10)
    (hsum : ∀ t : Fin 8, envSum ((initState E song rate).tracks t) < u32size) :
    ∃ s0, Synth.new E song rate = some s0
      ∧ ∀ n, n < u32size → (callAt E s0 n).isPanic = false := by
  have hnc0 : (initState E song rate).note_count < 32 := by
    show 0 < 32
    norm_num
  obtain ⟨s0, hnew0⟩ := @load_notes_some (initState E song rate) hlen hseq hnc0
  have hnew : Synth.new E song rate = some s0 := by
    rw [new_eq_init]
    exact hnew0
  refine ⟨s0, hnew, ?_⟩
  intro n hn
  rcases safe_run hnew hq1 hq2 hlen hseq hsum n hn with hend | ⟨st, hst, hinv, -⟩
  · unfold callAt
    rw [hend]
    rfl
  · unfold callAt
    rw [hst]
    show (step E st).isPanic = false
    rcases step_safe hinv hq1 hq2 hlen hseq hsum with hdone | ⟨f, st1, hstep, -⟩
    · rw [hdone]
      rfl
    · rw [hstep]
      rfl

/-- Witness for `claim_C2_amended` at the S4 song, which satisfies all five
conditions. -/
theorem claim_C2_amended_witness :
    ∃ s0, Synth.new Edef s4song 44100 = some s0
      ∧ ∀ n, n < u32size → (callAt Edef s0 n).isPanic = false :=
  claim_C2_amended Edef s4song 44100 (by decide) (by decide) (by decide) (by decide)
    (by decide)

lemma foldlM_id_mem {α σ : Type _} (f : σ → α → Option σ) (s : σ) :
    ∀ (l : List α), (∀ a ∈ l, f s a = some s) → l.foldlM f s = some s := by
  intro l
  induction l with
  | nil => intro _; rfl
  | cons a l ih =>
    intro hf
    rw [List.foldlM_cons, hf a (List.mem_cons_self a l)]
    exact ih (fun a2 ha2 => hf a2 (List.mem_cons_of_mem a ha2))

lemma foldlM_pres_mem {α : Type _} (f : SynthState → α → Option SynthState)
    (P : SynthState → Prop) :
    ∀ (l : List α), (∀ s a, a ∈ l → P s → ∀ s1, f s a = some s1 → P s1) →
      ∀ s s1, l.foldlM f s = some s1 → P s → P s1 := by
  intro l
  induction l with
  | nil =>
    intro _ s s1 h hp
    simp only [List.foldlM_nil] at h
    obtain rfl := Option.some.inj h
    exact hp
  | cons a l ih =>
    intro hf s s1 h hp
    rw [List.foldlM_cons] at h
    cases hfa : f s a with
    | none => rw [hfa] at h; cases h
    | some s2 =>
      rw [hfa] at h
      exact ih (fun s' a' ha' => hf s' a' (List.mem_cons_of_mem a ha')) s2 s1 h
        (hf s a (List.mem_cons_self a l) hp s2 hfa)

lemma setNote_PitchBirth {st : SynthState} {i j : Fin 8} {nt : Note} {T : Nat}
    (hpb : PitchBirth T st) (hn : nt.pitch ≠ 0 → nt.sample_count < T) :
    PitchBirth T (st.setNote i j nt) := by
  intro ip jp hp
  by_cases hi : ip = i
  · subst hi
    by_cases hj : jp = j
    · subst hj
      rw [setNote_notes_eq] at hp ⊢
      exact hn hp
    · rw [setNote_notes_ne hj] at hp ⊢
      exact hpb ip jp hp
  · rw [setNote_tracks_ne hi] at hp ⊢
    exact hpb ip jp hp

lemma add_note_PitchBirth {st st1 : SynthState} {i : Fin 8} {sc nc : Nat} {v : ℚ} {sw : Bool}
    {T : Nat} (h : add_note st i sc nc v sw = some st1) (hlt : st.sample_count < T)
    (hpb : PitchBirth T st) : PitchBirth T st1 := by
  by_cases hs : sc < 48
  case neg => rw [add_note_oob hs] at h; cases h
  by_cases hp : (st.song.instruments i).seq ⟨sc, hs⟩ = 0
  · rw [add_note_rest hs hp] at h
    obtain rfl := Option.some.inj h
    exact hpb
  by_cases hplt : (st.song.instruments i).seq ⟨sc, hs⟩ - 1 < 10
  case neg => rw [add_note_pat_oob hs hp hplt] at h; cases h
  by_cases hn : nc < 32
  case neg => rw [add_note_note_oob hs hp hplt hn] at h; cases h
  by_cases hz : (((st.song.instruments i).pat
      ⟨(st.song.instruments i).seq ⟨sc, hs⟩ - 1, hplt⟩).notes ⟨nc, hn⟩) = 0
  · rw [add_note_silent hs hp hplt hn hz] at h
    obtain rfl := Option.some.inj h
    exact hpb
  · rw [add_note_hit hs hp hplt hn hz] at h
    obtain rfl := Option.some.inj h
    exact setNote_PitchBirth hpb (fun _ => by rw [made_note_sample_count]; exact hlt)

lemma foldlM_PitchBirth {α : Type _} {T : Nat} (f : SynthState → α → Option SynthState)
    (hf : ∀ s a s1, f s a = some s1 → s.sample_count = s1.sample_count
      ∧ (PitchBirth T s → s.sample_count < T → PitchBirth T s1)) :
    ∀ (l : List α) (s s1 : SynthState), l.foldlM f s = some s1 →
      s.sample_count = s1.sample_count
      ∧ (PitchBirth T s → s.sample_count < T → PitchBirth T s1) := by
  intro l
  induction l with
  | nil =>
    intro s s1 h
    simp only [List.foldlM_nil] at h
    obtain rfl := Option.some.inj h
    exact ⟨rfl, fun hpa _ => hpa⟩
  | cons a l ih =>
    intro s s1 h
    rw [List.foldlM_cons] at h
    cases hfa : f s a with
    | none => rw [hfa] at h; cases h
    | some s2 =>
      rw [hfa] at h
      obtain ⟨e1, p1⟩ := hf s a s2 hfa
      obtain ⟨e2, p2⟩ := ih s2 s1 h
      exact ⟨e1.trans e2, fun hpa hlt => p2 (p1 hpa hlt) (e1 ▸ hlt)⟩

/-- `load_notes` only creates voices born before `T` when the sequence
cursor is in range only at times before `T`. -/
lemma load_notes_PitchBirth {st st1 : SynthState} {T : Nat} (h : load_notes st = some st1)
    (hT : st.seq_count ≤ st.song.seq_length → st.sample_count < T)
    (hpb : PitchBirth T st) : PitchBirth T st1 := by
  by_cases hgt : st.seq_count > st.song.seq_length
  · rw [load_notes_past hgt] at h
    obtain rfl := Option.some.inj h
    exact hpb
  · rw [load_notes_fold hgt] at h
    have hlt : st.sample_count < T := hT (by omega)
    refine (foldlM_PitchBirth _ (fun s a s1 hone => ?_) _ _ _ h).2 hpb hlt
    exact ⟨((add_note_SameShape hone).1.2.2.2.2.2.2.2.1).symm,
      fun hpa hlt2 => add_note_PitchBirth hone hlt2 hpa⟩

/-- A delayed round only creates voices born before
`(seq_length + 1) * pattern_length + D` when its wrapped delay product is at
most `D`. -/
lemma delayed_round_PitchBirth {st st1 : SynthState} {i : Fin 8} {round T D : Nat}
    (h : delayed_round st i round = some st1)
    (hdel : (st.tracks i).delay_samples * round ≤ D)
    (hTd : (st.song.seq_length + 1) * (st.quarter_note_length * 32 % u32size) + D ≤ T)
    (hpb : PitchBirth T st) : PitchBirth T st1 := by
  by_cases hd : (st.tracks i).delay_samples * round % u32size > st.sample_count
  · rw [delayed_round_early hd] at h
    obtain rfl := Option.some.inj h
    exact hpb
  by_cases hq : st.quarter_note_length = 0
  · rw [delayed_round_div0 hd hq] at h; cases h
  by_cases hr : (st.sample_count - (st.tracks i).delay_samples * round % u32size)
      % st.quarter_note_length = 0
  case neg => rw [delayed_round_misaligned hd hq hr] at h
              obtain rfl := Option.some.inj h
              exact hpb
  by_cases hpl : st.quarter_note_length * 32 % u32size = 0
  · rw [delayed_round_pl0 hd hq hr hpl] at h; cases h
  by_cases hsq : (st.sample_count - (st.tracks i).delay_samples * round % u32size)
      / (st.quarter_note_length * 32 % u32size) > st.song.seq_length
  · rw [delayed_round_past hd hq hr hpl hsq] at h
    obtain rfl := Option.some.inj h
    exact hpb
  · rw [delayed_round_add hd hq hr hpl hsq] at h
    refine add_note_PitchBirth h ?_ hpb
    have hplpos : 0 < st.quarter_note_length * 32 % u32size := Nat.pos_of_ne_zero hpl
    have hposlt : st.sample_count - (st.tracks i).delay_samples * round % u32size
        < (st.song.seq_length + 1) * (st.quarter_note_length * 32 % u32size) :=
      (Nat.div_lt_iff_lt_mul hplpos).mp (by omega)
    have hdelle : (st.tracks i).delay_samples * round % u32size ≤ D :=
      le_trans (Nat.mod_le _ _) hdel
    omega

lemma load_delayed_PitchBirth {st st1 : SynthState} {T D : Nat}
    (h : load_delayed_notes st = some st1)
    (hD : ∀ t : Fin 8, (st.tracks t).delay_samples * (st.tracks t).delay_count ≤ D)
    (hTd : (st.song.seq_length + 1) * (st.quarter_note_length * 32 % u32size) + D ≤ T)
    (hpb : PitchBirth T st) : PitchBirth T st1 := by
  unfold load_delayed_notes at h
  refine (foldlM_pres_mem _ (fun s => PitchBirth T s ∧ SameShape st s) _
    (fun s i hi hP s1 hone => ?_) _ _ h ⟨hpb, SameShape.refl st⟩).1
  refine foldlM_pres_mem _ (fun s2 => PitchBirth T s2 ∧ SameShape st s2) _
    (fun s2 r hr hP2 s3 htwo => ?_) _ _ hone hP
  constructor
  · refine delayed_round_PitchBirth (D := D) htwo ?_ ?_ hP2.1
    · have hds : (s2.tracks i).delay_samples = (st.tracks i).delay_samples :=
        (hP2.2.2.2.2.2.2.2.2.2 i).2.1
      have hdc : (s.tracks i).delay_count = (st.tracks i).delay_count :=
        (hP.2.2.2.2.2.2.2.2.2 i).2.2.1
      have hrle : r ≤ (s.tracks i).delay_count := by
        have hmem := List.mem_range'_1.mp hr
        omega
      rw [hds]
      calc (st.tracks i).delay_samples * r
          ≤ (st.tracks i).delay_samples * (st.tracks i).delay_count :=
            Nat.mul_le_mul_left _ (by omega)
        _ ≤ D := hD i
    · have hsg : s2.song = st.song := hP2.2.1
      have hqn : s2.quarter_note_length = st.quarter_note_length := hP2.2.2.2.2.1
      rw [hsg, hqn]
      exact hTd
  · exact hP2.2.trans (delayed_round_SameShape htwo).1

/-- Past time `(seq_length + 1) * pattern_length + D`, a delayed round can
no longer add any note: its sequence index is already out of range. -/
lemma delayed_round_late {st : SynthState} {i : Fin 8} {round D : Nat}
    (hq : st.quarter_note_length ≠ 0)
    (hpl : st.quarter_note_length * 32 % u32size ≠ 0)
    (hdel : (st.tracks i).delay_samples * round ≤ D)
    (htime : (st.song.seq_length + 1) * (st.quarter_note_length * 32 % u32size) + D
      ≤ st.sample_count) :
    delayed_round st i round = some st := by
  by_cases hd : (st.tracks i).delay_samples * round % u32size > st.sample_count
  · exact delayed_round_early hd
  by_cases hr : (st.sample_count - (st.tracks i).delay_samples * round % u32size)
      % st.quarter_note_length = 0
  case neg => exact delayed_round_misaligned hd hq hr
  have hplpos : 0 < st.quarter_note_length * 32 % u32size := Nat.pos_of_ne_zero hpl
  have hdelle : (st.tracks i).delay_samples * round % u32size ≤ D :=
    le_trans (Nat.mod_le _ _) hdel
  have hsq : (st.sample_count - (st.tracks i).delay_samples * round % u32size)
      / (st.quarter_note_length * 32 % u32size) > st.song.seq_length := by
    have hge : (st.song.seq_length + 1) * (st.quarter_note_length * 32 % u32size)
        ≤ st.sample_count - (st.tracks i).delay_samples * round % u32size := by omega
    have hdiv := (Nat.le_div_iff_mul_le hplpos).mpr hge
    omega
  exact delayed_round_past hd hq hr hpl hsq

lemma load_delayed_late {st : SynthState} {D : Nat}
    (hq : st.quarter_note_length ≠ 0)
    (hpl : st.quarter_note_length * 32 % u32size ≠ 0)
    (hD : ∀ t : Fin 8, (st.tracks t).delay_samples * (st.tracks t).delay_count ≤ D)
    (htime : (st.song.seq_length + 1) * (st.quarter_note_length * 32 % u32size) + D
      ≤ st.sample_count) :
    load_delayed_notes st = some st := by
  unfold load_delayed_notes
  refine foldlM_id _ _ (fun i => ?_) _
  refine foldlM_id_mem _ _ _ (fun r hr => ?_)
  have hmem := List.mem_range'_1.mp hr
  have hrle : r ≤ (st.tracks i).delay_count := by omega
  exact delayed_round_late hq hpl
    (le_trans (Nat.mul_le_mul_left _ hrle) (hD i)) htime

/-- When every live voice's age has reached its envelope total, one `update`
pass zeroes the whole voice table (and cannot panic). -/
lemma update_kill {E : FloatEnv} {st : SynthState}
    (hsum : ∀ t : Fin 8, envSum (st.tracks t) < u32size)
    (hb : BirthBound st.sample_count st)
    (hdead : ∀ i j : Fin 8, ((st.tracks i).notes j).pitch ≠ 0 →
      envSum (st.tracks i) ≤ st.sample_count - ((st.tracks i).notes j).sample_count) :
    ∃ out, update E st = some out ∧ SameShape st out.2
      ∧ ∀ i j : Fin 8, ((out.2.tracks i).notes j).pitch = 0 := by
  unfold update
  dsimp only
  have hfold : ∀ (l : List (Fin 8 × Fin 8)) (acc : (ℚ × ℚ) × SynthState),
      SameShape st acc.2 →
      (∀ p : Fin 8 × Fin 8, ((acc.2.tracks p.1).notes p.2) = ((st.tracks p.1).notes p.2)
        ∨ ((acc.2.tracks p.1).notes p.2).pitch = 0) →
      ∃ res, l.foldlM (update_note E ((st.sample_count : ℚ))) acc = some res
        ∧ SameShape st res.2
        ∧ ∀ p : Fin 8 × Fin 8, (p ∈ l ∨ ((acc.2.tracks p.1).notes p.2).pitch = 0) →
            ((res.2.tracks p.1).notes p.2).pitch = 0 := by
    intro l
    induction l with
    | nil =>
      intro acc hsh hJ
      refine ⟨acc, rfl, hsh, fun p hp => ?_⟩
      rcases hp with hin | hz
      · exact absurd hin (List.not_mem_nil p)
      · exact hz
    | cons a l ih =>
      intro acc hsh hJ
      by_cases hpz : ((acc.2.tracks a.1).notes a.2).pitch = 0
      · have hone : update_note E ((st.sample_count : ℚ)) acc a = some acc := by
          unfold update_note
          dsimp only
          rw [if_pos hpz]
        obtain ⟨res, hfl, hshr, hzr⟩ := ih acc hsh hJ
        refine ⟨res, ?_, hshr, fun p hp => ?_⟩
        · rw [List.foldlM_cons, hone]
          exact hfl
        · rcases hp with hin | hz
          · rcases List.mem_cons.mp hin with rfl | hin2
            · exact hzr p (Or.inr hpz)
            · exact hzr p (Or.inl hin2)
          · exact hzr p (Or.inr hz)
      · have horig : ((acc.2.tracks a.1).notes a.2) = ((st.tracks a.1).notes a.2) := by
          rcases hJ a with he | hz
          · exact he
          · exact absurd hz hpz
        have hstp : ((st.tracks a.1).notes a.2).pitch ≠ 0 := by
          rw [← horig]
          exact hpz
        have hgd : generate_samples E acc.2 a.1 a.2 ((st.sample_count : ℚ)) = some none := by
          apply generate_samples_dead
          · rw [horig, hsh.2.2.2.2.2.2.2.1]
            exact hb a.1 a.2
          · rw [horig, hsh.2.2.2.2.2.2.2.1, (hsh.2.2.2.2.2.2.2.2 a.1).1]
            exact env_calc_dead (hsum a.1) (hdead a.1 a.2 hstp)
        have hone : update_note E ((st.sample_count : ℚ)) acc a
            = some (acc.1, acc.2.setNote a.1 a.2 (Note.new 0 0 0 false)) := by
          unfold update_note
          dsimp only
          rw [if_neg hpz, hgd]
        have hsh2 : SameShape st (acc.2.setNote a.1 a.2 (Note.new 0 0 0 false)) :=
          hsh.trans (setNote_SameShape _ _ _ _)
        have hJ2 : ∀ p : Fin 8 × Fin 8,
            (((acc.2.setNote a.1 a.2 (Note.new 0 0 0 false)).tracks p.1).notes p.2)
                = ((st.tracks p.1).notes p.2)
              ∨ (((acc.2.setNote a.1 a.2 (Note.new 0 0 0 false)).tracks p.1).notes p.2).pitch
                = 0 := by
          intro p
          by_cases hpa : p.1 = a.1 ∧ p.2 = a.2
          · right
            obtain ⟨h1, h2⟩ := hpa
            rw [h1, h2, setNote_notes_eq]
            rfl
          · rw [setNote_note_other hpa]
            exact hJ p
        obtain ⟨res, hfl, hshr, hzr⟩ :=
          ih (acc.1, acc.2.setNote a.1 a.2 (Note.new 0 0 0 false)) hsh2 hJ2
        refine ⟨res, ?_, hshr, fun p hp => ?_⟩
        · rw [List.foldlM_cons, hone]
          exact hfl
        · rcases hp with hin | hz
          · rcases List.mem_cons.mp hin with heq | hin2
            · subst heq
              refine hzr p (Or.inr ?_)
              show (((acc.2.setNote p.1 p.2 (Note.new 0 0 0 false)).tracks p.1).notes p.2).pitch
                = 0
              rw [setNote_notes_eq]
              rfl
            · exact hzr p (Or.inl hin2)
          · refine hzr p (Or.inr ?_)
            by_cases hpa : p.1 = a.1 ∧ p.2 = a.2
            · show (((acc.2.setNote a.1 a.2 (Note.new 0 0 0 false)).tracks p.1).notes p.2).pitch
                = 0
              obtain ⟨h1, h2⟩ := hpa
              rw [h1, h2, setNote_notes_eq]
              rfl
            · show (((acc.2.setNote a.1 a.2 (Note.new 0 0 0 false)).tracks p.1).notes p.2).pitch
                = 0
              rw [setNote_note_other hpa]
              exact hz
  obtain ⟨res, hfl, hshr, hzr⟩ := hfold ((List.finRange 8) ×ˢ (List.finRange 8)) ((0, 0), st)
    (SameShape.refl st) (fun p => Or.inl rfl)
  rw [hfl]
  refine ⟨_, rfl, hshr, fun i j => ?_⟩
  refine hzr (i, j) (Or.inl ?_)
  exact List.pair_mem_product.mpr ⟨List.mem_finRange i, List.mem_finRange j⟩

lemma advance_counts (s : SynthState) :
    ((advance_counters s).seq_count = s.seq_count
      ∧ (advance_counters s).note_count = s.note_count + 1 ∧ ¬ s.note_count + 1 ≥ 32)
    ∨ ((advance_counters s).seq_count = s.seq_count + 1
      ∧ (advance_counters s).note_count = 0 ∧ s.note_count + 1 ≥ 32) := by
  unfold advance_counters
  dsimp only
  split
  · next hc =>
      right
      have hc2 : s.note_count + 1 ≥ 32 := hc
      exact ⟨rfl, rfl, hc2⟩
  · next hc =>
      left
      have hc2 : ¬ s.note_count + 1 ≥ 32 := hc
      exact ⟨rfl, rfl, hc2⟩

/-- Part (a) of the termination contract: one call returns `None` exactly
when `seq_count > seq_length` and every voice slot of every track has
`pitch = 0`, i.e. exactly when `EndCond` holds at the moment of the call. -/
lemma step_done_iff (E : FloatEnv) (st : SynthState) :
    step E st = .done ↔ EndCond st := by
  constructor
  · intro h
    by_contra hnd
    cases hu : update E st with
    | none =>
      rw [step_upd_panic hnd hu] at h
      cases h
    | some out =>
      by_cases hq : out.2.quarter_note_length = 0
      · rw [step_mod_panic hnd hu hq] at h
        cases h
      by_cases h0 : (out.2.sample_count + 1) % u32size % out.2.quarter_note_length = 0
      · rw [step_quarter hnd hu hq h0] at h
        rcases hld : load_delayed_notes (advance_counters (bump out.2)) with _ | st4
        · rw [hld] at h
          dsimp only [Option.bind, Option.elim] at h
          cases h
        · rw [hld] at h
          dsimp only [Option.bind] at h
          rcases hln : load_notes st4 with _ | st5
          · rw [hln] at h
            dsimp only [Option.elim] at h
            cases h
          · rw [hln] at h
            dsimp only [Option.elim] at h
            cases h
      · by_cases he : (out.2.sample_count + 1) % u32size % out.2.quarter_note_length
            = out.2.eighth_note_length
        · rw [step_eighth hnd hu hq h0 he] at h
          rcases hld : load_delayed_notes (bump out.2) with _ | st4
          · rw [hld] at h
            dsimp only [Option.elim] at h
            cases h
          · rw [hld] at h
            dsimp only [Option.elim] at h
            cases h
        · rw [step_plain hnd hu hq h0 he] at h
          cases h
  · exact step_done

/-- One call to `next`, tracked precisely: the run invariant, the closed-form
counters, and the fact that live voices are born only before
`T ≥ (seq_length + 1) * pattern_length + D` are all preserved. -/
lemma step_safe2 {E : FloatEnv} {song : Song} {rate : ℚ} {st : SynthState} {T D : Nat}
    (hinv : RunInv E song rate st)
    (hpb : PitchBirth T st)
    (hsc2 : st.seq_count
      = st.sample_count / (initState E song rate).quarter_note_length / 32)
    (hnc2 : st.note_count
      = st.sample_count / (initState E song rate).quarter_note_length % 32)
    (hq1 : 1 ≤ (initState E song rate).quarter_note_length)
    (hq2 : (initState E song rate).quarter_note_length * 32 < u32size)
    (hlen : song.seq_length ≤ 47)
    (hseq : ∀ (k : Fin 8) (j : Fin 48), (song.instruments k).seq j ≤ 10)
    (hsum : ∀ t : Fin 8, envSum ((initState E song rate).tracks t) < u32size)
    (hD : ∀ t : Fin 8, ((initState E song rate).tracks t).delay_samples
        * ((initState E song rate).tracks t).delay_count ≤ D)
    (hT : (song.seq_length + 1) * ((initState E song rate).quarter_note_length * 32) + D ≤ T)
    (hn1 : st.sample_count + 1 < u32size) :
    step E st = .done
    ∨ ∃ f st1, step E st = .frame f st1
        ∧ RunInv E song rate st1 ∧ PitchBirth T st1
        ∧ st1.sample_count = st.sample_count + 1
        ∧ st1.seq_count
          = (st.sample_count + 1) / (initState E song rate).quarter_note_length / 32
        ∧ st1.note_count
          = (st.sample_count + 1) / (initState E song rate).quarter_note_length % 32 := by
  obtain ⟨hsong, hqnl, henv, hnc, hbb⟩ := hinv
  by_cases hend : EndCond st
  · exact Or.inl (step_done hend)
  right
  have hsum2 : ∀ t : Fin 8, envSum (st.tracks t) < u32size := by
    intro t
    unfold envSum
    rw [(henv t).1]
    exact hsum t
  obtain ⟨out, hu, hsh, hob, hnp⟩ := update_some (E := E) hsum2 hbb
  have hoqnl : out.2.quarter_note_length = st.quarter_note_length := hsh.2.2.2.1
  have hosc : out.2.sample_count = st.sample_count := hsh.2.2.2.2.2.2.2.1
  have hq0 : out.2.quarter_note_length ≠ 0 := by
    rw [hoqnl, hqnl]
    omega
  have hmod : (st.sample_count + 1) % u32size = st.sample_count + 1 := Nat.mod_eq_of_lt hn1
  have hpb2 : PitchBirth T out.2 := PitchBirth.of_NotePres hnp hpb
  by_cases h0 : (out.2.sample_count + 1) % u32size % out.2.quarter_note_length = 0
  · -- quarter-note boundary
    have hb0 : (st.sample_count + 1) % (initState E song rate).quarter_note_length = 0 := by
      rw [hosc, hoqnl, hqnl, hmod] at h0
      exact h0
    have hsuccdiv : (st.sample_count + 1) / (initState E song rate).quarter_note_length
        = st.sample_count / (initState E song rate).quarter_note_length + 1 := by
      rw [Nat.succ_div, if_pos (Nat.dvd_of_mod_eq_zero hb0)]
    rw [step_quarter hend hu hq0 h0]
    have hAsong : (advance_counters (bump out.2)).song = song := by
      rw [(advance_parts _).1, (bump_parts _).1, hsh.1, hsong]
    have hAq : (advance_counters (bump out.2)).quarter_note_length
        = (initState E song rate).quarter_note_length := by
      rw [(advance_parts _).2.1, (bump_parts _).2.1, hoqnl, hqnl]
    have hAtr : (advance_counters (bump out.2)).tracks = out.2.tracks := by
      rw [(advance_parts _).2.2.1, (bump_parts _).2.2.1]
    have hAnc : (advance_counters (bump out.2)).note_count < 32 := (advance_parts _).2.2.2.2
    have hAsc : (advance_counters (bump out.2)).sample_count
        = (st.sample_count + 1) % u32size := by
      rw [(advance_parts _).2.2.2.1, (bump_parts _).2.2.2.2, hosc]
    have hbseq : (bump out.2).seq_count = st.seq_count := hsh.2.2.2.2.2.1
    have hbnote : (bump out.2).note_count = st.note_count := hsh.2.2.2.2.2.2.1
    have hAcnt : (advance_counters (bump out.2)).seq_count
          = (st.sample_count + 1) / (initState E song rate).quarter_note_length / 32
        ∧ (advance_counters (bump out.2)).note_count
          = (st.sample_count + 1) / (initState E song rate).quarter_note_length % 32 := by
      rcases advance_counts (bump out.2) with ⟨hs1, hn1', hlt32⟩ | ⟨hs1, hn1', hge32⟩
      · rw [hbnote, hnc2] at hlt32
        constructor
        · rw [hs1, hbseq, hsc2, hsuccdiv]
          omega
        · rw [hn1', hbnote, hnc2, hsuccdiv]
          omega
      · rw [hbnote, hnc2] at hge32
        constructor
        · rw [hs1, hbseq, hsc2, hsuccdiv]
          omega
        · rw [hn1', hsuccdiv]
          omega
    have hpbA : PitchBirth T (advance_counters (bump out.2)) := by
      intro i j hp
      rw [hAtr] at hp ⊢
      exact hpb2 i j hp
    have hDA : ∀ t : Fin 8, ((advance_counters (bump out.2)).tracks t).delay_samples
        * ((advance_counters (bump out.2)).tracks t).delay_count ≤ D := by
      intro t
      rw [hAtr, (hsh.2.2.2.2.2.2.2.2 t).2.1, (hsh.2.2.2.2.2.2.2.2 t).2.2.1,
        (henv t).2.1, (henv t).2.2]
      exact hD t
    have hTdA : ((advance_counters (bump out.2)).song.seq_length + 1)
        * ((advance_counters (bump out.2)).quarter_note_length * 32 % u32size) + D ≤ T := by
      rw [hAsong, hAq, Nat.mod_eq_of_lt hq2]
      exact hT
    obtain ⟨st4, hld⟩ := @load_delayed_some (advance_counters (bump out.2))
      (by rw [hAq]; exact hq1) (by rw [hAq]; exact hq2)
      (by rw [hAsong]; exact hlen) (by rw [hAsong]; exact hseq)
    have hsh4 := (load_delayed_notes_SameShape hld).1
    have hpb4 : PitchBirth T st4 := load_delayed_PitchBirth hld hDA hTdA hpbA
    obtain ⟨st5, hln⟩ := @load_notes_some st4
      (by rw [hsh4.1, hAsong]; exact hlen)
      (by rw [hsh4.1, hAsong]; exact hseq)
      (by rw [hsh4.2.2.2.2.2.2.1]; exact hAnc)
    have hsh5 := (load_notes_SameShape hln).1
    have hs4sc : st4.sample_count = st.sample_count + 1 := by
      rw [hsh4.2.2.2.2.2.2.2.1, hAsc, hmod]
    have hT5 : st4.seq_count ≤ st4.song.seq_length → st4.sample_count < T := by
      intro hle
      rw [hsh4.2.2.2.2.2.1, hAcnt.1, hsh4.1, hAsong] at hle
      rw [hs4sc]
      have hd32 : (st.sample_count + 1) / (initState E song rate).quarter_note_length
          < 32 * song.seq_length + 32 := by omega
      have hmul : st.sample_count + 1
          < (32 * song.seq_length + 32) * (initState E song rate).quarter_note_length :=
        (Nat.div_lt_iff_lt_mul (by omega)).mp hd32
      have hring : (32 * song.seq_length + 32) * (initState E song rate).quarter_note_length
          = (song.seq_length + 1) * ((initState E song rate).quarter_note_length * 32) := by
        ring
      rw [hring] at hmul
      omega
    have hpb5 : PitchBirth T st5 := load_notes_PitchBirth hln hT5 hpb4
    rw [hld]
    dsimp only [Option.bind]
    rw [hln]
    refine ⟨out.1, st5, rfl, ?_⟩
    have h5sc : st5.sample_count = st.sample_count + 1 := by
      rw [hsh5.2.2.2.2.2.2.2.1, hs4sc]
    refine ⟨⟨?_, ?_, ?_, ?_, ?_⟩, hpb5, h5sc, ?_, ?_⟩
    · rw [hsh5.1, hsh4.1, hAsong]
    · rw [hsh5.2.2.2.1, hsh4.2.2.2.1, hAq]
    · intro t
      refine ⟨?_, ?_, ?_⟩
      · rw [(hsh5.2.2.2.2.2.2.2.2 t).1, (hsh4.2.2.2.2.2.2.2.2 t).1, hAtr,
          (hsh.2.2.2.2.2.2.2.2 t).1, (henv t).1]
      · rw [(hsh5.2.2.2.2.2.2.2.2 t).2.1, (hsh4.2.2.2.2.2.2.2.2 t).2.1, hAtr,
          (hsh.2.2.2.2.2.2.2.2 t).2.1, (henv t).2.1]
      · rw [(hsh5.2.2.2.2.2.2.2.2 t).2.2.1, (hsh4.2.2.2.2.2.2.2.2 t).2.2.1, hAtr,
          (hsh.2.2.2.2.2.2.2.2 t).2.2.1, (henv t).2.2]
    · rw [hsh5.2.2.2.2.2.2.1, hsh4.2.2.2.2.2.2.1]
      exact hAnc
    · rw [h5sc]
      have hbA : BirthBound (st.sample_count + 1) (advance_counters (bump out.2)) := by
        intro ii jj
        rw [hAtr]
        exact le_trans (hob ii jj) (Nat.le_succ _)
      have hscA : (advance_counters (bump out.2)).sample_count ≤ st.sample_count + 1 := by
        rw [hAsc, hmod]
      have hb4 : BirthBound (st.sample_count + 1) st4 := load_delayed_BirthBound hld hscA hbA
      have hsc4 : st4.sample_count ≤ st.sample_count + 1 := by
        rw [hs4sc]
      exact load_notes_BirthBound hln hsc4 hb4
    · rw [hsh5.2.2.2.2.2.1, hsh4.2.2.2.2.2.1]
      exact hAcnt.1
    · rw [hsh5.2.2.2.2.2.2.1, hsh4.2.2.2.2.2.2.1]
      exact hAcnt.2
  -- not a quarter boundary
  have hb0 : (st.sample_count + 1) % (initState E song rate).quarter_note_length ≠ 0 := by
    rw [hosc, hoqnl, hqnl, hmod] at h0
    exact h0
  have hsuccdiv : (st.sample_count + 1) / (initState E song rate).quarter_note_length
      = st.sample_count / (initState E song rate).quarter_note_length := by
    rw [Nat.succ_div, if_neg (fun hdvd => hb0 (Nat.mod_eq_zero_of_dvd hdvd))]
    omega
  by_cases he : (out.2.sample_count + 1) % u32size % out.2.quarter_note_length
      = out.2.eighth_note_length
  · -- eighth-note boundary
    rw [step_eighth hend hu hq0 h0 he]
    have hBsong : (bump out.2).song = song := by
      rw [(bump_parts _).1, hsh.1, hsong]
    have hBq : (bump out.2).quarter_note_length
        = (initState E song rate).quarter_note_length := by
      rw [(bump_parts _).2.1, hoqnl, hqnl]
    have hpbB : PitchBirth T (bump out.2) := by
      intro i j hp
      rw [(bump_parts out.2).2.2.1] at hp ⊢
      exact hpb2 i j hp
    have hDB : ∀ t : Fin 8, ((bump out.2).tracks t).delay_samples
        * ((bump out.2).tracks t).delay_count ≤ D := by
      intro t
      rw [(bump_parts out.2).2.2.1, (hsh.2.2.2.2.2.2.2.2 t).2.1,
        (hsh.2.2.2.2.2.2.2.2 t).2.2.1, (henv t).2.1, (henv t).2.2]
      exact hD t
    have hTdB : ((bump out.2).song.seq_length + 1)
        * ((bump out.2).quarter_note_length * 32 % u32size) + D ≤ T := by
      rw [hBsong, hBq, Nat.mod_eq_of_lt hq2]
      exact hT
    obtain ⟨st4, hld⟩ := @load_delayed_some (bump out.2)
      (by rw [hBq]; exact hq1) (by rw [hBq]; exact hq2)
      (by rw [hBsong]; exact hlen) (by rw [hBsong]; exact hseq)
    have hsh4 := (load_delayed_notes_SameShape hld).1
    have hpb4 : PitchBirth T st4 := load_delayed_PitchBirth hld hDB hTdB hpbB
    rw [hld]
    refine ⟨out.1, st4, rfl, ?_⟩
    have h4sc : st4.sample_count = st.sample_count + 1 := by
      rw [hsh4.2.2.2.2.2.2.2.1, (bump_parts _).2.2.2.2, hosc, hmod]
    refine ⟨⟨?_, ?_, ?_, ?_, ?_⟩, hpb4, h4sc, ?_, ?_⟩
    · rw [hsh4.1, hBsong]
    · rw [hsh4.2.2.2.1, hBq]
    · intro t
      refine ⟨?_, ?_, ?_⟩
      · rw [(hsh4.2.2.2.2.2.2.2.2 t).1, (bump_parts out.2).2.2.1,
          (hsh.2.2.2.2.2.2.2.2 t).1, (henv t).1]
      · rw [(hsh4.2.2.2.2.2.2.2.2 t).2.1, (bump_parts out.2).2.2.1,
          (hsh.2.2.2.2.2.2.2.2 t).2.1, (henv t).2.1]
      · rw [(hsh4.2.2.2.2.2.2.2.2 t).2.2.1, (bump_parts out.2).2.2.1,
          (hsh.2.2.2.2.2.2.2.2 t).2.2.1, (henv t).2.2]
    · rw [hsh4.2.2.2.2.2.2.1, (bump_parts _).2.2.2.1, hsh.2.2.2.2.2.2.1]
      exact hnc
    · rw [h4sc]
      have hbB : BirthBound (st.sample_count + 1) (bump out.2) := by
        intro ii jj
        rw [(bump_parts out.2).2.2.1]
        exact le_trans (hob ii jj) (Nat.le_succ _)
      have hscB : (bump out.2).sample_count ≤ st.sample_count + 1 := by
        rw [(bump_parts _).2.2.2.2, hosc, hmod]
      exact load_delayed_BirthBound hld hscB hbB
    · have hbseq2 : (bump out.2).seq_count = st.seq_count := hsh.2.2.2.2.2.1
      rw [hsh4.2.2.2.2.2.1, hbseq2, hsc2, hsuccdiv]
    · rw [hsh4.2.2.2.2.2.2.1, (bump_parts _).2.2.2.1, hsh.2.2.2.2.2.2.1, hnc2, hsuccdiv]
  · -- plain sample
    rw [step_plain hend hu hq0 h0 he]
    refine ⟨out.1, bump out.2, rfl, ?_⟩
    have hBsc : (bump out.2).sample_count = st.sample_count + 1 := by
      rw [(bump_parts _).2.2.2.2, hosc, hmod]
    have hpbB : PitchBirth T (bump out.2) := by
      intro i j hp
      rw [(bump_parts out.2).2.2.1] at hp ⊢
      exact hpb2 i j hp
    refine ⟨⟨?_, ?_, ?_, ?_, ?_⟩, hpbB, hBsc, ?_, ?_⟩
    · rw [(bump_parts _).1, hsh.1, hsong]
    · rw [(bump_parts _).2.1, hoqnl, hqnl]
    · intro t
      refine ⟨?_, ?_, ?_⟩
      · rw [(bump_parts out.2).2.2.1, (hsh.2.2.2.2.2.2.2.2 t).1, (henv t).1]
      · rw [(bump_parts out.2).2.2.1, (hsh.2.2.2.2.2.2.2.2 t).2.1, (henv t).2.1]
      · rw [(bump_parts out.2).2.2.1, (hsh.2.2.2.2.2.2.2.2 t).2.2.1, (henv t).2.2]
    · rw [(bump_parts _).2.2.2.1, hsh.2.2.2.2.2.2.1]
      exact hnc
    · rw [hBsc]
      intro ii jj
      rw [(bump_parts out.2).2.2.1]
      exact le_trans (hob ii jj) (Nat.le_succ _)
    · have hbseq2 : (bump out.2).seq_count = st.seq_count := hsh.2.2.2.2.2.1
      rw [hbseq2, hsc2, hsuccdiv]
    · rw [(bump_parts _).2.2.2.1, hsh.2.2.2.2.2.2.1, hnc2, hsuccdiv]

lemma safe_run2 {E : FloatEnv} {song : Song} {rate : ℚ} {s0 : SynthState} {T D : Nat}
    (hnew : Synth.new E song rate = some s0)
    (hq1 : 1 ≤ (initState E song rate).quarter_note_length)
    (hq2 : (initState E song rate).quarter_note_length * 32 < u32size)
    (hlen : song.seq_length ≤ 47)
    (hseq : ∀ (k : Fin 8) (j : Fin 48), (song.instruments k).seq j ≤ 10)
    (hsum : ∀ t : Fin 8, envSum ((initState E song rate).tracks t) < u32size)
    (hD : ∀ t : Fin 8, ((initState E song rate).tracks t).delay_samples
        * ((initState E song rate).tracks t).delay_count ≤ D)
    (hT : (song.seq_length + 1) * ((initState E song rate).quarter_note_length * 32) + D ≤ T) :
    ∀ n, n < u32size →
      stateAt E s0 n = .ended
      ∨ ∃ st, stateAt E s0 n = .going st ∧ RunInv E song rate st ∧ PitchBirth T st
          ∧ st.sample_count = n
          ∧ st.seq_count = n / (initState E song rate).quarter_note_length / 32
          ∧ st.note_count = n / (initState E song rate).quarter_note_length % 32 := by
  have hTpos : (0 : Nat) < T := by
    have h32 : 32 ≤ (initState E song rate).quarter_note_length * 32 := by omega
    have hle2 : (initState E song rate).quarter_note_length * 32
        ≤ (song.seq_length + 1) * ((initState E song rate).quarter_note_length * 32) :=
      Nat.le_mul_of_pos_left _ (by omega)
    omega
  intro n
  induction n with
  | zero =>
    intro _
    right
    have hload : load_notes (initState E song rate) = some s0 := by
      rw [← new_eq_init]
      exact hnew
    have hsh := (load_notes_SameShape hload).1
    have h0sc : s0.sample_count = 0 := hsh.2.2.2.2.2.2.2.1
    have h0nc : s0.note_count = 0 := hsh.2.2.2.2.2.2.1
    have h0sq : s0.seq_count = 0 := hsh.2.2.2.2.2.1
    have hbi : BirthBound 0 (initState E song rate) := fun i j => Nat.le_refl 0
    have hpbinit : PitchBirth T (initState E song rate) := fun i j hp => absurd rfl hp
    have hpb0 : PitchBirth T s0 :=
      load_notes_PitchBirth hload (fun _ => hTpos) hpbinit
    refine ⟨s0, rfl, ⟨hsh.1, hsh.2.2.2.1, fun t => ⟨(hsh.2.2.2.2.2.2.2.2 t).1,
        (hsh.2.2.2.2.2.2.2.2 t).2.1, (hsh.2.2.2.2.2.2.2.2 t).2.2.1⟩, by omega, ?_⟩,
      hpb0, h0sc, ?_, ?_⟩
    · rw [h0sc]
      exact load_notes_BirthBound hload (Nat.le_refl 0) hbi
    · rw [h0sq, Nat.zero_div, Nat.zero_div]
    · rw [h0nc, Nat.zero_div, Nat.zero_mod]
  | succ n ih =>
    intro hlt
    rcases ih (by omega) with hended | ⟨st, hst, hinv, hpb, hsc, hseqc, hnotc⟩
    · left
      show runStep E (stateAt E s0 n) = .ended
      rw [hended]
      rfl
    · have hsc2 : st.seq_count
          = st.sample_count / (initState E song rate).quarter_note_length / 32 := by
        rw [hsc]
        exact hseqc
      have hnc2 : st.note_count
          = st.sample_count / (initState E song rate).quarter_note_length % 32 := by
        rw [hsc]
        exact hnotc
      rcases step_safe2 hinv hpb hsc2 hnc2 hq1 hq2 hlen hseq hsum hD hT (by omega)
        with hdone | ⟨f, st1, hstep, hinv1, hpb1, hsc1, hsq1, hnt1⟩
      · left
        show runStep E (stateAt E s0 n) = .ended
        rw [hst]
        simp only [runStep]
        rw [hdone]
      · right
        refine ⟨st1, ?_, hinv1, hpb1, by rw [hsc1, hsc], by rw [hsq1, hsc],
          by rw [hnt1, hsc]⟩
        show runStep E (stateAt E s0 n) = .going st1
        rw [hst]
        simp only [runStep]
        rw [hstep]

/-- C5, amended.  Part (a) of the claim is exact: a call to `next` returns
`None` precisely when `seq_count > song.seq_length` and every voice slot of
every track has `pitch = 0`.  The finiteness part is not unconditional (the
all-zero decoded song panics on its first call instead of ever returning
`None`); it holds under the no-panic conditions together with bounds `D` on
every track's `delay_samples * delay_count` and `S` on every track's scaled
envelope sum: the synth then returns `None` within
`(seq_length + 1) * (quarter_note_length * 32) + D + S + 1` calls. -/
theorem claim_C5_amended (E : FloatEnv) (song : Song) (rate : ℚ) (D S : Nat)
    (hq1 : 1 ≤ (initState E song rate).quarter_note_length)
    (hq2 : (initState E song rate).quarter_note_length * 32 < u32size)
    (hlen : song.seq_length ≤ 47)
    (hseq : ∀ (k : Fin 8) (j : Fin 48), (song.instruments k).seq j ≤ 10)
    (hS : ∀ t : Fin 8, envSum ((initState E song rate).tracks t) ≤ S)
    (hD : ∀ t : Fin 8, ((initState E song rate).tracks t).delay_samples
        * ((initState E song rate).tracks t).delay_count ≤ D)
    (hB : (song.seq_length + 1) * ((initState E song rate).quarter_note_length * 32)
        + D + S + 1 < u32size) :
    (∀ st1 : SynthState, step E st1 = .done ↔ EndCond st1)
    ∧ ∃ s0, Synth.new E song rate = some s0
        ∧ ∃ n, n ≤ (song.seq_length + 1)
              * ((initState E song rate).quarter_note_length * 32) + D + S + 1
            ∧ (callAt E s0 n).isDone = true := by
  refine ⟨fun st1 => step_done_iff E st1, ?_⟩
  have hsum : ∀ t : Fin 8, envSum ((initState E song rate).tracks t) < u32size := by
    intro t
    have := hS t
    omega
  have hnc0 : (initState E song rate).note_count < 32 := by
    show 0 < 32
    norm_num
  obtain ⟨s0, hnew0⟩ := @load_notes_some (initState E song rate) hlen hseq hnc0
  have hnew : Synth.new E song rate = some s0 := by
    rw [new_eq_init]
    exact hnew0
  refine ⟨s0, hnew, ?_⟩
  rcases safe_run2
      (T := (song.seq_length + 1) * ((initState E song rate).quarter_note_length * 32) + D)
      hnew hq1 hq2 hlen hseq hsum hD (le_refl _)
      ((song.seq_length + 1) * ((initState E song rate).quarter_note_length * 32) + D + S)
      (by omega)
    with hend | ⟨st, hst, hinv, hpb, hsc, hseqc, hnotc⟩
  · refine ⟨(song.seq_length + 1) * ((initState E song rate).quarter_note_length * 32)
      + D + S, by omega, ?_⟩
    unfold callAt
    rw [hend]
    rfl
  by_cases hendc : EndCond st
  · refine ⟨(song.seq_length + 1) * ((initState E song rate).quarter_note_length * 32)
      + D + S, by omega, ?_⟩
    unfold callAt
    rw [hst]
    show (step E st).isDone = true
    rw [step_done hendc]
    rfl
  obtain ⟨hsong, hqnl, henv, hnc, hbb⟩ := hinv
  have hsum2 : ∀ t : Fin 8, envSum (st.tracks t) < u32size := by
    intro t
    unfold envSum
    rw [(henv t).1]
    exact hsum t
  have hdead : ∀ i j : Fin 8, ((st.tracks i).notes j).pitch ≠ 0 →
      envSum (st.tracks i) ≤ st.sample_count - ((st.tracks i).notes j).sample_count := by
    intro i j hp
    have hbirth := hpb i j hp
    have hES : envSum (st.tracks i) ≤ S := by
      unfold envSum
      rw [(henv i).1]
      exact hS i
    rw [hsc]
    omega
  obtain ⟨out, hu, hshk, hz⟩ := update_kill hsum2 hbb hdead
  have hoqnl : out.2.quarter_note_length = st.quarter_note_length := hshk.2.2.2.1
  have hosc : out.2.sample_count = st.sample_count := hshk.2.2.2.2.2.2.2.1
  have hq0 : out.2.quarter_note_length ≠ 0 := by
    rw [hoqnl, hqnl]
    omega
  have hn1 : st.sample_count + 1 < u32size := by
    rw [hsc]
    omega
  have hmod : (st.sample_count + 1) % u32size = st.sample_count + 1 := Nat.mod_eq_of_lt hn1
  have hseqbig : song.seq_length < st.seq_count := by
    rw [hseqc]
    have hring : (song.seq_length + 1) * 32 * (initState E song rate).quarter_note_length
        = (song.seq_length + 1) * ((initState E song rate).quarter_note_length * 32) := by
      ring
    have hmulle : (song.seq_length + 1) * 32 * (initState E song rate).quarter_note_length
        ≤ (song.seq_length + 1) * ((initState E song rate).quarter_note_length * 32)
          + D + S := by omega
    have hdiv1 : (song.seq_length + 1) * 32
        ≤ ((song.seq_length + 1) * ((initState E song rate).quarter_note_length * 32) + D + S)
          / (initState E song rate).quarter_note_length :=
      (Nat.le_div_iff_mul_le (by omega)).mpr hmulle
    have hdiv2 : song.seq_length + 1
        ≤ ((song.seq_length + 1) * ((initState E song rate).quarter_note_length * 32) + D + S)
          / (initState E song rate).quarter_note_length / 32 :=
      (Nat.le_div_iff_mul_le (by norm_num)).mpr hdiv1
    omega
  have hbseq : (bump out.2).seq_count = st.seq_count := hshk.2.2.2.2.2.1
  by_cases h0 : (out.2.sample_count + 1) % u32size % out.2.quarter_note_length = 0
  · -- quarter boundary at the kill step
    have hstep := step_quarter hendc hu hq0 h0
    have hAsong : (advance_counters (bump out.2)).song = song := by
      rw [(advance_parts _).1, (bump_parts _).1, hshk.1, hsong]
    have hAq : (advance_counters (bump out.2)).quarter_note_length
        = (initState E song rate).quarter_note_length := by
      rw [(advance_parts _).2.1, (bump_parts _).2.1, hoqnl, hqnl]
    have hAtr : (advance_counters (bump out.2)).tracks = out.2.tracks := by
      rw [(advance_parts _).2.2.1, (bump_parts _).2.2.1]
    have hAsc : (advance_counters (bump out.2)).sample_count
        = (st.sample_count + 1) % u32size := by
      rw [(advance_parts _).2.2.2.1, (bump_parts _).2.2.2.2, hosc]
    have hDA : ∀ t : Fin 8, ((advance_counters (bump out.2)).tracks t).delay_samples
        * ((advance_counters (bump out.2)).tracks t).delay_count ≤ D := by
      intro t
      rw [hAtr, (hshk.2.2.2.2.2.2.2.2 t).2.1, (hshk.2.2.2.2.2.2.2.2 t).2.2.1,
        (henv t).2.1, (henv t).2.2]
      exact hD t
    have hldA : load_delayed_notes (advance_counters (bump out.2))
        = some (advance_counters (bump out.2)) := by
      refine load_delayed_late (by rw [hAq]; omega) ?_ hDA ?_
      · rw [hAq, Nat.mod_eq_of_lt hq2]
        omega
      · rw [hAsong, hAq, Nat.mod_eq_of_lt hq2, hAsc, hmod, hsc]
        omega
    have hAbig : (advance_counters (bump out.2)).seq_count
        > (advance_counters (bump out.2)).song.seq_length := by
      rw [hAsong]
      rcases advance_counts (bump out.2) with ⟨hs1, -, -⟩ | ⟨hs1, -, -⟩ <;>
        rw [hs1, hbseq] <;> omega
    have hlnA : load_notes (advance_counters (bump out.2))
        = some (advance_counters (bump out.2)) := load_notes_past hAbig
    have hstepA : step E st = .frame out.1 (advance_counters (bump out.2)) := by
      rw [hstep, hldA]
      dsimp only [Option.bind]
      rw [hlnA]
      rfl
    have hendA : EndCond (advance_counters (bump out.2)) := by
      refine ⟨hAbig, fun i j => ?_⟩
      rw [hAtr]
      exact hz i j
    refine ⟨(song.seq_length + 1) * ((initState E song rate).quarter_note_length * 32)
      + D + S + 1, by omega, ?_⟩
    unfold callAt
    have hstA1 : stateAt E s0 ((song.seq_length + 1)
        * ((initState E song rate).quarter_note_length * 32) + D + S + 1)
        = .going (advance_counters (bump out.2)) := by
      show runStep E (stateAt E s0 ((song.seq_length + 1)
        * ((initState E song rate).quarter_note_length * 32) + D + S)) = _
      rw [hst]
      simp only [runStep]
      rw [hstepA]
    rw [hstA1]
    show (step E (advance_counters (bump out.2))).isDone = true
    rw [step_done hendA]
    rfl
  · -- eighth or plain: the clock just advances
    have hBsong : (bump out.2).song = song := by
      rw [(bump_parts _).1, hshk.1, hsong]
    have hBq : (bump out.2).quarter_note_length
        = (initState E song rate).quarter_note_length := by
      rw [(bump_parts _).2.1, hoqnl, hqnl]
    have hDB : ∀ t : Fin 8, ((bump out.2).tracks t).delay_samples
        * ((bump out.2).tracks t).delay_count ≤ D := by
      intro t
      rw [(bump_parts out.2).2.2.1, (hshk.2.2.2.2.2.2.2.2 t).2.1,
        (hshk.2.2.2.2.2.2.2.2 t).2.2.1, (henv t).2.1, (henv t).2.2]
      exact hD t
    have hldB : load_delayed_notes (bump out.2) = some (bump out.2) := by
      refine load_delayed_late (by rw [hBq]; omega) ?_ hDB ?_
      · rw [hBq, Nat.mod_eq_of_lt hq2]
        omega
      · rw [hBsong, hBq, Nat.mod_eq_of_lt hq2, (bump_parts _).2.2.2.2, hosc, hmod, hsc]
        omega
    have hstepNB : step E st = .frame out.1 (bump out.2) := by
      by_cases he : (out.2.sample_count + 1) % u32size % out.2.quarter_note_length
          = out.2.eighth_note_length
      · rw [step_eighth hendc hu hq0 h0 he, hldB]
        rfl
      · exact step_plain hendc hu hq0 h0 he
    have hendB : EndCond (bump out.2) := by
      refine ⟨?_, fun i j => ?_⟩
      · rw [hbseq, hBsong]
        exact hseqbig
      · rw [(bump_parts out.2).2.2.1]
        exact hz i j
    refine ⟨(song.seq_length + 1) * ((initState E song rate).quarter_note_length * 32)
      + D + S + 1, by omega, ?_⟩
    unfold callAt
    have hstB1 : stateAt E s0 ((song.seq_length + 1)
        * ((initState E song rate).quarter_note_length * 32) + D + S + 1)
        = .going (bump out.2) := by
      show runStep E (stateAt E s0 ((song.seq_length + 1)
        * ((initState E song rate).quarter_note_length * 32) + D + S)) = _
      rw [hst]
      simp only [runStep]
      rw [hstepNB]
    rw [hstB1]
    show (step E (bump out.2)).isDone = true
    rw [step_done hendB]
    rfl

/-- Witness for `claim_C5_amended` at the S4 song with bounds `D = S = 0`. -/
theorem claim_C5_amended_witness :
    (∀ st1 : SynthState, step Edef st1 = .done ↔ EndCond st1)
    ∧ ∃ s0, Synth.new Edef s4song 44100 = some s0
        ∧ ∃ n, n ≤ (s4song.seq_length + 1)
              * ((initState Edef s4song 44100).quarter_note_length * 32) + 0 + 0 + 1
            ∧ (callAt Edef s0 n).isDone = true :=
  claim_C5_amended Edef s4song 44100 0 0 (by decide) (by decide) (by decide) (by decide)
    (by decide) (by decide) (by decide)

end Sonant
